/-
Verification of the systemtap BPF translation backend (bpf-translate.cxx,
bpf-internal.h, bpf-shared-globals.h) against its specification.

The development shallowly embeds the relevant parts of the C++ sources:
pure functions become Lean functions, the stateful translator becomes
explicit state passing over an `UPState` record, machine integers become
Nat/Int with explicit `% 2^w` where overflow matters, and fallible code
returns `Except`.  Each definition carries a comment naming the source
function and lines it embeds.  Definitions whose bodies are not part of
the provided sources (only declared in bpf-internal.h, e.g. the small
program-builder constructors implemented in bpf-opt.cxx) are modelled
from the specification and marked as such.
-/
import Mathlib

namespace bpf

/-! # Target variants and stack ceilings (bpf-internal.h:46-61) -/

/-- `enum bpf_target` (bpf-internal.h:46-49): distinguishes the in-kernel
restricted JIT interpreter from the relaxed userspace interpreter. -/
inductive bpf_target where
  | target_kernel_bpf
  | target_user_bpfinterp
deriving DecidableEq, Repr

/-- `MAX_BPF_KERNEL_STACK` (bpf-internal.h:57). -/
def MAX_BPF_KERNEL_STACK : Nat := 512

/-- `MAX_BPF_USER_STACK` (bpf-internal.h:59). -/
def MAX_BPF_USER_STACK : Nat := 65536

/-- `MAX_BPF_STACK(target)` (bpf-internal.h:60-61). -/
def MAX_BPF_STACK (target : bpf_target) : Nat :=
  if target = bpf_target.target_kernel_bpf then MAX_BPF_KERNEL_STACK
  else MAX_BPF_USER_STACK

/-- `BPF_MAXSTRINGLEN` (bpf-internal.h:64). -/
def BPF_MAXSTRINGLEN : Nat := 64

/-- `BPF_MAXMAPENTRIES` (bpf-internal.h:76). -/
def BPF_MAXMAPENTRIES : Nat := 2048

/-! # Temporary-stack accounting (claim C1)

`program::use_tmp_space` (bpf-internal.h:387-393):
```
unsigned max_tmp_space;
void use_tmp_space(unsigned bytes)
{
  if (max_tmp_space < bytes)
    max_tmp_space = bytes;
  assert(max_tmp_space <= MAX_BPF_STACK(target));
}
```
The `assert` is modelled as the `Except`-error case: `.ok` is a run in
which the assertion holds, `.error ()` is a hard assertion failure. -/

/-- Shallow embedding of `program::use_tmp_space` (bpf-internal.h:388-393).
State is the current `max_tmp_space`; the result is the new
`max_tmp_space`, or an assertion failure. -/
def use_tmp_space (target : bpf_target) (max_tmp_space : Nat) (bytes : Nat) :
    Except Unit Nat :=
  let m := if max_tmp_space < bytes then bytes else max_tmp_space
  if m ≤ MAX_BPF_STACK target then Except.ok m else Except.error ()

/-- Two consecutive `use_tmp_space` calls, propagating assertion failure. -/
def use_tmp_space2 (target : bpf_target) (max_tmp_space n m : Nat) :
    Except Unit Nat :=
  match use_tmp_space target max_tmp_space n with
  | Except.ok s => use_tmp_space target s m
  | Except.error e => Except.error e

/-! # Statistics-field interning (claim C5)

`globals::stat_fields` and the `stats_map` interning round trip
(bpf-shared-globals.h:15-48).  A `stats_map` is a `std::map<std::string,int>`;
we embed it as its lookup function `String → Option Int`, whose support is
constrained in the theorems. -/

/-- `globals::stat_fields` (bpf-shared-globals.h:15-21). -/
def stat_fields : List String := ["count", "sum"]

/-- `globals::stat_iter_field` (bpf-shared-globals.h:24). -/
def stat_iter_field : String := "count"

/-- The field loop of `globals::intern_stats_map`
(bpf-shared-globals.h:29-34): look each field up in the map (`assert`
that it is present, modelled as the error case) and append the map
index, in field order. -/
def intern_stats_map_loop (sm : String → Option Int) :
    List String → Except Unit (List Int)
  | [] => Except.ok []
  | sf :: rest =>
      match sm sf with
      | some idx => (intern_stats_map_loop sm rest).map (fun l => idx :: l)
      | none => Except.error ()

/-- `globals::intern_stats_map` (bpf-shared-globals.h:26-36). -/
def intern_stats_map (sm : String → Option Int) : Except Unit (List Int) :=
  intern_stats_map_loop sm stat_fields

/-- `globals::deintern_stats_map` (bpf-shared-globals.h:38-48): rebuild the
field-to-map-index association; the loop bound `min (ism.size)
(stat_fields.size)` is captured by `List.zip` truncating to the shorter
list. -/
def deintern_stats_map (ism : List Int) : String → Option Int :=
  fun sf => (stat_fields.zip ism).lookup sf

/-! # foreach_info interning (claim C10)

`globals::foreach_info` (bpf-internal.h:515-525) and its (de)interning
(bpf-shared-globals.h:50-74).  C++ field types: `int sort_direction`,
`unsigned sort_column`, `size_t keysize`, `size_t sort_column_size`,
`int sort_column_ofs`.  `int`/`unsigned` are 32-bit, `size_t` and the
interned words are 64-bit. -/

/-- `globals::foreach_info` (bpf-internal.h:515-525).  `int` fields are
embedded as `Int` (range constrained in theorems), `unsigned`/`size_t`
fields as `Nat`. -/
structure foreach_info where
  sort_direction : Int
  sort_column : Nat
  keysize : Nat
  sort_column_size : Nat
  sort_column_ofs : Int
deriving DecidableEq, Repr

/-- `globals::n_foreach_info_fields` (bpf-internal.h:530). -/
def n_foreach_info_fields : Nat := 5

/-- Cast of a (signed, in-range) C `int`/`size_t`-typed value to
`uint64_t`: two's-complement reduction modulo `2^64`. -/
def toU64 (x : Int) : Nat := (x % (2 ^ 64 : Int)).toNat

/-- Cast of a `uint64_t` value to a C 32-bit `int`: keep the low 32 bits
and reinterpret as two's complement. -/
def u64ToI32 (n : Nat) : Int :=
  let m : Nat := n % 2 ^ 32
  if m < 2 ^ 31 then (m : Int) else (m : Int) - 2 ^ 32

/-- Cast of a `uint64_t` value to a C 32-bit `unsigned`. -/
def u64ToU32 (n : Nat) : Nat := n % 2 ^ 32

/-- Cast of a `uint64_t` value to `size_t` (also 64-bit): identity on the
64-bit range. -/
def u64ToSize (n : Nat) : Nat := n % 2 ^ 64

/-- `globals::intern_foreach_info` (bpf-shared-globals.h:50-60): each field
is cast to `uint64_t` and listed in declaration order. -/
def intern_foreach_info (fi : foreach_info) : List Nat :=
  [ toU64 fi.sort_direction,
    toU64 (fi.sort_column : Int),
    toU64 (fi.keysize : Int),
    toU64 (fi.sort_column_size : Int),
    toU64 fi.sort_column_ofs ]

/-- `globals::deintern_foreach_info` (bpf-shared-globals.h:62-74): asserts
the interned vector has exactly `n_foreach_info_fields` entries (modelled
as the error case), then casts each entry back to its field type. -/
def deintern_foreach_info (ifi : List Nat) : Except Unit foreach_info :=
  if h : ifi.length = n_foreach_info_fields then
    Except.ok
      { sort_direction := u64ToI32 (ifi.get ⟨0, by simp [n_foreach_info_fields] at h; omega⟩)
        sort_column := u64ToU32 (ifi.get ⟨1, by simp [n_foreach_info_fields] at h; omega⟩)
        keysize := u64ToSize (ifi.get ⟨2, by simp [n_foreach_info_fields] at h; omega⟩)
        sort_column_size := u64ToSize (ifi.get ⟨3, by simp [n_foreach_info_fields] at h; omega⟩)
        sort_column_ofs := u64ToI32 (ifi.get ⟨4, by simp [n_foreach_info_fields] at h; omega⟩) }
  else Except.error ()

/-- Association-list lookup by key (embeds `std::map`/`unordered_map`
`find`). -/
def assocFind [DecidableEq κ] (k : κ) : List (κ × β) → Option β
  | [] => none
  | (k0, v) :: rest => if k0 = k then some v else assocFind k rest

/-! # Values (bpf-internal.h:120-159) -/

/-- `struct value` (bpf-internal.h:120-159), collapsing the C++ record
`{type, reg_val, imm_val, str_val, format_str}` into a tagged variant with
exactly the payload each tag uses.  `format_type` is omitted: it is only
relevant to the printf lowering, outside the modelled fragment. -/
inductive value where
  | UNINIT
  | IMM (imm_val : Int)
  | STR (str_val : String) (format_str : Bool)
  | HARDREG (reg_val : Nat)
  | TMPREG (reg_val : Nat)
deriving DecidableEq, Repr

/-! # Constant pooling (claim C4)

`program` declares (bpf-internal.h:372-381):
```
// Store at most one of each IMM and STR value:
std::unordered_map<int64_t, value *> imm_map;
std::unordered_map<std::string, value *> str_map;
std::unordered_map<std::string, value *> format_map;
value *new_imm(int64_t);
value *new_str(std::string, bool format_str = false);
```
The bodies of `new_imm`/`new_str` live in bpf-opt.cxx, which is not among
the provided sources.  They are therefore modelled from the spec.
Pointer identity is embedded as an index into the program's owned pool
`vals`: two calls return "the identical pooled value object" iff they
return the same index. -/

/-- The constant-pooling slice of `struct program` (bpf-internal.h:372-375):
the owned value objects (pointer = index into `vals`) and the three
interning maps, embedded as association lists. -/
structure PoolState where
  vals : List value
  imm_map : List (Int × Nat)
  str_map : List (String × Nat)
  format_map : List (String × Nat)
deriving DecidableEq, Repr

/-- A freshly constructed program has empty pools. -/
def PoolState.empty : PoolState := ⟨[], [], [], []⟩

/-- Modelled from the spec: `program::new_imm` (declared bpf-internal.h:380,
body in bpf-opt.cxx, not among the provided sources).  Per spec §4.2,
interning "return[s] [the] existing pooled Value if already interned",
otherwise allocates a fresh `value::mk_imm` object and records it in
`imm_map`. -/
def new_imm (st : PoolState) (i : Int) : Nat × PoolState :=
  match assocFind i st.imm_map with
  | some p => (p, st)
  | none =>
      let p := st.vals.length
      (p, { st with vals := st.vals ++ [value.IMM i],
                    imm_map := (i, p) :: st.imm_map })

/-- Modelled from the spec: `program::new_str` (declared bpf-internal.h:381,
body in bpf-opt.cxx, not among the provided sources).  Like `new_imm` but
pooled by string contents, in `format_map` when the format flag is set and
in `str_map` otherwise (bpf-internal.h:374-375 keeps the two pools
separate). -/
def new_str (st : PoolState) (s : String) (format_str : Bool) : Nat × PoolState :=
  if format_str then
    match assocFind s st.format_map with
    | some p => (p, st)
    | none =>
        (st.vals.length,
         { st with vals := st.vals ++ [value.STR s true],
                   format_map := (s, st.vals.length) :: st.format_map })
  else
    match assocFind s st.str_map with
    | some p => (p, st)
    | none =>
        (st.vals.length,
         { st with vals := st.vals ++ [value.STR s false],
                   str_map := (s, st.vals.length) :: st.str_map })

/-- Pool well-formedness: every interning-map entry points at a pool slot
holding exactly the interned content, and the pool holds at most one
`IMM` object per integer and at most one `STR` object per (contents,
format flag) pair. -/
def PoolWF (st : PoolState) : Prop :=
  (∀ i p, assocFind i st.imm_map = some p → st.vals.get? p = some (value.IMM i)) ∧
  (∀ s p, assocFind s st.str_map = some p → st.vals.get? p = some (value.STR s false)) ∧
  (∀ s p, assocFind s st.format_map = some p → st.vals.get? p = some (value.STR s true)) ∧
  (∀ p q i, st.vals.get? p = some (value.IMM i) → st.vals.get? q = some (value.IMM i) →
    p = q) ∧
  (∀ p q s fmt, st.vals.get? p = some (value.STR s fmt) →
    st.vals.get? q = some (value.STR s fmt) → p = q) ∧
  (∀ i p, st.vals.get? p = some (value.IMM i) → assocFind i st.imm_map = some p) ∧
  (∀ s p, st.vals.get? p = some (value.STR s false) → assocFind s st.str_map = some p) ∧
  (∀ s p, st.vals.get? p = some (value.STR s true) → assocFind s st.format_map = some p)

/-! # String-copy emission (claim C2)

`emit_simple_literal_str` (bpf-translate.cxx:3448-3505) and
`bpf_unparser::emit_string_copy` (bpf-translate.cxx:3516-3661) emit
4-byte store instructions (`mk_st` with `BPF_W`) writing a string to
`dest[+ofs]`.  We model the sequence of word stores the emitted code
performs on the destination: for the literal emitter the stores are a
static property of the emitted instructions; for the dynamic emitter the
store trace is a function of the source memory contents, following the
emitted CFG (word-copy blocks `block_A[i]`, zero-fill blocks
`block_B[i]`, the NUL scan, and the null-source guard). -/

/-- A single emitted 4-byte word store: destination byte offset and the
32-bit word value. -/
abbrev WordStore := Int × Nat

/-- Byte `j` (0-3, little endian) of a 32-bit word. -/
def wordByte (w : Nat) (j : Nat) : Nat := w / 256 ^ j % 256

/-- The four (address, byte) pairs written by one 4-byte word store
(little-endian target, as assumed at bpf-translate.cxx:3465). -/
def storeBytes (s : WordStore) : List (Int × Nat) :=
  [ (s.1, wordByte s.2 0), (s.1 + 1, wordByte s.2 1),
    (s.1 + 2, wordByte s.2 2), (s.1 + 3, wordByte s.2 3) ]

/-- All (address, byte) pairs written by a store sequence. -/
def bytesWritten (l : List WordStore) : List (Int × Nat) :=
  l.flatMap storeBytes

/-- The set of byte addresses written by a store sequence. -/
def writtenOffsets (l : List WordStore) : List Int :=
  (bytesWritten l).map Prod.fst

/-- One byte of the word built by `emit_simple_literal_str`
(bpf-translate.cxx:3462-3471): source byte `k` when `k < str_bytes - 1`
(within the string contents), 0 otherwise.  The source string is
embedded as its byte list (each entry < 256, the range of C++
`unsigned char`). -/
def literal_byte (src : List Nat) (k : Nat) : Nat :=
  if k < src.length then src.getD k 0 else 0

/-- The `word` built by `emit_simple_literal_str`
(bpf-translate.cxx:3459-3471), the four-iteration `j` loop unrolled:
byte `j` contributes shifted by `8*j` (little endian). -/
def literal_word (src : List Nat) (i : Nat) : Nat :=
  literal_byte src (4 * i) + literal_byte src (4 * i + 1) * 256 +
  literal_byte src (4 * i + 2) * 65536 + literal_byte src (4 * i + 3) * 16777216

/-- Number of 4-byte words covering the string and its NUL terminator:
`str_words = (str_bytes + 3) / 4` with `str_bytes = src.size() + 1`
(bpf-translate.cxx:3456-3457). -/
def str_words (src : List Nat) : Nat := (src.length + 1 + 3) / 4

/-- The word stores emitted by `emit_simple_literal_str`
(bpf-translate.cxx:3448-3505): words `0..str_words-1` hold the string
contents (bpf-translate.cxx:3459-3476); with `zero_pad`, words
`str_words..BPF_MAXSTRINGLEN/4-1` are zero-filled
(bpf-translate.cxx:3487-3495).  The trailing `BPF_ADD` computing the
result address emits no store. -/
def simple_literal_str_stores (ofs : Int) (src : List Nat) (zero_pad : Bool) :
    List WordStore :=
  (List.range' 0 (str_words src)).map
    (fun i => ((ofs + (4 * i : Nat), literal_word src i) : WordStore))
  ++ (if zero_pad then
        (List.range' (str_words src) (BPF_MAXSTRINGLEN / 4 - str_words src)).map
          (fun i => ((ofs + (4 * i : Nat), 0) : WordStore))
      else [])

/-- The 32-bit word loaded from the source at word index `i` by
`block_A[i]`'s `BPF_W` load (bpf-translate.cxx:3583-3584), given the
source's byte contents. -/
def srcWord (srcb : Nat → Nat) (i : Nat) : Nat :=
  srcb (4 * i) % 256 + srcb (4 * i + 1) % 256 * 256 +
  srcb (4 * i + 2) % 256 * 256 ^ 2 + srcb (4 * i + 3) % 256 * 256 ^ 3

/-- 64-bit `BPF_NEG`: two's complement negation modulo `2^64`. -/
def bpfNeg64 (b : Nat) : Nat := (2 ^ 64 - b % 2 ^ 64) % 2 ^ 64

/-- The `all_nz` register computed by the NUL-scan bit fiddling
(bpf-translate.cxx:3596-3631): for each byte `bN` of the word,
`nZ := (-bN) | bN`; `all_nz` is the AND of the four `nZ` values and is 0
iff the word contains a NUL byte. -/
def all_nz (w : Nat) : Nat :=
  let nz := fun j => (bpfNeg64 (w / 256 ^ j % 256)) ||| (w / 256 ^ j % 256)
  nz 0 &&& nz 1 &&& nz 2 &&& nz 3

/-- The zero-fill stores performed by running blocks
`block_B[i], ..., block_B[str_words-1]` (bpf-translate.cxx:3639-3650):
word stores of 0 at word offsets `i..15`. -/
def padB_stores (ofs : Int) (i : Nat) : List WordStore :=
  (List.range' i (BPF_MAXSTRINGLEN / 4 - i)).map
    (fun k => ((ofs + (4 * k : Nat), 0) : WordStore))

/-- The stores performed by executing the dynamic copy loop from
`block_A[i]` (bpf-translate.cxx:3565-3635): store word `i`; if
`i = str_words - 1` fall through to the return block; otherwise test
`all_nz` — on zero (NUL found) continue with the zero-fill chain
(`zero_pad`) or stop, on nonzero continue with `block_A[i+1]`.  `fuel`
is `str_words - i` in the emitted unrolled code. -/
def copyA_stores (srcb : Nat → Nat) (ofs : Int) (zero_pad : Bool) :
    Nat → Nat → List WordStore
  | _, 0 => []
  | i, fuel + 1 =>
      let w := srcWord srcb i
      ((ofs + (4 * i : Nat), w) : WordStore) ::
        (if i = BPF_MAXSTRINGLEN / 4 - 1 then []
         else if all_nz w = 0 then (if zero_pad then padB_stores ofs (i + 1) else [])
         else copyA_stores srcb ofs zero_pad (i + 1) fuel)

/-- The word index at which the dynamic copy loop entered at
`block_A[i]` performs its last store: the first word whose `all_nz`
test finds a NUL byte, or word `str_words - 1 = 15`, whichever comes
first (the last word is stored and finishes unconditionally,
bpf-translate.cxx:3589-3594). -/
def copyStop (srcb : Nat → Nat) : Nat → Nat → Nat
  | i, 0 => i
  | i, fuel + 1 =>
      if i = BPF_MAXSTRINGLEN / 4 - 1 then i
      else if all_nz (srcWord srcb i) = 0 then i
      else copyStop srcb (i + 1) fuel

/-- The store trace of the code emitted by
`bpf_unparser::emit_string_copy` for a non-literal source
(bpf-translate.cxx:3516-3661), as a function of the runtime source
pointer (null or not) and source byte contents.  A null source runs the
null-pointer guard (bpf-translate.cxx:3538-3555): with `zero_pad` it
enters the zero-fill chain at word 0 (`block_B[0]` is the null-copy
block, bpf-translate.cxx:3563), otherwise it copies the empty literal
string. -/
def string_copy_stores (srcNull : Bool) (srcb : Nat → Nat) (ofs : Int)
    (zero_pad : Bool) : List WordStore :=
  if srcNull then
    if zero_pad then padB_stores ofs 0
    else simple_literal_str_stores ofs [] false
  else
    copyA_stores srcb ofs zero_pad 0 (BPF_MAXSTRINGLEN / 4)

/-! # Shared front-end types and errors -/

/-- Translation-time failures.  `semantic` embeds `SEMANTIC_ERROR(msg, tok)`
(a location-tagged translation error); `assertFail` embeds a failed C
`assert`; `outOfFuel` is an artifact of the fuel-based embedding of the
recursive tree walk and corresponds to no source behavior. -/
inductive Err where
  | semantic (msg : String) (tok : Nat)
  | assertFail (msg : String)
  | outOfFuel
deriving DecidableEq, Repr

/-- `exp_type` from staptree.h (outside the provided sources), restricted
to the alternatives the provided sources inspect. -/
inductive ExpType where
  | pe_unknown
  | pe_long
  | pe_string
  | pe_stats
deriving DecidableEq, Repr, Inhabited

/-- `struct vardecl` from staptree.h (outside the provided sources),
restricted to the fields the provided sources read: identity (C++ object
address, embedded as `id`), value type, arity, per-dimension index types,
declared capacity (`maxsize`) and source token.  C++ `arity` is an `int`;
front-end-resolved declarations have `arity = index_types.size() ≥ 0`,
embedded as `Nat`. -/
structure VarDecl where
  id : Nat
  ty : ExpType
  arity : Nat
  index_types : List ExpType
  maxsize : Nat
  tok : Nat
deriving DecidableEq, Repr, Inhabited

/-- In-place list update at an index (out-of-range indices are untouched,
mirroring that the C++ never indexes out of range at the call sites). -/
def listModify : List α → Nat → (α → α) → List α
  | [], _, _ => []
  | x :: xs, 0, f => f x :: xs
  | x :: xs, n + 1, f => x :: listModify xs n f

/-- Association-list insert-or-update (update in place, append if new),
mirroring `std::unordered_map::operator[]=` up to iteration order (never
observed by the embedded code). -/
def assocSet (k : Nat) (v : β) : List (Nat × β) → List (Nat × β)
  | [] => [(k, v)]
  | (k0, v0) :: rest =>
      if k0 = k then (k, v) :: rest else (k0, v0) :: assocSet k v rest

/-! # Storage layout planning (claim C9)

`translate_globals` (bpf-translate.cxx:4214-4377) and
`build_internal_globals` (bpf-translate.cxx:4182-4212). -/

/-- `globals::bpf_map_def` (bpf-internal.h:435-442). -/
structure bpf_map_def where
  type : Nat
  key_size : Nat
  value_size : Nat
  max_entries : Nat
  map_flags : Nat
deriving DecidableEq, Repr, Inhabited

/-- Map type constants from linux/bpf.h (external header). -/
def BPF_MAP_TYPE_HASH : Nat := 1
def BPF_MAP_TYPE_ARRAY : Nat := 2
def BPF_MAP_TYPE_PERF_EVENT_ARRAY : Nat := 4
def BPF_MAP_TYPE_PERCPU_HASH : Nat := 5
def BPF_MAP_TYPE_PERCPU_ARRAY : Nat := 6

/-- `globals::map_slot` (bpf-internal.h:466-472): `map_id = -1` marks a
statistics aggregate, `idx = -1` marks a non-scalar. -/
structure map_slot where
  map_id : Int
  idx : Int
deriving DecidableEq, Repr

/-- `map_slot::is_scalar` (bpf-internal.h:469). -/
def map_slot.is_scalar (ms : map_slot) : Bool := ms.idx ≥ 0

/-- `map_slot.is_stat` (bpf-internal.h:470). -/
def map_slot.is_stat (ms : map_slot) : Bool := ms.map_id < 0

/-- Keys of `globals::globals`: the two internal vardecl objects owned by
`struct globals` (bpf-internal.h:544-545) are distinct from every
user-script vardecl, embedded as separate constructors. -/
inductive VKey where
  | internal_exit
  | internal_errors
  | user (id : Nat)
deriving DecidableEq, Repr

/-- `globals::internal_global_idx` EXIT/ERRORS/NUM_INTERNALS
(bpf-internal.h:548-553). -/
def idx_EXIT : Nat := 0
def idx_ERRORS : Nat := 1
def NUM_INTERNALS : Nat := 2

/-- `globals::internal_map_idx` (bpf-internal.h:541). -/
def internal_map_idx : Int := 0

/-- `globals::NUM_CPUS_PLACEHOLDER` (bpf-internal.h:562). -/
def NUM_CPUS_PLACEHOLDER : Nat := 0

/-- The slice of `struct globals` (bpf-internal.h:432-590) populated by
`translate_globals`: the map-definition table, the variable-to-slot map,
the scalar/array statistics map-sets and the aggregate identifiers.
Association lists embed the C++ maps (keyed by vardecl identity or stat
field). -/
structure GlobSt where
  maps : List bpf_map_def
  globalsAssoc : List (VKey × map_slot)
  scalar_stats : List (String × Int)
  array_stats : List (Nat × List (String × Int))
  aggregates : List (Nat × Int)
deriving DecidableEq, Repr

/-- `build_internal_globals` (bpf-translate.cxx:4182-4212): installs the
internal exit/errors slots in map 0 and pushes the internal-globals map
and the perf-event transport map. -/
def build_internal_globals : GlobSt :=
  { maps :=
      [ ⟨BPF_MAP_TYPE_HASH, 4, 8, NUM_INTERNALS, 0⟩,
        ⟨BPF_MAP_TYPE_PERF_EVENT_ARRAY, 4, 4, NUM_CPUS_PLACEHOLDER, 0⟩ ]
    globalsAssoc :=
      [ (VKey.internal_exit, ⟨0, (idx_EXIT : Int)⟩),
        (VKey.internal_errors, ⟨0, (idx_ERRORS : Int)⟩) ]
    scalar_stats := []
    array_stats := []
    aggregates := [] }

/-- Accumulator of `translate_globals`' loop: the globals under
construction plus the shared-scalar-map ids `long_map`/`str_map`
(initialized to -1, bpf-translate.cxx:4217-4218). -/
structure TGAcc where
  glob : GlobSt
  long_map : Int
  str_map : Int
deriving DecidableEq, Repr

/-- The `do { --element; ... } while (element)` key-size scan of an array
variable's index types (bpf-translate.cxx:4299-4315), iterating from the
last dimension down to the first: 8 bytes per integer component,
`BPF_MAXSTRINGLEN` per string component, error on anything else. -/
def array_key_size (v : VarDecl) : Nat → Except Err Nat
  | 0 => Except.ok 0
  | element + 1 =>
      match v.index_types.getD element ExpType.pe_unknown with
      | ExpType.pe_long => (array_key_size v element).map (fun k => k + 8)
      | ExpType.pe_string => (array_key_size v element).map (fun k => k + BPF_MAXSTRINGLEN)
      | _ => Except.error (Err.semantic "unhandled index type" v.tok)

/-- One iteration of `translate_globals`' scalar `pe_stats` field loop
(bpf-translate.cxx:4276-4288): `check_idx = maps[map_id].max_entries++`
for each stat field, asserting all fields yield the same index. -/
def scalar_stats_add_element (glob : GlobSt) :
    List String → Int → Except Err (GlobSt × Int)
  | [], this_idx => Except.ok (glob, this_idx)
  | f :: rest, this_idx =>
      match assocFind f glob.scalar_stats with
      | none => Except.error (Err.assertFail "scalar_stats missing stat field")
      | some map_id =>
          let check_idx : Int :=
            ((glob.maps.getD map_id.toNat default).max_entries : Int)
          let glob' := { glob with
            maps := listModify glob.maps map_id.toNat
              (fun m => { m with max_entries := m.max_entries + 1 }) }
          if this_idx = -1 then
            scalar_stats_add_element glob' rest check_idx
          else if check_idx = this_idx then
            scalar_stats_add_element glob' rest this_idx
          else
            Except.error (Err.assertFail "stat field arrays not all same length")

/-- The array `pe_stats` per-field loop (bpf-translate.cxx:4321-4339):
one `BPF_MAP_TYPE_PERCPU_HASH` map per stat field, recording its id in
`array_stats[v]`, and the `agg_idx` assignment
`aggregates[v] = 1 + aggregates.size()` re-executed per field (the size
is read before any insertion, per C++17 sequencing of built-in
assignment). -/
def array_stats_fields (v : VarDecl) (key_size max_entries : Nat)
    (glob : GlobSt) : List String → GlobSt
  | [] => glob
  | f :: rest =>
      let m : bpf_map_def :=
        ⟨BPF_MAP_TYPE_PERCPU_HASH, key_size, 8, max_entries, 0⟩
      let map_id : Int := (glob.maps.length : Int)
      let fieldAssoc := (assocFind v.id glob.array_stats).getD []
      let glob' := { glob with
        maps := glob.maps ++ [m],
        array_stats := assocSet v.id (fieldAssoc ++ [(f, map_id)]) glob.array_stats,
        aggregates := assocSet v.id (1 + (glob.aggregates.length : Int))
          glob.aggregates }
      array_stats_fields v key_size max_entries glob' rest

/-- One iteration of the scalar `pe_stats` bootstrap loop
(bpf-translate.cxx:4259-4272): on first encountering a scalar statistics
variable, push one `BPF_MAP_TYPE_PERCPU_ARRAY` map per stat field and
record its id under the field name. -/
def scalar_stats_boot (g : GlobSt) (f : String) : GlobSt :=
  { g with
    maps := g.maps ++ [⟨BPF_MAP_TYPE_PERCPU_ARRAY, 4, 8, 0, 0⟩],
    scalar_stats := g.scalar_stats ++ [(f, (g.maps.length : Int))] }

/-- The `switch (v->arity)` body of `translate_globals`' loop
(bpf-translate.cxx:4226-4369), producing the variable's
`(this_map, this_idx)` slot and the updated accumulator. -/
def translate_global_core (acc : TGAcc) (v : VarDecl) :
    Except Err (TGAcc × Int × Int) :=
  (match v.arity with
   | 0 =>
      -- scalars (bpf-translate.cxx:4228-4295)
      (match v.ty with
       | ExpType.pe_long =>
          let acc :=
            if acc.long_map < 0 then
              { acc with
                long_map := (acc.glob.maps.length : Int),
                glob := { acc.glob with maps := acc.glob.maps ++
                  [⟨BPF_MAP_TYPE_ARRAY, 4, 8, 0, 0⟩] } }
            else acc
          let this_idx : Int :=
            ((acc.glob.maps.getD acc.long_map.toNat default).max_entries : Int)
          let glob := { acc.glob with
            maps := listModify acc.glob.maps acc.long_map.toNat
              (fun m => { m with max_entries := m.max_entries + 1 }) }
          Except.ok ({ acc with glob := glob }, acc.long_map, this_idx)
       | ExpType.pe_string =>
          let acc :=
            if acc.str_map < 0 then
              { acc with
                str_map := (acc.glob.maps.length : Int),
                glob := { acc.glob with maps := acc.glob.maps ++
                  [⟨BPF_MAP_TYPE_ARRAY, 4, BPF_MAXSTRINGLEN, 0, 0⟩] } }
            else acc
          let this_idx : Int :=
            ((acc.glob.maps.getD acc.str_map.toNat default).max_entries : Int)
          let glob := { acc.glob with
            maps := listModify acc.glob.maps acc.str_map.toNat
              (fun m => { m with max_entries := m.max_entries + 1 }) }
          Except.ok ({ acc with glob := glob }, acc.str_map, this_idx)
       | ExpType.pe_stats =>
          -- bpf-translate.cxx:4257-4290
          let glob :=
            if acc.glob.scalar_stats = [] then
              stat_fields.foldl scalar_stats_boot acc.glob
            else acc.glob
          (scalar_stats_add_element glob stat_fields (-1)).bind
            (fun r =>
              if r.2 ≥ 0 then Except.ok ({ acc with glob := r.1 }, (-1 : Int), r.2)
              else Except.error (Err.assertFail "stat scalar index unassigned"))
       | _ => Except.error (Err.semantic "unhandled scalar type" v.tok))
   | _ + 1 =>
      -- arrays, one or more dimension (bpf-translate.cxx:4297-4368)
      (array_key_size v v.arity).bind (fun key_size =>
        let max_entries := if v.maxsize > 0 then v.maxsize else BPF_MAXMAPENTRIES
        if v.ty = ExpType.pe_stats then
          let glob := { acc.glob with array_stats := assocSet v.id [] acc.glob.array_stats }
          let glob := array_stats_fields v key_size max_entries glob stat_fields
          Except.ok ({ acc with glob := glob }, (-1 : Int), (-1 : Int))
        else
          (match v.ty with
           | ExpType.pe_long => Except.ok 8
           | ExpType.pe_string => Except.ok BPF_MAXSTRINGLEN
           | _ => Except.error (Err.semantic "unhandled array element type" v.tok)).bind
          (fun value_size =>
            let m : bpf_map_def := ⟨BPF_MAP_TYPE_HASH, key_size, value_size, max_entries, 0⟩
            let this_map : Int := (acc.glob.maps.length : Int)
            Except.ok ({ acc with glob := { acc.glob with maps := acc.glob.maps ++ [m] } },
              this_map, (-1 : Int)))))

/-- The tail of `translate_globals`' per-variable loop body
(bpf-translate.cxx:4371-4375): assert the variable was not assigned the
internal map, then record its slot (asserting the vardecl is new). -/
def translate_global_var (acc : TGAcc) (v : VarDecl) : Except Err TGAcc :=
  (translate_global_core acc v).bind (fun r =>
    let acc' := r.1
    let this_map := r.2.1
    let this_idx := r.2.2
    -- assert(this_map != globals::internal_map_idx) (bpf-translate.cxx:4371)
    if this_map = internal_map_idx then
      Except.error (Err.assertFail "user variable assigned to internal map")
    else
      -- glob.globals.insert + assert(ok.second) (bpf-translate.cxx:4372-4375)
      match assocFind (VKey.user v.id) acc'.glob.globalsAssoc with
      | some _ => Except.error (Err.assertFail "duplicate vardecl in globals")
      | none => Except.ok { acc' with glob := { acc'.glob with
          globalsAssoc := acc'.glob.globalsAssoc ++
            [(VKey.user v.id, ⟨this_map, this_idx⟩)] } })

/-- Loop of `translate_globals` over the session's global variable list
(bpf-translate.cxx:4221-4377). -/
def translate_globals_loop (acc : TGAcc) : List VarDecl → Except Err TGAcc
  | [] => Except.ok acc
  | v :: vs =>
      (translate_global_var acc v).bind (fun acc' => translate_globals_loop acc' vs)

/-- `translate_globals` (bpf-translate.cxx:4214-4377): start from a fresh
globals state, install the internal globals, and process the declared
variables in order. -/
def translate_globals (vs : List VarDecl) : Except Err GlobSt :=
  (translate_globals_loop ⟨build_internal_globals, -1, -1⟩ vs).map TGAcc.glob

/-- A user-script variable that receives its own dedicated map from the
planner: an array (arity ≥ 1) that is not a statistics aggregate. -/
def isUserArray (v : VarDecl) : Prop :=
  1 ≤ v.arity ∧ v.ty ≠ ExpType.pe_stats

/-! # The AST-to-CFG translator model (claims C3, C6, C7, C8)

A shallow embedding of `bpf_unparser` (bpf-translate.cxx:146-309) and the
program-builder operations it uses.  The unparser's mutable fields and
the `program`/`globals` objects it writes into become one state record
`tr.UPState`; each `visit_*`/`emit_*` member function becomes a function
in the state-error monad `tr.EmitM`, with a fuel argument making the
tree-walk recursion (which goes through function-body inlining)
structurally terminating.  The modelled statement/expression fragment
and any omissions are documented on each constructor. -/

namespace tr

/-- `enum condition` (bpf-internal.h:115-118): the eleven emulated
comparison codes, including the bit-test variant `TEST`. -/
inductive Cond where
  | EQ | NE | LT | LE | GT | GE | LTU | LEU | GTU | GEU | TEST
deriving DecidableEq, Repr

/-- ALU opcodes (`BPF_ADD` etc. from linux/bpf.h), named rather than
numeric. -/
inductive AluOp where
  | ADD | SUB | MUL | DIV | MOD | AND | OR | XOR | LSH | RSH | ARSH | NEG
deriving DecidableEq, Repr

/-- Load/store widths `BPF_B`/`BPF_H`/`BPF_W`/`BPF_DW`. -/
inductive LdSz where
  | B | H | W | DW
deriving DecidableEq, Repr

/-- `struct insn` (bpf-internal.h:239-265), restricted to the shapes the
translator emits through the `program::mk_*` helpers; the linked-list
position lives in the owning block's instruction list. -/
inductive Insn where
  | alu (op : AluOp) (dest s0 s1 : value)
  | unop (op : AluOp) (dest src : value)
  | mov (dest src : value)
  | ld (sz : LdSz) (dest base : value) (off : Int)
  | st (sz : LdSz) (base : value) (off : Int) (src : value)
  | call (id : Int) (nargs : Nat)
  | jcond (c : Cond) (s0 s1 : value)
  | loadmap (dest : value) (src : Int)
  | exitInsn
deriving DecidableEq, Repr

/-- `struct block` (bpf-internal.h:283-297): instruction list plus the
`taken` and `fallthru` successor edges (block ids).  The incoming-edge
set `prevs` is derivable from the other blocks' edges and is recomputed
by `predsOf` below. -/
structure BBlock where
  insns : List Insn
  taken : Option Nat
  fallthru : Option Nat
deriving DecidableEq, Repr, Inhabited

/-- The fresh block allocated by `program::new_block`. -/
def BBlock.empty : BBlock := ⟨[], none, none⟩

/-- Helper-function ids (`bpf_func_id`): positive ids from linux/bpf.h,
negative pseudo-helper ids from bpf-internal.h:227-237. -/
def BPF_FUNC_map_lookup_elem : Int := 1
def BPF_FUNC_map_update_elem : Int := 2
def BPF_FUNC_probe_read : Int := 4
def BPF_FUNC_perf_event_output : Int := 25
def BPF_FUNC_map_get_next_key : Int := -1

/-- `BPF_F_CURRENT_CPU` (linux/bpf.h): `0xffffffffULL`. -/
def BPF_F_CURRENT_CPU : Int := 4294967295

/-- `globals::perf_event_map_idx` (bpf-internal.h:558). -/
def perf_event_map_idx : Int := 1

/-- `globals::perf_event_type` values (bpf-internal.h:565-577). -/
def STP_EXIT : Int := 0
def STP_ERROR : Int := 1
def STP_STORE_ERROR_MSG : Int := 2
def STP_PRINT_ERROR_MSG : Int := 3

/-- The mutable state of one translation unit: the `program` being built
(bpf-internal.h:362-418), the `bpf_unparser` visitor fields
(bpf-translate.cxx:151-192) and the slices of `globals` the modelled
fragment reads or writes.  `locals` embeds `*this_locals` (vardecl
identity → value).  `maxerrors` embeds `constraints["MAXERRORS"]`
(default 0, bpf-translate.cxx:316-331, 4769). -/
structure UPState where
  target : bpf_target
  blocks : List BBlock
  nextReg : Nat
  cur : Option Nat
  loop_break : List Nat
  loop_cont : List Nat
  func_return : List Nat
  func_return_val : List value
  func_calls : List Nat
  catch_jump : List Nat
  catch_msg : List value
  locals : List (Nat × value)
  globalsAssoc : List (VKey × map_slot)
  array_stats : List (Nat × List (String × Int))
  foreach_loop_info : List foreach_info
  max_tmp_space : Nat
  exit_block : Option Nat
  error_status : Option value
  this_in_arg0 : Option value
  maxerrors : Int
deriving DecidableEq, Repr

/-- The translator monad: state passing with location-tagged errors.
An error result carries the state at the throw point, so "fails before
emitting anything" is expressible as state preservation. -/
def EmitM (α : Type) : Type := UPState → Except (Err × UPState) (α × UPState)

instance : Monad EmitM where
  pure a := fun st => Except.ok (a, st)
  bind m f := fun st =>
    match m st with
    | Except.ok (a, st') => f a st'
    | Except.error e => Except.error e

/-- Read the current state. -/
def eGet : EmitM UPState := fun st => Except.ok (st, st)

/-- Raise an error, recording the state at the throw point. -/
def eThrow (e : Err) : EmitM α := fun st => Except.error (e, st)

/-- `bpf_unparser::set_block` (bpf-translate.cxx:160-161); the
instruction cursor always points at the block end (append inserter). -/
def set_block (b : Nat) : EmitM Unit :=
  fun st => Except.ok ((), { st with cur := some b })

/-- `bpf_unparser::clear_block` (bpf-translate.cxx:162-163). -/
def clear_block : EmitM Unit :=
  fun st => Except.ok ((), { st with cur := none })

/-- Run an action only when `in_block()` (bpf-translate.cxx:164-165)
holds — the recurring `if (in_block ()) emit_jmp (...)` pattern. -/
def ifInBlock (m : EmitM Unit) : EmitM Unit := do
  let st ← eGet
  if st.cur.isSome then m else pure ()

/-- Modelled from the spec: `program::new_block` (declared
bpf-internal.h:367, body outside the provided sources).  Per spec §4.2 a
new block is appended to the program's block list and given a unique
ordinal — here its index. -/
def new_block : EmitM Nat :=
  fun st => Except.ok (st.blocks.length,
    { st with blocks := st.blocks ++ [BBlock.empty] })

/-- Modelled from the spec: `program::new_reg` (declared
bpf-internal.h:379, body outside the provided sources): grows the
register pool and returns a fresh `TMPREG` value. -/
def new_reg : EmitM value :=
  fun st => Except.ok (value.TMPREG st.nextReg, { st with nextReg := st.nextReg + 1 })

/-- Modelled from the spec: `program::new_imm` (declared
bpf-internal.h:380).  In this CFG model interning identity is not
tracked (see `PoolState` for the pooling model of claim C4); the call
yields the `IMM` value object. -/
def new_imm (i : Int) : EmitM value := pure (value.IMM i)

/-- Modelled from the spec: `program::lookup_reg` (declared
bpf-internal.h:378) applied to the fixed hard registers `BPF_REG_0` ..
`BPF_REG_10`. -/
def lookup_reg (r : Nat) : EmitM value := pure (value.HARDREG r)

/-- Append an instruction at the current insertion point (the
`insn_append_inserter` cursor, bpf-internal.h:354-360); emitting with no
current block would dereference a null block in C++ and is modelled as
an assertion failure. -/
def appendInsn (i : Insn) : EmitM Unit := fun st =>
  match st.cur with
  | none => Except.error (Err.assertFail "insn emitted with no current block", st)
  | some b => Except.ok ((),
      { st with blocks :=
          listModify st.blocks b (fun blk => { blk with insns := blk.insns ++ [i] }) })

/-- Set the current block's `taken`/`fallthru` edges. -/
def setEdgesCur (t f : Option Nat) : EmitM Unit := fun st =>
  match st.cur with
  | none => Except.error (Err.assertFail "edges set with no current block", st)
  | some b => Except.ok ((),
      { st with blocks :=
          listModify st.blocks b (fun blk => { blk with taken := t, fallthru := f }) })

/-- Modelled from the spec: `program::mk_mov` (declared
bpf-internal.h:405): emits one move instruction. -/
def mk_mov (d s : value) : EmitM Unit := appendInsn (Insn.mov d s)

/-- `bpf_unparser::emit_mov` (bpf-translate.cxx:410-414). -/
def emit_mov (d s : value) : EmitM Unit := mk_mov d s

/-- Modelled from the spec: `program::mk_unary` (bpf-internal.h:402). -/
def mk_unary (op : AluOp) (d s : value) : EmitM Unit := appendInsn (Insn.unop op d s)

/-- Modelled from the spec: `program::mk_binary` (bpf-internal.h:403). -/
def mk_binary (op : AluOp) (d s0 s1 : value) : EmitM Unit :=
  appendInsn (Insn.alu op d s0 s1)

/-- Modelled from the spec: `program::mk_ld` (bpf-internal.h:400). -/
def mk_ld (sz : LdSz) (dest base : value) (off : Int) : EmitM Unit :=
  appendInsn (Insn.ld sz dest base off)

/-- Modelled from the spec: `program::mk_st` (bpf-internal.h:401). -/
def mk_st (sz : LdSz) (base : value) (off : Int) (src : value) : EmitM Unit :=
  appendInsn (Insn.st sz base off src)

/-- Modelled from the spec: `program::mk_call` (bpf-internal.h:406):
call-by-numeric-id with a declared argument count. -/
def mk_call (id : Int) (nargs : Nat) : EmitM Unit := appendInsn (Insn.call id nargs)

/-- Modelled from the spec: `program::mk_exit` (bpf-internal.h:407). -/
def mk_exit : EmitM Unit := appendInsn Insn.exitInsn

/-- Modelled from the spec: `program::load_map` (bpf-internal.h:411): the
pseudo-op loading a map reference, later turned into a relocation. -/
def load_map (dest : value) (src : Int) : EmitM Unit :=
  appendInsn (Insn.loadmap dest src)

/-- Modelled from the spec: `program::mk_jcond` (bpf-internal.h:409-410):
emits one conditional-jump instruction and wires the current block's
`taken` edge to `t` and `fallthru` edge to `f` (spec §4.2: "conditional
jump with one of eleven comparison kinds including a bit-test variant";
§4.1 edge registration). -/
def mk_jcond (c : Cond) (s0 s1 : value) (t f : Nat) : EmitM Unit := do
  appendInsn (Insn.jcond c s0 s1)
  setEdgesCur (some t) (some f)

/-- `bpf_unparser::emit_jmp` (bpf-translate.cxx:417-425): asserts
`in_block()`, places the destination as the current block's `fallthru`
edge (no instruction is emitted) and clears the current block. -/
def emit_jmp (b : Nat) : EmitM Unit := fun st =>
  match st.cur with
  | none => Except.error (Err.assertFail "emit_jmp outside of a block", st)
  | some cb =>
      let blocks := listModify st.blocks cb (fun blk => { blk with fallthru := some b })
      Except.ok ((), { st with blocks := blocks, cur := none })

/-- `program::use_tmp_space` lifted into the translator state
(bpf-internal.h:388-393); the assertion failure becomes a hard error. -/
def use_tmp_space (bytes : Nat) : EmitM Unit := fun st =>
  match bpf.use_tmp_space st.target st.max_tmp_space bytes with
  | Except.ok m => Except.ok ((), { st with max_tmp_space := m })
  | Except.error _ =>
      Except.error (Err.assertFail "max_tmp_space exceeds MAX_BPF_STACK", st)

/-- `loop_break.push_back` (bpf-translate.cxx:168). -/
def pushBreak (b : Nat) : EmitM Unit :=
  fun st => Except.ok ((), { st with loop_break := b :: st.loop_break })

/-- `loop_break.pop_back`. -/
def popBreak : EmitM Unit :=
  fun st => Except.ok ((), { st with loop_break := st.loop_break.tail })

/-- `loop_cont.push_back` (bpf-translate.cxx:169). -/
def pushCont (b : Nat) : EmitM Unit :=
  fun st => Except.ok ((), { st with loop_cont := b :: st.loop_cont })

/-- `loop_cont.pop_back`. -/
def popCont : EmitM Unit :=
  fun st => Except.ok ((), { st with loop_cont := st.loop_cont.tail })

/-- `catch_jump.push_back` (bpf-translate.cxx:178, 2022). -/
def pushCatch (b : Nat) : EmitM Unit :=
  fun st => Except.ok ((), { st with catch_jump := b :: st.catch_jump })

/-- `catch_jump.pop_back` (bpf-translate.cxx:2031). -/
def popCatch : EmitM Unit :=
  fun st => Except.ok ((), { st with catch_jump := st.catch_jump.tail })

/-- `catch_msg.push_back` (bpf-translate.cxx:1821). -/
def pushCatchMsg (v : value) : EmitM Unit :=
  fun st => Except.ok ((), { st with catch_msg := v :: st.catch_msg })

/-- `catch_msg.back()` followed by `catch_msg.pop_back()`
(bpf-translate.cxx:2050-2051); calling `back()` on an empty vector is
undefined behavior in C++, modelled as an assertion failure. -/
def popCatchMsg : EmitM value := fun st =>
  match st.catch_msg with
  | [] => Except.error (Err.assertFail "catch_msg empty", st)
  | m :: rest => Except.ok (m, { st with catch_msg := rest })

/-- `func_calls.push_back` (bpf-translate.cxx:3709). -/
def pushFuncCall (f : Nat) : EmitM Unit :=
  fun st => Except.ok ((), { st with func_calls := f :: st.func_calls })

/-- `func_calls.pop_back` (bpf-translate.cxx:3715). -/
def popFuncCall : EmitM Unit :=
  fun st => Except.ok ((), { st with func_calls := st.func_calls.tail })

/-- `func_return.push_back` (bpf-translate.cxx:3710). -/
def pushFuncReturn (b : Nat) : EmitM Unit :=
  fun st => Except.ok ((), { st with func_return := b :: st.func_return })

/-- `func_return.pop_back` (bpf-translate.cxx:3714). -/
def popFuncReturn : EmitM Unit :=
  fun st => Except.ok ((), { st with func_return := st.func_return.tail })

/-- `func_return_val.push_back` (bpf-translate.cxx:3711). -/
def pushFuncReturnVal (v : value) : EmitM Unit :=
  fun st => Except.ok ((), { st with func_return_val := v :: st.func_return_val })

/-- `func_return_val.pop_back` (bpf-translate.cxx:3713). -/
def popFuncReturnVal : EmitM Unit :=
  fun st => Except.ok ((), { st with func_return_val := st.func_return_val.tail })

/-- Replace `this_locals` (the pointer swap at bpf-translate.cxx:3703-3704
and 3721). -/
def setLocals (l : List (Nat × value)) : EmitM Unit :=
  fun st => Except.ok ((), { st with locals := l })

/-- Record the memoized `exit_block` (bpf-translate.cxx:374). -/
def setExitBlock (b : Nat) : EmitM Unit :=
  fun st => Except.ok ((), { st with exit_block := some b })

/-- `glob.foreach_loop_info.push_back(info)` (bpf-translate.cxx:2231). -/
def pushForeachInfo (info : foreach_info) : EmitM Unit :=
  fun st => Except.ok ((),
    { st with foreach_loop_info := st.foreach_loop_info ++ [info] })

/-- Lookup in `globals::globals` by vardecl identity. -/
def vkFind (k : VKey) (l : List (VKey × map_slot)) : Option map_slot :=
  assocFind k l

/-- `bpf_unparser::emit_transport_msg` (bpf-translate.cxx:3784-3875) for
`arg == NULL` — the only shape reachable from the modelled fragment
(`add_epilogue`'s `STP_PRINT_ERROR_MSG` and `STP_ERROR` notifications):
`arg_size = 0`, `msg_ofs = -8`, reserve stack, store the message word,
then the five-argument `perf_event_output` call. -/
def emit_transport_msg_noarg (msg : Int) : EmitM Unit := do
  let msg_ofs : Int := -8
  use_tmp_space 8
  let frame ← lookup_reg 10
  let mv ← new_imm msg
  mk_st LdSz.DW frame msg_ofs mv
  let st ← eGet
  let ctx ← (match st.this_in_arg0 with
             | none => new_imm 0
             | some a => pure a)
  let r1 ← lookup_reg 1
  emit_mov r1 ctx
  let r2 ← lookup_reg 2
  load_map r2 perf_event_map_idx
  let r3 ← lookup_reg 3
  let cpuv ← new_imm BPF_F_CURRENT_CPU
  emit_mov r3 cpuv
  let r4 ← lookup_reg 4
  let ofsv ← new_imm msg_ofs
  mk_binary AluOp.ADD r4 frame ofsv
  let r5 ← lookup_reg 5
  let szv ← new_imm (-msg_ofs)
  emit_mov r5 szv
  mk_call BPF_FUNC_perf_event_output 5

/-- `bpf_unparser::add_epilogue` (bpf-translate.cxx:4833-4912): check the
per-invocation error status, print the stored error message, increment
the global error counter, and send an `STP_ERROR` hard-error message
when the counter exceeds the `MAXERRORS` ceiling.  `error_status` is set
by `add_prologue` (bpf-translate.cxx:4758); reading it before a prologue
ran is undefined in C++ and modelled as an assertion failure. -/
def add_epilogue : EmitM Unit := do
  let i0 ← new_imm 0
  let frame ← lookup_reg 10
  let st0 ← eGet
  let limit ← new_imm st0.maxerrors
  let error_block ← new_block
  let exit_blk ← new_block
  (match st0.error_status with
   | none => eThrow (Err.assertFail "error_status unset (no prologue)")
   | some es => mk_jcond Cond.EQ i0 es exit_blk error_block)
  set_block error_block
  emit_transport_msg_noarg STP_PRINT_ERROR_MSG
  -- map_id = internal_map_idx (0), map_key = ERRORS (1),
  -- key_size = 4, val_size = 8 (bpf-translate.cxx:4860-4863)
  let keyv ← new_imm (idx_ERRORS : Int)
  mk_st LdSz.W frame (-4) keyv
  use_tmp_space 4
  let r1 ← lookup_reg 1
  load_map r1 internal_map_idx
  let r2 ← lookup_reg 2
  let negkey ← new_imm (-4)
  mk_binary AluOp.ADD r2 frame negkey
  mk_call BPF_FUNC_map_lookup_elem 2
  let increment_block ← new_block
  let r0 ← lookup_reg 0
  mk_jcond Cond.EQ r0 i0 exit_blk increment_block
  set_block increment_block
  let error_count ← new_reg
  mk_ld LdSz.DW error_count r0 0
  let one ← new_imm 1
  mk_binary AluOp.ADD error_count error_count one
  mk_st LdSz.DW frame (-8) error_count
  use_tmp_space 8
  let keyv2 ← new_imm (idx_ERRORS : Int)
  mk_st LdSz.W frame (-12) keyv2
  use_tmp_space 4
  load_map r1 internal_map_idx
  let negkv ← new_imm (-12)
  mk_binary AluOp.ADD r2 frame negkv
  let r3 ← lookup_reg 3
  let negv ← new_imm (-8)
  mk_binary AluOp.ADD r3 frame negv
  let r4 ← lookup_reg 4
  let zero2 ← new_imm 0
  mk_mov r4 zero2
  mk_call BPF_FUNC_map_update_elem 4
  let exceeded_block ← new_block
  mk_jcond Cond.LE error_count limit exit_blk exceeded_block
  set_block exceeded_block
  emit_transport_msg_noarg STP_ERROR
  emit_jmp exit_blk
  set_block exit_blk

/-- `bpf_unparser::get_exit_block` (bpf-translate.cxx:359-376): memoized
allocation of the shared exit block — epilogue followed by a single
`exit` instruction — restoring the previous current block afterwards. -/
def get_exit_block : EmitM Nat := do
  let st ← eGet
  match st.exit_block with
  | some e => pure e
  | none => do
      let contOpt := st.cur
      let e ← new_block
      set_block e
      add_epilogue
      mk_exit
      (match contOpt with
       | some cont => set_block cont
       | none => eThrow (Err.assertFail "set_block on null block"))
      setExitBlock e
      pure e

/-! ## The modelled statement/expression fragment

The embedded AST covers the constructs the claims quantify over:
statements `block`, `null_statement`, `expr_statement`, `if_statement`,
`for_loop`, `foreach_loop`, `try_block`, `break`, `continue`, `return`,
and a `raise` statement embedding the `jump_to_catch` embedded-assembly
opcode emitted for tapset `error()` calls; expressions `literal_number`,
`literal_string`, `symbol`, `binary_expression`, `unary_expression`,
`comparison`, `logical_and_expr`, `logical_or_expr` and `functioncall`.
Constructs outside this fragment (assignments, array indexing, target
variables, printing, statistics operators, ternary/concatenation, raw
embedded assembly other than `jump_to_catch`, context variables) are not
embedded; theorems quantify over the embedded fragment only. -/

mutual
/-- Expression subtree (staptree.h classes, fields restricted to what
the visited code reads; every node carries its diagnostic token).  In
`call`, `referents` holds the ids of the front-end-resolved candidate
`functiondecl`s (`functioncall::referents`). -/
inductive Expr where
  | num (i : Int) (tok : Nat)
  | strlit (s : String) (tok : Nat)
  | sym (v : VarDecl) (tok : Nat)
  | binary (op : String) (l r : Expr) (tok : Nat)
  | unary (op : String) (operand : Expr) (tok : Nat)
  | comparison (op : String) (l r : Expr) (tok : Nat)
  | logical_and (l r : Expr) (tok : Nat)
  | logical_or (l r : Expr) (tok : Nat)
  | call (referents : List Nat) (args : List Expr) (tok : Nat)

/-- Statement subtree (staptree.h classes, fields restricted to what the
visited code reads).  `raise` embeds the `jump_to_catch` opcode sequence
of `visit_embeddedcode` (bpf-translate.cxx:1809-1836) with its message
argument resolved to a named local register. -/
inductive Stmt where
  | block (stmts : List Stmt)
  | null
  | exprSt (e : Expr)
  | ifSt (cond : Expr) (thenb : Stmt) (elseb : Option Stmt)
  | forLoop (init : Stmt) (cond : Expr) (incr : Stmt) (body : Stmt) (tok : Nat)
  | foreachLoop (indexes : List VarDecl) (base : Expr) (val : Option VarDecl)
      (sort_direction : Int) (sort_column : Nat) (limit : Option Expr)
      (array_slice : List Expr) (body : Stmt) (tok : Nat)
  | tryBlock (tryB : Stmt) (catchVar : Option VarDecl) (catchB : Stmt)
  | breakSt (tok : Nat)
  | continueSt (tok : Nat)
  | returnSt (val : Option Expr) (tok : Nat)
  | raise (msgVar : VarDecl)
end

/-- The token of an expression (`e->tok`). -/
def Expr.tokOf : Expr → Nat
  | .num _ tok => tok
  | .strlit _ tok => tok
  | .sym _ tok => tok
  | .binary _ _ _ tok => tok
  | .unary _ _ tok => tok
  | .comparison _ _ _ tok => tok
  | .logical_and _ _ tok => tok
  | .logical_or _ _ tok => tok
  | .call _ _ tok => tok

/-- `struct functiondecl` (staptree.h, outside the provided sources),
restricted to the fields `visit_functioncall`/`emit_functioncall` read:
identity, formal arguments, local variables and body. -/
structure FnDecl where
  id : Nat
  formal_args : List VarDecl
  locals : List VarDecl
  body : Stmt

/-- The binary-operator table of `visit_binary_expression`
(bpf-translate.cxx:2682-2706). -/
def binop_code (op : String) : Option AluOp :=
  if op = "+" then some AluOp.ADD
  else if op = "-" then some AluOp.SUB
  else if op = "*" then some AluOp.MUL
  else if op = "&" then some AluOp.AND
  else if op = "|" then some AluOp.OR
  else if op = "^" then some AluOp.XOR
  else if op = "<<" then some AluOp.LSH
  else if op = ">>" then some AluOp.ARSH
  else if op = ">>>" then some AluOp.RSH
  else if op = "/" then some AluOp.DIV
  else if op = "%" then some AluOp.MOD
  else none

/-- The comparison-operator table of `emit_cond`
(bpf-translate.cxx:462-475). -/
def cmp_cond (op : String) : Option Cond :=
  if op = "==" then some Cond.EQ
  else if op = "!=" then some Cond.NE
  else if op = "<" then some Cond.LT
  else if op = "<=" then some Cond.LE
  else if op = ">" then some Cond.GT
  else if op = ">=" then some Cond.GE
  else none

/-- Loop of `bpf_unparser::new_locals` (bpf-translate.cxx:343-357):
allocate a fresh register per declared local, asserting each vardecl is
inserted anew. -/
def new_locals_aux (m : List (Nat × value)) :
    List VarDecl → EmitM (List (Nat × value))
  | [] => pure m
  | v :: vs => do
      let r ← new_reg
      match assocFind v.id m with
      | some _ => eThrow (Err.assertFail "duplicate local vardecl")
      | none => new_locals_aux (m ++ [(v.id, r)]) vs

/-- `bpf_unparser::new_locals` (bpf-translate.cxx:343-357). -/
def new_locals (vars : List VarDecl) : EmitM (List (Nat × value)) :=
  new_locals_aux [] vars

/-- The formal-argument installation loop of `emit_functioncall`
(bpf-translate.cxx:3694-3701): insert each `(formal, argument)` pair
into the callee's locals map, asserting freshness. -/
def install_formals : List VarDecl → List value → List (Nat × value) →
    EmitM (List (Nat × value))
  | [], _, m => pure m
  | _ :: _, [], m => pure m
  | v :: vs, a :: rest, m =>
      match assocFind v.id m with
      | some _ => eThrow (Err.assertFail "duplicate formal argument")
      | none => install_formals vs rest (m ++ [(v.id, a)])

/-- The key-population loop of `visit_foreach_loop`
(bpf-translate.cxx:2172-2181): resolve each index vardecl in
`this_locals`, failing with "unknown index" otherwise. -/
def foreach_keys : List VarDecl → EmitM (List value)
  | [] => pure []
  | keydecl :: rest => do
      let st ← eGet
      match assocFind keydecl.id st.locals with
      | none => eThrow (Err.semantic "unknown index" keydecl.tok)
      | some v => do
          let others ← foreach_keys rest
          pure (v :: others)

/-- The `foreach_info`/key-offset scan of `visit_foreach_loop`
(bpf-translate.cxx:2198-2222) over the array's index types: accumulate
the composite key size, record each component's offset, and record the
size/offset of the requested sort column. -/
def foreach_info_scan (sort_column : Nat) (tok : Nat) :
    List ExpType → Nat → foreach_info → List Nat →
    Except Err (foreach_info × List Nat)
  | [], _, info, offs => Except.ok (info, offs)
  | ty :: rest, k, info, offs =>
      (match ty with
       | ExpType.pe_long => Except.ok 8
       | ExpType.pe_string => Except.ok BPF_MAXSTRINGLEN
       | _ => Except.error (Err.semantic "unhandled foreach index type" tok)).bind
      (fun this_column_size =>
        let info :=
          if sort_column = k + 1 then
            { info with sort_column_size := this_column_size,
                        sort_column_ofs := (info.keysize : Int) }
          else info
        let offs := offs ++ [info.keysize]
        let info := { info with keysize := info.keysize + this_column_size }
        foreach_info_scan sort_column tok rest (k + 1) info offs)

/-- The composite-key unpacking loop of `visit_foreach_loop`
(bpf-translate.cxx:2342-2362): load each long component, or form a
pointer for each string component, from the fetched key buffer. -/
def foreach_unpack (keyref : value) :
    List (VarDecl × value × Nat) → EmitM Unit
  | [] => pure ()
  | (keydecl, key, ofs) :: rest => do
      (match keydecl.ty with
       | ExpType.pe_long => mk_ld LdSz.DW key keyref (ofs : Int)
       | ExpType.pe_string => do
           let ov ← new_imm (ofs : Int)
           mk_binary AluOp.ADD key keyref ov
       | _ => eThrow (Err.semantic "unhandled foreach key type" keydecl.tok))
      foreach_unpack keyref rest

/-- Append a fresh temporary to `this_locals` for an unknown
`$`-variable (bpf-translate.cxx:1441-1451). -/
def addLocal (id : Nat) (r : value) : EmitM Unit :=
  fun st => Except.ok ((), { st with locals := st.locals ++ [(id, r)] })

mutual

/-- `bpf_unparser::emit_stmt` (bpf-translate.cxx:394-399) dispatching to
the `visit_*` statement visitors; each match arm names and mirrors the
visitor it embeds. -/
def emit_stmt (fns : List FnDecl) : Nat → Stmt → EmitM Unit
  | 0, _ => eThrow Err.outOfFuel
  | fuel + 1, s =>
    match s with
    -- visit_block (bpf-translate.cxx:2064-2070)
    | Stmt.block ss => emit_stmts fns fuel ss
    -- visit_null_statement (bpf-translate.cxx:2072-2074)
    | Stmt.null => pure ()
    -- visit_expr_statement (bpf-translate.cxx:2076-2080)
    | Stmt.exprSt e => do
        let _ ← emit_expr fns fuel e
        pure ()
    -- visit_if_statement (bpf-translate.cxx:2082-2113)
    | Stmt.ifSt cond thenb elsb => do
        let then_block ← new_block
        let join_block ← new_block
        match elsb with
        | some elseb => do
            let else_block ← new_block
            emit_cond fns fuel cond then_block else_block
            set_block then_block
            emit_stmt fns fuel thenb
            ifInBlock (emit_jmp join_block)
            set_block else_block
            emit_stmt fns fuel elseb
            ifInBlock (emit_jmp join_block)
            set_block join_block
        | none => do
            emit_cond fns fuel cond then_block join_block
            set_block then_block
            emit_stmt fns fuel thenb
            ifInBlock (emit_jmp join_block)
            set_block join_block
    -- visit_for_loop (bpf-translate.cxx:2115-2153)
    | Stmt.forLoop init cond incr body tok => do
        let st ← eGet
        -- PR24528: Userspace-only feature (bpf-translate.cxx:2118-2120)
        if st.target = bpf_target.target_kernel_bpf then
          eThrow (Err.semantic "unsupported loop in bpf kernel probe" tok)
        else do
          let body_block ← new_block
          let iter_block ← new_block
          let test_block ← new_block
          let join_block ← new_block
          emit_stmt fns fuel init
          let st2 ← eGet
          if st2.cur.isSome then do
            emit_jmp test_block
            pushBreak join_block
            pushCont iter_block
            set_block body_block
            emit_stmt fns fuel body
            ifInBlock (emit_jmp iter_block)
            popCont
            popBreak
            set_block iter_block
            emit_stmt fns fuel incr
            ifInBlock (emit_jmp test_block)
            set_block test_block
            emit_cond fns fuel cond body_block join_block
          else pure ()
    -- visit_foreach_loop (bpf-translate.cxx:2155-2421)
    | Stmt.foreachLoop indexes base val _sort_direction sort_column limit
        array_slice body tok => do
        let st0 ← eGet
        -- PR24528: Userspace-only feature (bpf-translate.cxx:2158-2160)
        if st0.target = bpf_target.target_kernel_bpf then
          eThrow (Err.semantic "unsupported loop in bpf kernel probe" tok)
        else if !array_slice.isEmpty then
          eThrow (Err.semantic "unsupported array slice in bpf foreach loop" tok)
        else do
          let composite_key := indexes.length ≠ 1
          let keys ← foreach_keys indexes
          -- Get arraydecl (bpf-translate.cxx:2183-2187)
          match base with
          | Expr.sym a _ => do
              let arraydecl := a
              -- Populate key_offsets, foreach_info (bpf-translate.cxx:2189-2227)
              let info0 : foreach_info :=
                { sort_direction := _sort_direction, sort_column := sort_column,
                  keysize := 0, sort_column_size := 0, sort_column_ofs := 0 }
              match foreach_info_scan sort_column tok arraydecl.index_types 0 info0 [] with
              | Except.error e => eThrow e
              | Except.ok (info1, key_offsets) => do
                  let info :=
                    if arraydecl.index_types.length = 1 then
                      { info1 with sort_column_ofs := -1 }
                    else info1
                  -- Save foreach_info (bpf-translate.cxx:2229-2231)
                  let st1 ← eGet
                  let foreach_id := st1.foreach_loop_info.length
                  pushForeachInfo info
                  -- Get map_slot for arraydecl (bpf-translate.cxx:2233-2238)
                  let st2 ← eGet
                  match vkFind (VKey.user arraydecl.id) st2.globalsAssoc with
                  | none => eThrow (Err.semantic "unknown array" arraydecl.tok)
                  | some g => do
                      let is_stat_array := g.is_stat
                      -- assert(!g->second.is_scalar()) (bpf-translate.cxx:2241)
                      if g.is_scalar then
                        eThrow (Err.assertFail "scalar map slot used for arraydecl")
                      else do
                        -- PR23476 stats arrays (bpf-translate.cxx:2242-2267)
                        let map_id ←
                          (if is_stat_array then do
                            let st3 ← eGet
                            match assocFind arraydecl.id st3.array_stats with
                            | none =>
                                eThrow (Err.semantic "unknown stats array" arraydecl.tok)
                            | some all_fields =>
                                match assocFind stat_iter_field all_fields with
                                | none =>
                                    eThrow (Err.assertFail "stat_iter_field missing")
                                | some mid =>
                                    if sort_column = 0 then
                                      eThrow (Err.semantic
                                        "unsupported sorted iteration on stat aggregate"
                                        arraydecl.tok)
                                    else pure mid
                           else pure g.map_id)
                        -- Initialize constants, values, blocks
                        -- (bpf-translate.cxx:2269-2292)
                        let limitVal ←
                          (match limit with
                           | some _ => new_reg
                           | none => new_imm (-1))
                        let keyref ←
                          (if composite_key then new_reg
                           else match keys with
                                | k0 :: _ => pure k0
                                | [] => eThrow (Err.assertFail "foreach with no index"))
                        let i0 ← new_imm 0
                        let idv ← new_imm (foreach_id : Int)
                        let frame ← lookup_reg 10
                        let body_block ← new_block
                        let load_block_1 ← new_block
                        let iter_block ← new_block
                        let join_block ← new_block
                        let key_ofs ← new_imm (-8)
                        let newkey_ofs ← new_imm (-16)
                        use_tmp_space 16
                        -- Setup iteration limit (bpf-translate.cxx:2294-2296)
                        (match limit with
                         | some l => do
                             let lv ← emit_expr fns fuel l
                             mk_mov limitVal lv
                         | none => pure ())
                        -- Get the first key (bpf-translate.cxx:2298-2307)
                        let r1 ← lookup_reg 1
                        load_map r1 map_id
                        let r2 ← lookup_reg 2
                        mk_mov r2 i0
                        let r3 ← lookup_reg 3
                        mk_binary AluOp.ADD r3 frame newkey_ofs
                        let r4 ← lookup_reg 4
                        mk_mov r4 idv
                        let r5 ← lookup_reg 5
                        mk_mov r5 limitVal
                        mk_call BPF_FUNC_map_get_next_key 5
                        let r0 ← lookup_reg 0
                        mk_jcond Cond.NE r0 i0 join_block load_block_1
                        -- Enter loop body (bpf-translate.cxx:2309-2317)
                        set_block body_block
                        pushBreak join_block
                        pushCont iter_block
                        emit_stmt fns fuel body
                        popCont
                        popBreak
                        ifInBlock (emit_jmp iter_block)
                        -- Get the next key (bpf-translate.cxx:2319-2331)
                        set_block iter_block
                        mk_st LdSz.DW frame (-8) keyref
                        load_map r1 map_id
                        mk_binary AluOp.ADD r2 frame key_ofs
                        mk_binary AluOp.ADD r3 frame newkey_ofs
                        mk_mov r4 idv
                        mk_mov r5 limitVal
                        mk_call BPF_FUNC_map_get_next_key 5
                        mk_jcond Cond.NE r0 i0 join_block load_block_1
                        -- Load from newkey_ofs to keyref (bpf-translate.cxx:2333-2336)
                        set_block load_block_1
                        mk_ld LdSz.DW keyref frame (-16)
                        -- PR23478 unpack composite key (bpf-translate.cxx:2341-2362)
                        (if composite_key then
                          foreach_unpack keyref (indexes.zip (keys.zip key_offsets)
                            |>.map (fun p => (p.1, p.2.1, p.2.2)))
                         else pure ())
                        -- Retrieve the value (bpf-translate.cxx:2364-2413)
                        (match val with
                         | some valdecl => do
                             if is_stat_array then
                               eThrow (Err.semantic
                                 "unsupported value iteration on stat aggregate"
                                 arraydecl.tok)
                             else do
                               let st4 ← eGet
                               match assocFind valdecl.id st4.locals with
                               | none => eThrow (Err.semantic "unknown value" valdecl.tok)
                               | some vv => do
                                   let load_block_2 ← new_block
                                   load_map r1 map_id
                                   (if composite_key = false ∧
                                       (indexes.headD default).ty = ExpType.pe_long then
                                      mk_binary AluOp.ADD r2 frame newkey_ofs
                                    else mk_mov r2 keyref)
                                   mk_call BPF_FUNC_map_lookup_elem 2
                                   mk_jcond Cond.EQ r0 i0 join_block load_block_2
                                   set_block load_block_2
                                   (match valdecl.ty with
                                    | ExpType.pe_long => mk_ld LdSz.DW vv r0 0
                                    | ExpType.pe_string => mk_mov vv r0
                                    | _ => eThrow (Err.semantic
                                        "unhandled foreach value type" valdecl.tok))
                         | none => pure ())
                        -- Decrement the iteration limit (bpf-translate.cxx:2415-2417)
                        (match limit with
                         | some _ => do
                             let negone ← new_imm (-1)
                             mk_binary AluOp.ADD limitVal limitVal negone
                         | none => pure ())
                        emit_jmp body_block
                        set_block join_block
          | _ => eThrow (Err.semantic "unknown type" base.tokOf)
    -- visit_try_block (bpf-translate.cxx:2012-2062)
    | Stmt.tryBlock tryB catchVar catchB => do
        let catch_block ← new_block
        let join_block ← new_block
        pushCatch catch_block
        emit_stmt fns fuel tryB
        popCatch
        ifInBlock (emit_jmp join_block)
        set_block catch_block
        (match catchVar with
         | some cv => do
             let st ← eGet
             match assocFind cv.id st.locals with
             | none => eThrow (Err.semantic "unknown value" cv.tok)
             | some catch_var => do
                 let error_var ← popCatchMsg
                 mk_mov catch_var error_var
         | none => pure ())
        emit_stmt fns fuel catchB
        ifInBlock (emit_jmp join_block)
        set_block join_block
    -- visit_break_statement (bpf-translate.cxx:2423-2429)
    | Stmt.breakSt tok => do
        let st ← eGet
        match st.loop_break with
        | [] => eThrow (Err.semantic "cannot \x27break\x27 outside loop" tok)
        | b :: _ => emit_jmp b
    -- visit_continue_statement (bpf-translate.cxx:2431-2437)
    | Stmt.continueSt tok => do
        let st ← eGet
        match st.loop_cont with
        | [] => eThrow (Err.semantic "cannot \x27continue\x27 outside loop" tok)
        | b :: _ => emit_jmp b
    -- visit_return_statement (bpf-translate.cxx:2439-2448)
    | Stmt.returnSt val tok => do
        let st ← eGet
        match st.func_return with
        | [] => eThrow (Err.semantic "cannot \x27return\x27 outside function" tok)
        | b :: _ =>
            match st.func_return_val with
            | [] => eThrow (Err.assertFail "func_return_val empty")
            | rv :: _ => do
                (match val with
                 | some e => do
                     let v ← emit_expr fns fuel e
                     emit_mov rv v
                 | none => pure ())
                emit_jmp b
    -- the jump_to_catch opcode of visit_embeddedcode
    -- (bpf-translate.cxx:1809-1836), message resolved as a $-variable
    -- via emit_asm_arg (bpf-translate.cxx:1430-1452)
    | Stmt.raise msgVar => do
        let st ← eGet
        let msg ←
          (match assocFind msgVar.id st.locals with
           | some m => pure m
           | none => do
               let reg ← new_reg
               addLocal msgVar.id reg
               pure reg)
        pushCatchMsg msg
        let error_block ← new_block
        let st2 ← eGet
        (match st2.catch_jump with
         | c :: _ => emit_jmp c
         | [] => emit_jmp error_block)
        set_block error_block

/-- The statement loop of `visit_block` (bpf-translate.cxx:2064-2070). -/
def emit_stmts (fns : List FnDecl) : Nat → List Stmt → EmitM Unit
  | 0, _ => eThrow Err.outOfFuel
  | _ + 1, [] => pure ()
  | fuel + 1, s :: rest => do
      emit_stmt fns fuel s
      emit_stmts fns fuel rest

/-- `bpf_unparser::emit_expr` (bpf-translate.cxx:401-408) dispatching to
the expression visitors; each match arm names and mirrors the visitor it
embeds. -/
def emit_expr (fns : List FnDecl) : Nat → Expr → EmitM value
  | 0, _ => eThrow Err.outOfFuel
  | fuel + 1, e =>
    match e with
    -- visit_literal_number (bpf-translate.cxx:2673-2677)
    | Expr.num i _ => new_imm i
    -- visit_literal_string (bpf-translate.cxx:2665-2671) via
    -- emit_literal_string (bpf-translate.cxx:2656-2663); escape
    -- translation is considered already applied to `s`
    | Expr.strlit s tok =>
        if s.length + 1 > BPF_MAXSTRINGLEN then
          eThrow (Err.semantic "string literal too long" tok)
        else pure (value.STR s false)
    -- visit_symbol (bpf-translate.cxx:2988-3053); the
    -- bpf_context_vardecl branch (3000-2998) is outside the modelled
    -- fragment (no context variables in the embedded AST)
    | Expr.sym v tok => do
        -- assert (v->arity < 1)
        if v.arity ≥ 1 then eThrow (Err.assertFail "symbol with array arity")
        else do
          let st ← eGet
          match vkFind (VKey.user v.id) st.globalsAssoc with
          | some g =>
              if g.is_stat then
                eThrow (Err.semantic "unhandled statistics variable" tok)
              else do
                let frame ← lookup_reg 10
                let idxv ← new_imm g.idx
                mk_st LdSz.W frame (-4) idxv
                use_tmp_space 4
                let r1 ← lookup_reg 1
                load_map r1 g.map_id
                let r2 ← lookup_reg 2
                let neg4 ← new_imm (-4)
                mk_binary AluOp.ADD r2 frame neg4
                mk_call BPF_FUNC_map_lookup_elem 2
                let r0 ← lookup_reg 0
                let i0 ← new_imm 0
                let cont_block ← new_block
                let exit_blk ← get_exit_block
                mk_jcond Cond.EQ r0 i0 exit_blk cont_block
                set_block cont_block
                let res ← new_reg
                match v.ty with
                | ExpType.pe_long => do
                    mk_ld LdSz.DW res r0 0
                    pure res
                | ExpType.pe_string => do
                    emit_mov res r0
                    pure res
                | _ => eThrow (Err.semantic "unhandled global variable type" tok)
          | none =>
              match assocFind v.id st.locals with
              | some res => pure res
              | none => eThrow (Err.semantic "unknown variable" tok)
    -- visit_binary_expression (bpf-translate.cxx:2679-2717)
    | Expr.binary op l r tok => do
        match binop_code op with
        | none => eThrow (Err.semantic "unhandled binary operator" tok)
        | some code => do
            let s0 ← new_reg
            let vl ← emit_expr fns fuel l
            mk_mov s0 vl
            let s1 ← emit_expr fns fuel r
            let d ← new_reg
            mk_binary code d s0 s1
            pure d
    -- visit_unary_expression (bpf-translate.cxx:2719-2750)
    | Expr.unary op operand tok =>
        if op = "-" then do
          -- the literal_number dynamic_cast of the unary expression
          -- itself (bpf-translate.cxx:2726) can never succeed, so the
          -- general negation path always runs
          let s ← emit_expr fns fuel operand
          let d ← new_reg
          mk_unary AluOp.NEG d s
          pure d
        else if op = "~" then do
          let s1 ← new_imm (-1)
          let s0 ← emit_expr fns fuel operand
          let d ← new_reg
          mk_binary AluOp.XOR d s0 s1
          pure d
        else if op = "!" then
          emit_bool fns fuel (Expr.unary op operand tok)
        else if op = "+" then
          emit_expr fns fuel operand
        else eThrow (Err.semantic "unhandled unary operator" tok)
    -- visit_comparison (bpf-translate.cxx:2812-2816)
    | Expr.comparison op l r tok => emit_bool fns fuel (Expr.comparison op l r tok)
    -- visit_logical_and_expr (bpf-translate.cxx:2797-2801)
    | Expr.logical_and l r tok => emit_bool fns fuel (Expr.logical_and l r tok)
    -- visit_logical_or_expr (bpf-translate.cxx:2791-2795)
    | Expr.logical_or l r tok => emit_bool fns fuel (Expr.logical_or l r tok)
    -- visit_functioncall (bpf-translate.cxx:3727-3753)
    | Expr.call referents args tok =>
        match referents with
        | [fid] => do
            let st ← eGet
            -- recursion check (bpf-translate.cxx:3735-3738)
            if fid ∈ st.func_calls then
              eThrow (Err.semantic "unhandled function recursion" tok)
            else
              match fns.find? (fun f => f.id = fid) with
              | none => eThrow (Err.assertFail "unresolved function referent")
              | some f =>
                  -- assert (e->args.size () == f->formal_args.size ())
                  if args.length ≠ f.formal_args.length then
                    eThrow (Err.assertFail "argument count mismatch")
                  else do
                    let argvals ← emit_args fns fuel args
                    emit_functioncall fns fuel f argvals
        | _ => eThrow (Err.semantic "unhandled function overloading" tok)

/-- The argument-evaluation loop of `visit_functioncall`
(bpf-translate.cxx:3743-3750): copy each argument into a fresh
register. -/
def emit_args (fns : List FnDecl) : Nat → List Expr → EmitM (List value)
  | 0, _ => eThrow Err.outOfFuel
  | _ + 1, [] => pure []
  | fuel + 1, a :: rest => do
      let r ← new_reg
      let v ← emit_expr fns fuel a
      emit_mov r v
      let others ← emit_args fns fuel rest
      pure (r :: others)

/-- `bpf_unparser::emit_cond` (bpf-translate.cxx:427-497). -/
def emit_cond (fns : List FnDecl) : Nat → Expr → Nat → Nat → EmitM Unit
  | 0, _, _, _ => eThrow Err.outOfFuel
  | fuel + 1, e, t_dest, f_dest =>
    match e with
    -- logical or (bpf-translate.cxx:434-441)
    | Expr.logical_or l r _ => do
        let cont_block ← new_block
        emit_cond fns fuel l t_dest cont_block
        set_block cont_block
        emit_cond fns fuel r t_dest f_dest
    -- logical and (bpf-translate.cxx:442-449)
    | Expr.logical_and l r _ => do
        let cont_block ← new_block
        emit_cond fns fuel l cont_block f_dest
        set_block cont_block
        emit_cond fns fuel r t_dest f_dest
    -- logical not (bpf-translate.cxx:450-455); other unary operators
    -- fall through to the E != 0 fallback (bpf-translate.cxx:486-492)
    | Expr.unary op operand tok =>
        if op = "!" then emit_cond fns fuel operand f_dest t_dest
        else do
          let s0 ← emit_expr fns fuel (Expr.unary op operand tok)
          let s1 ← new_imm 0
          mk_jcond Cond.NE s0 s1 t_dest f_dest
          clear_block
    -- comparison + conditional branch (bpf-translate.cxx:457-476)
    | Expr.comparison op l r tok => do
        let s0 ← emit_expr fns fuel l
        let s1 ← emit_expr fns fuel r
        match cmp_cond op with
        | some c => do
            mk_jcond c s0 s1 t_dest f_dest
            clear_block
        | none => eThrow (Err.semantic "unhandled comparison operator" tok)
    -- bitwise-AND bit test (bpf-translate.cxx:477-485), otherwise the
    -- E != 0 fallback (bpf-translate.cxx:486-492)
    | Expr.binary op l r tok =>
        if op = "&" then do
          let s0 ← emit_expr fns fuel l
          let s1 ← emit_expr fns fuel r
          mk_jcond Cond.TEST s0 s1 t_dest f_dest
          clear_block
        else do
          let s0 ← emit_expr fns fuel (Expr.binary op l r tok)
          let s1 ← new_imm 0
          mk_jcond Cond.NE s0 s1 t_dest f_dest
          clear_block
    -- fallback: E != 0 (bpf-translate.cxx:486-492)
    | other => do
        let s0 ← emit_expr fns fuel other
        let s1 ← new_imm 0
        mk_jcond Cond.NE s0 s1 t_dest f_dest
        clear_block

/-- `bpf_unparser::emit_bool` (bpf-translate.cxx:499-515): materialize a
condition into a 1/0 register via explicit true/false blocks. -/
def emit_bool (fns : List FnDecl) : Nat → Expr → EmitM value
  | 0, _ => eThrow Err.outOfFuel
  | fuel + 1, e => do
      let else_block ← new_block
      let join_block ← new_block
      let r ← new_reg
      let one ← new_imm 1
      emit_mov r one
      emit_cond fns fuel e join_block else_block
      set_block else_block
      let zero ← new_imm 0
      emit_mov r zero
      emit_jmp join_block
      set_block join_block
      pure r

/-- `bpf_unparser::emit_functioncall` (bpf-translate.cxx:3688-3725):
inline the callee with a fresh local scope, a join block as return
target and a fresh return-value register, restoring the caller's scope
afterwards. -/
def emit_functioncall (fns : List FnDecl) : Nat → FnDecl → List value → EmitM value
  | 0, _, _ => eThrow Err.outOfFuel
  | fuel + 1, f, args => do
      let locals0 ← new_locals f.locals
      let locals1 ← install_formals f.formal_args args locals0
      let st ← eGet
      let old_locals := st.locals
      setLocals locals1
      let join_block ← new_block
      let retval ← new_reg
      pushFuncCall f.id
      pushFuncReturn join_block
      pushFuncReturnVal retval
      emit_stmt fns fuel f.body
      popFuncReturnVal
      popFuncReturn
      popFuncCall
      ifInBlock (emit_jmp join_block)
      set_block join_block
      setLocals old_locals
      pure retval

end

/-- The AND-then-compare lowering the specification contrasts with the
bit-test lowering ("bitwise-AND followed by a not-equal-zero test of a
materialized register").  This definition follows the spec's words, not
the source, and exists only as the comparison point for the
instruction-count claim: materialize `l & r` into a fresh register with
one ALU instruction, then test the register against zero. -/
def and_then_compare_lowering (fns : List FnDecl) (fuel : Nat) (l r : Expr)
    (t_dest f_dest : Nat) : EmitM Unit := do
  let s0 ← emit_expr fns fuel l
  let s1 ← emit_expr fns fuel r
  let d ← new_reg
  mk_binary AluOp.AND d s0 s1
  let z ← new_imm 0
  mk_jcond Cond.NE d z t_dest f_dest
  clear_block

/-! ## CFG observations used by the theorems -/

/-- Total number of instructions emitted into the program. -/
def insnCount (st : UPState) : Nat :=
  (st.blocks.map (fun b => b.insns.length)).sum

/-- The successor block ids of block `i` (its `taken` and `fallthru`
edges). -/
def succsOf (blocks : List BBlock) (i : Nat) : List Nat :=
  ((blocks.getD i default).taken).toList ++ ((blocks.getD i default).fallthru).toList

/-- The edge relation of the CFG; a path is its reflexive-transitive
closure. -/
def edgeRel (blocks : List BBlock) (i j : Nat) : Prop := j ∈ succsOf blocks i

/-- Every edge of `blocks` targets a block id `< n`. -/
def boundedBy (blocks : List BBlock) (n : Nat) : Bool :=
  blocks.all (fun b =>
    (match b.taken with | none => true | some t => t < n) &&
    (match b.fallthru with | none => true | some t => t < n))

/-- The message of the kernel-target loop guard
(bpf-translate.cxx:2119, 2159). -/
def loopGuardMsg : String := "unsupported loop in bpf kernel probe"

/-- An error is the kernel-target loop-guard error. -/
def isGuardErr (e : Err) : Prop := ∃ tokk, e = Err.semantic loopGuardMsg tokk

/-- The translation invariant behind claim C3's user-target half: a
successful run never changes the target variant, and the loop-guard
error is only ever raised from a state whose target is the kernel
variant. -/
def Good {α : Type} (m : EmitM α) : Prop :=
  ∀ st : UPState,
    (∀ a st1, m st = Except.ok (a, st1) → st1.target = st.target) ∧
    (∀ e st1, m st = Except.error (e, st1) → isGuardErr e →
      st.target = bpf_target.target_kernel_bpf)

/-- A minimal translator state for concrete runs: one empty entry block,
the insertion point on it, and everything else empty.  (Mirrors the
state right after `translate_probe` allocates the entry block,
bpf-translate.cxx:4920, with no prologue emitted.) -/
def initState (target : bpf_target) : UPState :=
  { target := target
    blocks := [BBlock.empty]
    nextReg := 0
    cur := some 0
    loop_break := []
    loop_cont := []
    func_return := []
    func_return_val := []
    func_calls := []
    catch_jump := []
    catch_msg := []
    locals := []
    globalsAssoc := []
    array_stats := []
    foreach_loop_info := []
    max_tmp_space := 0
    exit_block := none
    error_status := none
    this_in_arg0 := none
    maxerrors := 0 }

end tr

/-! ## NUL-scan observations for the dynamic string copy (claim C2) -/

/-- Whether a 32-bit word contains a NUL byte. -/
def wordHasNulB (w : Nat) : Bool :=
  decide (wordByte w 0 = 0) || decide (wordByte w 1 = 0) ||
  decide (wordByte w 2 = 0) || decide (wordByte w 3 = 0)

/-!
# Theorems
-/

/-! ## Claim C1: temporary-stack accounting -/

/-- C1: for every target variant and bytes `n`, `m`, two consecutive
`use_tmp_space` calls leave `max_tmp_space` equal to the maximum of its
prior value, `n` and `m` (never decreasing it), and fail with a hard
assertion failure exactly when that maximum exceeds the variant's stack
ceiling `MAX_BPF_STACK` (512 for `target_kernel_bpf`, 65536 for
`target_user_bpfinterp`); a single call with `bytes` equal to the
ceiling succeeds and with the ceiling plus one fails. -/
theorem use_tmp_space_spec :
    (∀ t prior n m,
      use_tmp_space2 t prior n m =
        (if max prior (max n m) ≤ MAX_BPF_STACK t
         then Except.ok (max prior (max n m)) else Except.error ()) ∧
      (∀ s, use_tmp_space2 t prior n m = Except.ok s →
        prior ≤ s ∧ s = max prior (max n m))) ∧
    MAX_BPF_STACK bpf_target.target_kernel_bpf = 512 ∧
    MAX_BPF_STACK bpf_target.target_user_bpfinterp = 65536 ∧
    (∀ t, use_tmp_space t 0 (MAX_BPF_STACK t) = Except.ok (MAX_BPF_STACK t) ∧
      use_tmp_space t 0 (MAX_BPF_STACK t + 1) = Except.error ()) := by
  have key : ∀ t prior n m, use_tmp_space2 t prior n m =
      (if max prior (max n m) ≤ MAX_BPF_STACK t
       then Except.ok (max prior (max n m)) else Except.error ()) := by
    intro t prior n m
    have hmax1 : (if prior < n then n else prior) = max prior n := by
      split_ifs <;> omega
    have hmax2 : (if max prior n < m then m else max prior n) = max prior (max n m) := by
      split_ifs <;> omega
    simp only [use_tmp_space2, use_tmp_space, hmax1, hmax2]
    by_cases hA : max prior n ≤ MAX_BPF_STACK t
    · simp only [if_pos hA]
      rw [hmax2]
    · have hB : ¬ max prior (max n m) ≤ MAX_BPF_STACK t := by omega
      simp only [if_neg hA, if_neg hB]
  refine ⟨fun t prior n m => ⟨key t prior n m, ?_⟩, rfl, rfl, fun t => ⟨?_, ?_⟩⟩
  · intro s hs
    rw [key] at hs
    split at hs
    · cases hs
      exact ⟨Nat.le_max_left _ _, rfl⟩
    · cases hs
  · have h1 : (if 0 < MAX_BPF_STACK t then MAX_BPF_STACK t else 0) = MAX_BPF_STACK t := by
      split_ifs <;> omega
    simp [use_tmp_space, h1]
  · have h1 : (if 0 < MAX_BPF_STACK t + 1 then MAX_BPF_STACK t + 1 else 0) =
      MAX_BPF_STACK t + 1 := by split_ifs <;> omega
    simp [use_tmp_space, h1]

/-- Witness for C1 at a concrete input. -/
theorem use_tmp_space_spec_witness :
    0 ≤ 512 ∧ 512 = max 0 (max 100 512) :=
  (use_tmp_space_spec.1 bpf_target.target_kernel_bpf 0 100 512).2 512 (by rfl)

/-! ## Claim C5: statistics-field map-set interning round trip -/

/-- C5: for every `stats_map` whose key set is exactly
`globals::stat_fields`, interning succeeds and de-interning the
resulting table restores the original field-to-map-index association. -/
theorem stats_map_roundtrip :
    ∀ sm : String → Option Int,
      (∀ s, (sm s).isSome ↔ s ∈ stat_fields) →
      ∃ l, intern_stats_map sm = Except.ok l ∧
        ∀ s, deintern_stats_map l s = sm s := by
  intro sm h
  have hc : (sm "count").isSome := (h "count").2 (by simp [stat_fields])
  have hs : (sm "sum").isSome := (h "sum").2 (by simp [stat_fields])
  obtain ⟨a, ha⟩ := Option.isSome_iff_exists.mp hc
  obtain ⟨b, hb⟩ := Option.isSome_iff_exists.mp hs
  refine ⟨[a, b], ?_, ?_⟩
  · simp [intern_stats_map, intern_stats_map_loop, stat_fields, ha, hb, Except.map]
  · intro s
    by_cases h1 : s = "count"
    · subst h1
      simp [deintern_stats_map, stat_fields, List.lookup, ha]
    · by_cases h2 : s = "sum"
      · subst h2
        simp [deintern_stats_map, stat_fields, List.lookup, hb]
      · have hnone : sm s = none := by
          have : ¬ (sm s).isSome := by
            rw [h s]
            simp [stat_fields, h1, h2]
          cases hss : sm s with
          | none => rfl
          | some x => rw [hss] at this; simp at this
        have e1 : (s == "count") = false := by simp [h1]
        have e2 : (s == "sum") = false := by simp [h2]
        simp [deintern_stats_map, stat_fields, List.lookup, e1, e2, hnone]

/-- Witness for C5 at a concrete two-field map. -/
theorem stats_map_roundtrip_witness :
    ∃ l, intern_stats_map
        (fun s => if s = "count" then some 3 else if s = "sum" then some 7 else none) =
        Except.ok l ∧
      ∀ s, deintern_stats_map l s =
        (fun s => if s = "count" then some 3 else if s = "sum" then some 7 else none) s :=
  stats_map_roundtrip _ (by
    intro s
    by_cases h1 : s = "count" <;> by_cases h2 : s = "sum" <;>
      simp [h1, h2, stat_fields])

/-! ## Claim C10: foreach_info interning round trip -/

/-- Casting an in-range C `int` to `uint64_t` and back restores it. -/
theorem toU64_i32_roundtrip (x : Int) (h1 : -(2 : Int) ^ 31 ≤ x)
    (h2 : x < 2 ^ 31) : u64ToI32 (toU64 x) = x := by
  simp only [toU64, u64ToI32]
  omega

/-- Casting a 32-bit `unsigned` to `uint64_t` and back restores it. -/
theorem toU64_u32_roundtrip (u : Nat) (h : u < 2 ^ 32) :
    u64ToU32 (toU64 (u : Int)) = u := by
  simp only [toU64, u64ToU32]
  omega

/-- Casting an in-range `size_t` to `uint64_t` and back restores it. -/
theorem toU64_size_roundtrip (k : Nat) (h : k < 2 ^ 64) :
    u64ToSize (toU64 (k : Int)) = k := by
  simp only [toU64, u64ToSize]
  omega

/-- C10: for every `foreach_info` record whose fields are representable
in their C types (32-bit signed `sort_direction`/`sort_column_ofs`,
including the sentinel -1; 32-bit unsigned `sort_column`; 64-bit
`keysize`/`sort_column_size`), the interned vector has exactly
`n_foreach_info_fields = 5` entries (so the de-intern size assertion
holds) and de-interning restores the original record. -/
theorem foreach_info_roundtrip :
    ∀ fi : foreach_info,
      -(2 : Int) ^ 31 ≤ fi.sort_direction → fi.sort_direction < 2 ^ 31 →
      fi.sort_column < 2 ^ 32 →
      fi.keysize < 2 ^ 64 → fi.sort_column_size < 2 ^ 64 →
      -(2 : Int) ^ 31 ≤ fi.sort_column_ofs → fi.sort_column_ofs < 2 ^ 31 →
      (intern_foreach_info fi).length = n_foreach_info_fields ∧
      deintern_foreach_info (intern_foreach_info fi) = Except.ok fi := by
  intro fi h1 h2 h3 h4 h5 h6 h7
  refine ⟨rfl, ?_⟩
  simp only [deintern_foreach_info, intern_foreach_info, n_foreach_info_fields,
    List.length_cons, List.length_nil, dif_pos, List.get]
  rw [toU64_i32_roundtrip _ h1 h2, toU64_u32_roundtrip _ h3,
    toU64_size_roundtrip _ h4, toU64_size_roundtrip _ h5,
    toU64_i32_roundtrip _ h6 h7]

/-! ## Claim C4: constant pooling -/

/-- Indexing characterization for a one-element append. -/
theorem get?_snoc (l : List α) (a : α) (n : Nat) (x : α) :
    (l ++ [a]).get? n = some x ↔
      (l.get? n = some x ∨ (n = l.length ∧ x = a)) := by
  rcases Nat.lt_trichotomy n l.length with h | h | h
  · rw [List.get?_append h]
    constructor
    · exact fun hx => Or.inl hx
    · rintro (hx | ⟨hn, _⟩)
      · exact hx
      · omega
  · subst h
    rw [List.get?_concat_length]
    constructor
    · intro hx
      right
      exact ⟨rfl, (Option.some.injEq _ _ ▸ hx).symm⟩
    · rintro (hx | ⟨-, rfl⟩)
      · have := List.get?_eq_none.mpr (Nat.le_refl l.length)
        rw [this] at hx
        cases hx
      · rfl
  · have h1 : (l ++ [a]).get? n = none := by
      apply List.get?_eq_none.mpr
      simp only [List.length_append, List.length_cons, List.length_nil]
      omega
    have h2 : l.get? n = none := List.get?_eq_none.mpr (by omega)
    rw [h1, h2]
    simp
    omega

/-- `new_imm` preserves pool well-formedness. -/
theorem poolWF_new_imm (st : PoolState) (i : Int) (hwf : PoolWF st) :
    PoolWF (new_imm st i).2 := by
  obtain ⟨w1, w2, w3, w4, w5, w6, w7, w8⟩ := hwf
  unfold new_imm
  cases hl : assocFind i st.imm_map with
  | some p => exact ⟨w1, w2, w3, w4, w5, w6, w7, w8⟩
  | none =>
    simp only
    refine ⟨?_, ?_, ?_, ?_, ?_, ?_, ?_, ?_⟩
    · intro j p hp
      by_cases hij : i = j
      · subst hij
        simp only [assocFind, if_pos rfl] at hp
        cases hp
        exact (get?_snoc _ _ _ _).mpr (Or.inr ⟨rfl, rfl⟩)
      · simp only [assocFind, if_neg hij] at hp
        exact (get?_snoc _ _ _ _).mpr (Or.inl (w1 j p hp))
    · intro s p hp
      exact (get?_snoc _ _ _ _).mpr (Or.inl (w2 s p hp))
    · intro s p hp
      exact (get?_snoc _ _ _ _).mpr (Or.inl (w3 s p hp))
    · intro p q j hp hq
      rcases (get?_snoc _ _ _ _).mp hp with hp1 | ⟨hp1, hp2⟩ <;>
        rcases (get?_snoc _ _ _ _).mp hq with hq1 | ⟨hq1, hq2⟩
      · exact w4 p q j hp1 hq1
      · injection hq2 with hji
        subst hji
        have := w6 j p hp1
        rw [hl] at this
        cases this
      · injection hp2 with hji
        subst hji
        have := w6 j q hq1
        rw [hl] at this
        cases this
      · omega
    · intro p q s fmt hp hq
      rcases (get?_snoc _ _ _ _).mp hp with hp1 | ⟨hp1, hp2⟩ <;>
        rcases (get?_snoc _ _ _ _).mp hq with hq1 | ⟨hq1, hq2⟩
      · exact w5 p q s fmt hp1 hq1
      · cases hq2
      · cases hp2
      · omega
    · intro j p hp
      rcases (get?_snoc _ _ _ _).mp hp with hp1 | ⟨hp1, hp2⟩
      · have hold := w6 j p hp1
        have hij : i ≠ j := by
          intro he
          rw [he] at hl
          rw [hl] at hold
          cases hold
        simp only [assocFind, if_neg hij]
        exact hold
      · injection hp2 with hji
        subst hji
        subst hp1
        simp [assocFind]
    · intro s p hp
      rcases (get?_snoc _ _ _ _).mp hp with hp1 | ⟨hp1, hp2⟩
      · exact w7 s p hp1
      · cases hp2
    · intro s p hp
      rcases (get?_snoc _ _ _ _).mp hp with hp1 | ⟨hp1, hp2⟩
      · exact w8 s p hp1
      · cases hp2

/-- `new_str` preserves pool well-formedness. -/
theorem poolWF_new_str (st : PoolState) (s : String) (fmt : Bool)
    (hwf : PoolWF st) : PoolWF (new_str st s fmt).2 := by
  obtain ⟨w1, w2, w3, w4, w5, w6, w7, w8⟩ := hwf
  unfold new_str
  cases fmt with
  | true =>
    rw [if_pos rfl]
    cases hl : assocFind s st.format_map with
    | some p => exact ⟨w1, w2, w3, w4, w5, w6, w7, w8⟩
    | none =>
      refine ⟨?_, ?_, ?_, ?_, ?_, ?_, ?_, ?_⟩
      · intro j p hp
        exact (get?_snoc _ _ _ _).mpr (Or.inl (w1 j p hp))
      · intro s0 p hp
        exact (get?_snoc _ _ _ _).mpr (Or.inl (w2 s0 p hp))
      · intro s0 p hp
        by_cases hss : s = s0
        · subst hss
          simp only [assocFind, if_pos rfl] at hp
          cases hp
          exact (get?_snoc _ _ _ _).mpr (Or.inr ⟨rfl, rfl⟩)
        · simp only [assocFind, if_neg hss] at hp
          exact (get?_snoc _ _ _ _).mpr (Or.inl (w3 s0 p hp))
      · intro p q j hp hq
        rcases (get?_snoc _ _ _ _).mp hp with hp1 | ⟨hp1, hp2⟩ <;>
          rcases (get?_snoc _ _ _ _).mp hq with hq1 | ⟨hq1, hq2⟩
        · exact w4 p q j hp1 hq1
        · cases hq2
        · cases hp2
        · omega
      · intro p q s0 fmt0 hp hq
        rcases (get?_snoc _ _ _ _).mp hp with hp1 | ⟨hp1, hp2⟩ <;>
          rcases (get?_snoc _ _ _ _).mp hq with hq1 | ⟨hq1, hq2⟩
        · exact w5 p q s0 fmt0 hp1 hq1
        · simp only [value.STR.injEq] at hq2
          obtain ⟨rfl, rfl⟩ := hq2
          have hc := w8 _ p hp1
          rw [hl] at hc
          cases hc
        · simp only [value.STR.injEq] at hp2
          obtain ⟨rfl, rfl⟩ := hp2
          have hc := w8 _ q hq1
          rw [hl] at hc
          cases hc
        · omega
      · intro j p hp
        rcases (get?_snoc _ _ _ _).mp hp with hp1 | ⟨hp1, hp2⟩
        · exact w6 j p hp1
        · cases hp2
      · intro s0 p hp
        rcases (get?_snoc _ _ _ _).mp hp with hp1 | ⟨hp1, hp2⟩
        · exact w7 s0 p hp1
        · cases hp2
      · intro s0 p hp
        rcases (get?_snoc _ _ _ _).mp hp with hp1 | ⟨hp1, hp2⟩
        · have hold := w8 s0 p hp1
          have hss : s ≠ s0 := by
            intro he
            rw [he] at hl
            rw [hl] at hold
            cases hold
          simp only [assocFind, if_neg hss]
          exact hold
        · simp only [value.STR.injEq] at hp2
          obtain ⟨rfl, -⟩ := hp2
          subst hp1
          simp [assocFind]
  | false =>
    rw [if_neg (by simp)]
    cases hl : assocFind s st.str_map with
    | some p => exact ⟨w1, w2, w3, w4, w5, w6, w7, w8⟩
    | none =>
      refine ⟨?_, ?_, ?_, ?_, ?_, ?_, ?_, ?_⟩
      · intro j p hp
        exact (get?_snoc _ _ _ _).mpr (Or.inl (w1 j p hp))
      · intro s0 p hp
        by_cases hss : s = s0
        · subst hss
          simp only [assocFind, if_pos rfl] at hp
          cases hp
          exact (get?_snoc _ _ _ _).mpr (Or.inr ⟨rfl, rfl⟩)
        · simp only [assocFind, if_neg hss] at hp
          exact (get?_snoc _ _ _ _).mpr (Or.inl (w2 s0 p hp))
      · intro s0 p hp
        exact (get?_snoc _ _ _ _).mpr (Or.inl (w3 s0 p hp))
      · intro p q j hp hq
        rcases (get?_snoc _ _ _ _).mp hp with hp1 | ⟨hp1, hp2⟩ <;>
          rcases (get?_snoc _ _ _ _).mp hq with hq1 | ⟨hq1, hq2⟩
        · exact w4 p q j hp1 hq1
        · cases hq2
        · cases hp2
        · omega
      · intro p q s0 fmt0 hp hq
        rcases (get?_snoc _ _ _ _).mp hp with hp1 | ⟨hp1, hp2⟩ <;>
          rcases (get?_snoc _ _ _ _).mp hq with hq1 | ⟨hq1, hq2⟩
        · exact w5 p q s0 fmt0 hp1 hq1
        · simp only [value.STR.injEq] at hq2
          obtain ⟨rfl, rfl⟩ := hq2
          have hc := w7 _ p hp1
          rw [hl] at hc
          cases hc
        · simp only [value.STR.injEq] at hp2
          obtain ⟨rfl, rfl⟩ := hp2
          have hc := w7 _ q hq1
          rw [hl] at hc
          cases hc
        · omega
      · intro j p hp
        rcases (get?_snoc _ _ _ _).mp hp with hp1 | ⟨hp1, hp2⟩
        · exact w6 j p hp1
        · cases hp2
      · intro s0 p hp
        rcases (get?_snoc _ _ _ _).mp hp with hp1 | ⟨hp1, hp2⟩
        · have hold := w7 s0 p hp1
          have hss : s ≠ s0 := by
            intro he
            rw [he] at hl
            rw [hl] at hold
            cases hold
          simp only [assocFind, if_neg hss]
          exact hold
        · simp only [value.STR.injEq] at hp2
          obtain ⟨rfl, -⟩ := hp2
          subst hp1
          simp [assocFind]
      · intro s0 p hp
        rcases (get?_snoc _ _ _ _).mp hp with hp1 | ⟨hp1, hp2⟩
        · exact w8 s0 p hp1
        · cases hp2

/-- C4: in a fresh program the constant pools are well-formed; two
`new_imm` requests with equal `int64` values return the identical pooled
value object (the same index into the program's owned value pool) and
the second request does not change the program; likewise two `new_str`
requests with equal contents and equal format flag; and pooling
preserves well-formedness — whose uniqueness clauses state that the
program holds at most one value object per distinct immediate integer
and per distinct (string, format-flag) constant. -/
theorem pooling_spec :
    PoolWF PoolState.empty ∧
    (∀ st i, PoolWF st →
      (new_imm (new_imm st i).2 i).1 = (new_imm st i).1 ∧
      (new_imm (new_imm st i).2 i).2 = (new_imm st i).2 ∧
      PoolWF (new_imm st i).2) ∧
    (∀ st s fmt, PoolWF st →
      (new_str (new_str st s fmt).2 s fmt).1 = (new_str st s fmt).1 ∧
      (new_str (new_str st s fmt).2 s fmt).2 = (new_str st s fmt).2 ∧
      PoolWF (new_str st s fmt).2) := by
  refine ⟨?_, ?_, ?_⟩
  · refine ⟨?_, ?_, ?_, ?_, ?_, ?_, ?_, ?_⟩ <;>
      intros <;> simp_all [PoolState.empty, assocFind]
  · intro st i hwf
    refine ⟨?_, ?_, poolWF_new_imm st i hwf⟩
    · cases hl : assocFind i st.imm_map with
      | some p => simp [new_imm, hl]
      | none => simp [new_imm, hl, assocFind]
    · cases hl : assocFind i st.imm_map with
      | some p => simp [new_imm, hl]
      | none => simp [new_imm, hl, assocFind]
  · intro st s fmt hwf
    refine ⟨?_, ?_, poolWF_new_str st s fmt hwf⟩
    · cases fmt with
      | true =>
        cases hl : assocFind s st.format_map with
        | some p => simp [new_str, hl]
        | none => simp [new_str, hl, assocFind]
      | false =>
        cases hl : assocFind s st.str_map with
        | some p => simp [new_str, hl]
        | none => simp [new_str, hl, assocFind]
    · cases fmt with
      | true =>
        cases hl : assocFind s st.format_map with
        | some p => simp [new_str, hl]
        | none => simp [new_str, hl, assocFind]
      | false =>
        cases hl : assocFind s st.str_map with
        | some p => simp [new_str, hl]
        | none => simp [new_str, hl, assocFind]

/-- Witness for C4: interning the immediate 42 twice in a fresh program. -/
theorem pooling_spec_witness :
    (new_imm (new_imm PoolState.empty 42).2 42).1 = (new_imm PoolState.empty 42).1 ∧
    (new_imm (new_imm PoolState.empty 42).2 42).2 = (new_imm PoolState.empty 42).2 ∧
    PoolWF (new_imm PoolState.empty 42).2 :=
  pooling_spec.2.1 PoolState.empty 42 pooling_spec.1

/-! ## Claim C2: string-copy output extent and contents -/

theorem writtenOffsets_append (l1 l2 : List WordStore) :
    writtenOffsets (l1 ++ l2) = writtenOffsets l1 ++ writtenOffsets l2 := by
  simp [writtenOffsets, bytesWritten]

theorem mem_writtenOffsets_cons (s : WordStore) (l : List WordStore) (a : Int) :
    a ∈ writtenOffsets (s :: l) ↔
      ((a = s.1 ∨ a = s.1 + 1 ∨ a = s.1 + 2 ∨ a = s.1 + 3) ∨
        a ∈ writtenOffsets l) := by
  have h : writtenOffsets (s :: l) =
      ((storeBytes s).map Prod.fst) ++ writtenOffsets l := by
    simp [writtenOffsets, bytesWritten]
  rw [h, List.mem_append]
  simp [storeBytes]

/-- Membership in the byte offsets of a contiguous word-store sequence. -/
theorem mem_writtenOffsets_wordSeq (ofs : Int) (f : Nat → Nat) (a : Int) :
    ∀ n s, (a ∈ writtenOffsets ((List.range' s n).map
        (fun k => ((ofs + (4 * k : Nat), f k) : WordStore))) ↔
      (ofs + (4 * s : Nat) ≤ a ∧ a < ofs + (4 * (s + n) : Nat))) := by
  intro n
  induction n with
  | zero =>
      intro s
      simp [writtenOffsets, bytesWritten]
  | succ n ih =>
      intro s
      rw [List.range'_succ, List.map_cons, mem_writtenOffsets_cons, ih (s + 1)]
      simp only
      push_cast
      omega

/-- The zero-fill chain `block_B[i..15]` writes exactly the byte
interval `[ofs+4i, ofs+64)`. -/
theorem padB_offsets (ofs : Int) (i : Nat) (hi : i ≤ 16) (a : Int) :
    a ∈ writtenOffsets (padB_stores ofs i) ↔
      ofs + (4 * i : Nat) ≤ a ∧ a < ofs + 64 := by
  unfold padB_stores
  rw [show BPF_MAXSTRINGLEN / 4 = 16 from rfl,
    mem_writtenOffsets_wordSeq ofs (fun _ => 0) a (16 - i) i]
  constructor
  · rintro ⟨h1, h2⟩
    refine ⟨h1, ?_⟩
    have he : i + (16 - i) = 16 := by omega
    rw [he] at h2
    push_cast at h2 ⊢
    omega
  · rintro ⟨h1, h2⟩
    refine ⟨h1, ?_⟩
    have he : i + (16 - i) = 16 := by omega
    rw [he]
    push_cast
    omega

/-- `emit_simple_literal_str` with zero-padding writes exactly the byte
interval `[ofs, ofs+BPF_MAXSTRINGLEN)` for in-range literals. -/
theorem simple_literal_offsets_pad (ofs : Int) (src : List Nat)
    (hlen : src.length + 1 ≤ BPF_MAXSTRINGLEN) (a : Int) :
    a ∈ writtenOffsets (simple_literal_str_stores ofs src true) ↔
      ofs ≤ a ∧ a < ofs + 64 := by
  have hw : str_words src ≤ 16 := by
    simp only [str_words, BPF_MAXSTRINGLEN] at hlen ⊢
    omega
  unfold simple_literal_str_stores
  rw [if_pos rfl, writtenOffsets_append, List.mem_append,
    mem_writtenOffsets_wordSeq ofs (fun i => literal_word src i) a (str_words src) 0,
    show BPF_MAXSTRINGLEN / 4 = 16 from rfl,
    mem_writtenOffsets_wordSeq ofs (fun _ => 0) a (16 - str_words src) (str_words src)]
  have he : str_words src + (16 - str_words src) = 16 := by omega
  rw [he]
  push_cast
  omega

/-- `emit_simple_literal_str` without zero-padding writes exactly the
words covering the string and its NUL terminator:
`[ofs, ofs + 4*str_words)`. -/
theorem simple_literal_offsets_nopad (ofs : Int) (src : List Nat) (a : Int) :
    a ∈ writtenOffsets (simple_literal_str_stores ofs src false) ↔
      ofs ≤ a ∧ a < ofs + (4 * str_words src : Nat) := by
  unfold simple_literal_str_stores
  rw [if_neg (by simp), List.append_nil,
    mem_writtenOffsets_wordSeq ofs (fun i => literal_word src i) a (str_words src) 0]
  push_cast
  omega

/-- The no-padding word count covers the terminating NUL and at most
three bytes beyond it. -/
theorem str_words_covers_nul (src : List Nat) :
    src.length + 1 ≤ 4 * str_words src ∧ 4 * str_words src ≤ src.length + 4 := by
  simp only [str_words]
  omega

/-- Every byte the literal emitter packs is `< 256`. -/
theorem literal_byte_lt (src : List Nat) (hb : ∀ b ∈ src, b < 256) (k : Nat) :
    literal_byte src k < 256 := by
  unfold literal_byte
  split
  · next h =>
      have hm : src.getD k 0 ∈ src := by
        rw [List.getD_eq_getElem src 0 h]
        exact List.getElem_mem h
      exact hb _ hm
  · omega

/-- Byte extraction from the packed literal word. -/
theorem wordByte_literal (src : List Nat) (hb : ∀ b ∈ src, b < 256)
    (i j : Nat) (hj : j < 4) :
    wordByte (literal_word src i) j = literal_byte src (4 * i + j) := by
  have h0 := literal_byte_lt src hb (4 * i)
  have h1 := literal_byte_lt src hb (4 * i + 1)
  have h2 := literal_byte_lt src hb (4 * i + 2)
  have h3 := literal_byte_lt src hb (4 * i + 3)
  interval_cases j <;>
    simp only [wordByte, literal_word, pow_zero, pow_one, Nat.div_one, Nat.add_zero] <;>
    omega

/-- Membership in the (address, byte) pairs of a contiguous word-store
sequence. -/
theorem mem_bytesWritten_wordSeq (ofs : Int) (f : Nat → Nat) (x : Int) (v : Nat) :
    ∀ n s, ((x, v) ∈ bytesWritten ((List.range' s n).map
        (fun k => ((ofs + (4 * k : Nat), f k) : WordStore))) ↔
      ∃ k, s ≤ k ∧ k < s + n ∧ ∃ j, j < 4 ∧
        x = ofs + (4 * k + j : Nat) ∧ v = wordByte (f k) j) := by
  intro n
  induction n with
  | zero =>
      intro s
      simp [bytesWritten]
      omega
  | succ n ih =>
      intro s
      rw [List.range'_succ, List.map_cons]
      have hcons : bytesWritten ((((ofs + (4 * s : Nat), f s) : WordStore)) ::
          (List.range' (s + 1) n).map
            (fun k => ((ofs + (4 * k : Nat), f k) : WordStore))) =
          storeBytes ((ofs + (4 * s : Nat), f s) : WordStore) ++
          bytesWritten ((List.range' (s + 1) n).map
            (fun k => ((ofs + (4 * k : Nat), f k) : WordStore))) := by
        simp [bytesWritten]
      rw [hcons, List.mem_append, ih (s + 1)]
      constructor
      · rintro (hmem | ⟨k, hk1, hk2, j, hj, hx, hv⟩)
        · simp only [storeBytes, List.mem_cons, List.mem_singleton,
            List.not_mem_nil, or_false] at hmem
          rcases hmem with h | h | h | h <;> rcases Prod.mk.injEq .. ▸ h with ⟨hx, hv⟩
          · exact ⟨s, by omega, by omega, 0, by omega, by push_cast at hx ⊢; omega, hv⟩
          · exact ⟨s, by omega, by omega, 1, by omega, by push_cast at hx ⊢; omega, hv⟩
          · exact ⟨s, by omega, by omega, 2, by omega, by push_cast at hx ⊢; omega, hv⟩
          · exact ⟨s, by omega, by omega, 3, by omega, by push_cast at hx ⊢; omega, hv⟩
        · exact ⟨k, by omega, by omega, j, hj, hx, hv⟩
      · rintro ⟨k, hk1, hk2, j, hj, hx, hv⟩
        by_cases hks : k = s
        · subst hks
          left
          subst hx
          subst hv
          simp only [storeBytes, List.mem_cons, List.mem_singleton]
          interval_cases j
          · exact Or.inl (by push_cast; ring_nf)
          · exact Or.inr (Or.inl (by push_cast; ring_nf))
          · exact Or.inr (Or.inr (Or.inl (by push_cast; ring_nf)))
          · exact Or.inr (Or.inr (Or.inr (Or.inl (by push_cast; ring_nf))))
        · exact Or.inr ⟨k, by omega, by omega, j, hj, hx, hv⟩

/-- C2 contents for the zero-padded literal emitter: within the 64-byte
window, the byte written at `ofs + k` is source byte `k` inside the
string contents and 0 from the NUL terminator on (zero padding). -/
theorem simple_literal_bytes_pad (ofs : Int) (src : List Nat)
    (hlen : src.length + 1 ≤ BPF_MAXSTRINGLEN) (hb : ∀ b ∈ src, b < 256)
    (k : Nat) (hk : k < 64) (v : Nat) :
    ((ofs + (k : Nat), v) ∈ bytesWritten (simple_literal_str_stores ofs src true) ↔
      v = literal_byte src k) := by
  have hw : str_words src ≤ 16 := by
    simp only [str_words, BPF_MAXSTRINGLEN] at hlen ⊢
    omega
  have hwl : src.length + 1 ≤ 4 * str_words src := (str_words_covers_nul src).1
  unfold simple_literal_str_stores
  rw [if_pos rfl]
  have happ : bytesWritten
      ((List.range' 0 (str_words src)).map
        (fun i => ((ofs + (4 * i : Nat), literal_word src i) : WordStore)) ++
       (List.range' (str_words src) (BPF_MAXSTRINGLEN / 4 - str_words src)).map
        (fun i => ((ofs + (4 * i : Nat), 0) : WordStore))) =
      bytesWritten ((List.range' 0 (str_words src)).map
        (fun i => ((ofs + (4 * i : Nat), literal_word src i) : WordStore))) ++
      bytesWritten ((List.range' (str_words src) (BPF_MAXSTRINGLEN / 4 - str_words src)).map
        (fun i => ((ofs + (4 * i : Nat), 0) : WordStore))) := by
    simp [bytesWritten]
  rw [happ, List.mem_append,
    mem_bytesWritten_wordSeq ofs (fun i => literal_word src i) _ v (str_words src) 0,
    show BPF_MAXSTRINGLEN / 4 = 16 from rfl,
    mem_bytesWritten_wordSeq ofs (fun _ => 0) _ v (16 - str_words src) (str_words src)]
  constructor
  · rintro (⟨i, hi1, hi2, j, hj, hx, hv⟩ | ⟨i, hi1, hi2, j, hj, hx, hv⟩)
    · have hk4 : k = 4 * i + j := by omega
      rw [hv, wordByte_literal src hb i j hj, hk4]
    · have hk4 : k = 4 * i + j := by omega
      have hklen : ¬ (4 * i + j) < src.length := by omega
      rw [hv, hk4]
      simp only [literal_byte, if_neg hklen, wordByte, Nat.zero_div, Nat.zero_mod]
  · intro hv
    by_cases hkw : k < 4 * str_words src
    · left
      exact ⟨k / 4, by omega, by omega, k % 4, by omega, by push_cast; omega,
        by rw [wordByte_literal src hb _ _ (by omega)]; rw [hv]; congr 1; omega⟩
    · right
      refine ⟨k / 4, by omega, by omega, k % 4, by omega, by push_cast; omega, ?_⟩
      have hklen : ¬ k < src.length := by omega
      rw [hv]
      simp only [literal_byte, if_neg hklen, wordByte, Nat.zero_div, Nat.zero_mod]

/-- A byte-or trick operand is zero exactly for a zero byte. -/
theorem nz_zero_iff (b : Nat) (hb : b < 256) :
    ((bpfNeg64 b) ||| b = 0 ↔ b = 0) := by
  constructor
  · intro h
    by_contra hy
    obtain ⟨i, hi, -⟩ := Nat.exists_most_significant_bit hy
    have hor : Nat.testBit ((bpfNeg64 b) ||| b) i = true := by
      rw [Nat.testBit_or, hi]
      simp
    rw [h] at hor
    simp [Nat.zero_testBit] at hor
  · intro h
    subst h
    simp [bpfNeg64]

/-- For a nonzero byte, the bit-trick operand has bit 8 set. -/
theorem nz_bit8 (b : Nat) (h1 : 1 ≤ b) (h2 : b < 256) :
    Nat.testBit ((bpfNeg64 b) ||| b) 8 = true := by
  have hneg : bpfNeg64 b = 2 ^ 64 - b := by
    simp only [bpfNeg64]
    omega
  rw [Nat.testBit_or, hneg]
  have hbit : Nat.testBit (2 ^ 64 - b) 8 = true := by
    rw [Nat.testBit_to_div_mod]
    simp only [decide_eq_true_eq]
    omega
  rw [hbit]
  simp

/-- Correctness of the NUL-scan bit fiddling
(bpf-translate.cxx:3596-3631): `all_nz` is zero exactly when the word
contains a NUL byte. -/
theorem all_nz_iff_nul (w : Nat) : (all_nz w = 0 ↔ wordHasNulB w = true) := by
  have hb : ∀ j, w / 256 ^ j % 256 < 256 := fun j => Nat.mod_lt _ (by omega)
  constructor
  · intro h
    by_contra hnul
    simp only [wordHasNulB, wordByte, Bool.or_eq_true, decide_eq_true_eq, not_or] at hnul
    obtain ⟨⟨⟨h0, h1⟩, h2⟩, h3⟩ := hnul
    have t0 := nz_bit8 (w / 256 ^ 0 % 256) (by have := hb 0; omega) (hb 0)
    have t1 := nz_bit8 (w / 256 ^ 1 % 256) (by have := hb 1; omega) (hb 1)
    have t2 := nz_bit8 (w / 256 ^ 2 % 256) (by have := hb 2; omega) (hb 2)
    have t3 := nz_bit8 (w / 256 ^ 3 % 256) (by have := hb 3; omega) (hb 3)
    have : Nat.testBit (all_nz w) 8 = true := by
      simp only [all_nz, Nat.testBit_and, t0, t1, t2, t3, Bool.and_self]
    rw [h] at this
    simp [Nat.testBit] at this
  · intro h
    simp only [wordHasNulB, wordByte, Bool.or_eq_true, decide_eq_true_eq] at h
    have hz : ∀ j, w / 256 ^ j % 256 = 0 →
        (bpfNeg64 (w / 256 ^ j % 256)) ||| (w / 256 ^ j % 256) = 0 := by
      intro j hj
      rw [hj]
      simp [bpfNeg64]
    rcases h with ((h | h) | h) | h
    · simp only [all_nz]
      rw [hz 0 h]
      simp [Nat.zero_and]
    · simp only [all_nz]
      rw [hz 1 h]
      simp [Nat.and_zero, Nat.zero_and]
    · simp only [all_nz]
      rw [hz 2 h]
      simp [Nat.and_zero, Nat.zero_and]
    · simp only [all_nz]
      rw [hz 3 h]
      simp [Nat.and_zero]

/-- The zero-padded dynamic copy writes exactly `[ofs+4i, ofs+64)` when
entered at word `i`, regardless of where the NUL scan stops. -/
theorem copyA_offsets_pad (srcb : Nat → Nat) (ofs : Int) (a : Int) :
    ∀ fuel i, i + fuel = 16 → 1 ≤ fuel →
      (a ∈ writtenOffsets (copyA_stores srcb ofs true i fuel) ↔
        ofs + (4 * i : Nat) ≤ a ∧ a < ofs + 64) := by
  intro fuel
  induction fuel with
  | zero => omega
  | succ fuel ih =>
      intro i hif h1
      simp only [copyA_stores]
      by_cases h15 : i = BPF_MAXSTRINGLEN / 4 - 1
      · rw [if_pos h15, mem_writtenOffsets_cons]
        have h15n : i = 15 := by
          simpa [BPF_MAXSTRINGLEN] using h15
        subst h15n
        simp only [writtenOffsets, bytesWritten, List.flatMap_nil, List.map_nil,
          List.not_mem_nil, or_false]
        push_cast
        omega
      · rw [if_neg h15]
        by_cases hnz : all_nz (srcWord srcb i) = 0
        · rw [if_pos hnz, if_true, mem_writtenOffsets_cons,
            padB_offsets ofs (i + 1) (by simp [BPF_MAXSTRINGLEN] at h15; omega)]
          simp only
          push_cast
          omega
        · rw [if_neg hnz, mem_writtenOffsets_cons,
            ih (i + 1) (by omega) (by simp [BPF_MAXSTRINGLEN] at h15; omega)]
          simp only
          push_cast
          omega

/-- `copyStop` stays within the copied window. -/
theorem copyStop_bounds (srcb : Nat → Nat) :
    ∀ fuel i, i ≤ copyStop srcb i fuel ∧ copyStop srcb i fuel ≤ i + fuel := by
  intro fuel
  induction fuel with
  | zero =>
      intro i
      simp [copyStop]
  | succ fuel ih =>
      intro i
      simp only [copyStop]
      split
      · omega
      · split
        · omega
        · have := ih (i + 1)
          omega

/-- The unpadded dynamic copy writes exactly the words `i..copyStop`. -/
theorem copyA_offsets_nopad (srcb : Nat → Nat) (ofs : Int) (a : Int) :
    ∀ fuel i, i + fuel = 16 → 1 ≤ fuel →
      (a ∈ writtenOffsets (copyA_stores srcb ofs false i fuel) ↔
        ofs + (4 * i : Nat) ≤ a ∧
          a < ofs + (4 * (copyStop srcb i fuel + 1) : Nat)) := by
  intro fuel
  induction fuel with
  | zero => omega
  | succ fuel ih =>
      intro i hif h1
      simp only [copyA_stores, copyStop]
      by_cases h15 : i = BPF_MAXSTRINGLEN / 4 - 1
      · rw [if_pos h15, if_pos h15, mem_writtenOffsets_cons]
        simp only [writtenOffsets, bytesWritten, List.flatMap_nil, List.map_nil,
          List.not_mem_nil, or_false]
        simp only [BPF_MAXSTRINGLEN] at h15
        push_cast
        omega
      · rw [if_neg h15, if_neg h15]
        by_cases hnz : all_nz (srcWord srcb i) = 0
        · rw [if_pos hnz, if_pos hnz, mem_writtenOffsets_cons]
          simp only [writtenOffsets, bytesWritten, Bool.false_eq_true, if_false,
            List.flatMap_nil, List.map_nil, List.not_mem_nil, or_false]
          simp only [BPF_MAXSTRINGLEN] at h15
          push_cast
          omega
        · rw [if_neg hnz, if_neg hnz, mem_writtenOffsets_cons,
            ih (i + 1) (by omega) (by simp [BPF_MAXSTRINGLEN] at h15; omega)]
          have hge := (copyStop_bounds srcb fuel (i + 1)).1
          simp only
          push_cast
          omega

/-- Characterization of the NUL-scan stop word: no NUL in any earlier
word, and (unless the copy ran to the final word) a NUL in the stop
word itself. -/
theorem copyStop_char (srcb : Nat → Nat) :
    ∀ fuel i, i + fuel = 16 → 1 ≤ fuel →
      copyStop srcb i fuel ≤ 15 ∧
      (∀ j, i ≤ j → j < copyStop srcb i fuel →
        wordHasNulB (srcWord srcb j) = false) ∧
      (copyStop srcb i fuel < 15 →
        wordHasNulB (srcWord srcb (copyStop srcb i fuel)) = true) := by
  intro fuel
  induction fuel with
  | zero => omega
  | succ fuel ih =>
      intro i hif h1
      simp only [copyStop]
      by_cases h15 : i = BPF_MAXSTRINGLEN / 4 - 1
      · rw [if_pos h15]
        simp only [BPF_MAXSTRINGLEN] at h15
        refine ⟨by omega, by omega, by omega⟩
      · rw [if_neg h15]
        have hi15 : i < 15 := by
          simp only [BPF_MAXSTRINGLEN] at h15
          omega
        by_cases hnz : all_nz (srcWord srcb i) = 0
        · rw [if_pos hnz]
          refine ⟨by omega, by omega, ?_⟩
          intro _
          exact (all_nz_iff_nul _).mp hnz
        · rw [if_neg hnz]
          obtain ⟨ub, hmid, hstop⟩ := ih (i + 1) (by omega) (by omega)
          refine ⟨ub, ?_, hstop⟩
          intro j hj1 hj2
          by_cases hji : j = i
          · subst hji
            cases hw : wordHasNulB (srcWord srcb j) with
            | false => rfl
            | true =>
                exact absurd ((all_nz_iff_nul _).mpr hw) hnz
          · exact hmid j (by omega) hj2

/-- C2 counterexample: for the one-byte literal "a" (= byte 97) at
offset 0 with no zero-padding requested, the emitted copy does not
write "only up to and including the terminating NUL byte": the NUL is
at offset 1, yet offsets 2 and 3 are also written (the store width is a
whole 4-byte word). -/
theorem string_copy_nopad_writes_past_nul :
    ¬ (∀ a ∈ writtenOffsets (simple_literal_str_stores 0 [97] false),
        a ≤ (1 : Int)) := by decide

/-- C2 (amended): with zero-padding requested both string-copy emitters
write exactly `BPF_MAXSTRINGLEN` (64) bytes — `[ofs, ofs+64)` — for
every in-range input (shorter inputs are padded with zero bytes, as the
contents clause states for the literal emitter); without zero-padding
they write exactly the 4-byte words up to and including the word
containing the terminating NUL — i.e. up to 3 zero (literal) or source
(dynamic) bytes past the NUL — rather than stopping at the NUL byte
itself. -/
theorem string_copy_extent_spec :
    (∀ ofs src, src.length + 1 ≤ BPF_MAXSTRINGLEN → ∀ a : Int,
      (a ∈ writtenOffsets (simple_literal_str_stores ofs src true) ↔
        ofs ≤ a ∧ a < ofs + 64)) ∧
    (∀ ofs src, src.length + 1 ≤ BPF_MAXSTRINGLEN → (∀ b ∈ src, b < 256) →
      ∀ k, k < 64 → ∀ v,
      ((ofs + (k : Nat), v) ∈ bytesWritten (simple_literal_str_stores ofs src true) ↔
        v = literal_byte src k)) ∧
    (∀ ofs src,
      (∀ a : Int,
        (a ∈ writtenOffsets (simple_literal_str_stores ofs src false) ↔
          ofs ≤ a ∧ a < ofs + (4 * str_words src : Nat))) ∧
      src.length + 1 ≤ 4 * str_words src ∧ 4 * str_words src ≤ src.length + 4) ∧
    (∀ srcNull srcb ofs, ∀ a : Int,
      (a ∈ writtenOffsets (string_copy_stores srcNull srcb ofs true) ↔
        ofs ≤ a ∧ a < ofs + 64)) ∧
    (∀ srcb ofs,
      (∀ a : Int,
        (a ∈ writtenOffsets (string_copy_stores false srcb ofs false) ↔
          ofs ≤ a ∧ a < ofs + (4 * (copyStop srcb 0 16 + 1) : Nat))) ∧
      copyStop srcb 0 16 ≤ 15 ∧
      (∀ j, j < copyStop srcb 0 16 → wordHasNulB (srcWord srcb j) = false) ∧
      (copyStop srcb 0 16 < 15 →
        wordHasNulB (srcWord srcb (copyStop srcb 0 16)) = true)) ∧
    (∀ srcb ofs, ∀ a : Int,
      (a ∈ writtenOffsets (string_copy_stores true srcb ofs false) ↔
        ofs ≤ a ∧ a < ofs + 4)) := by
  refine ⟨simple_literal_offsets_pad, simple_literal_bytes_pad, ?_, ?_, ?_, ?_⟩
  · intro ofs src
    exact ⟨simple_literal_offsets_nopad ofs src, str_words_covers_nul src⟩
  · intro srcNull srcb ofs a
    cases srcNull with
    | true =>
        show a ∈ writtenOffsets (padB_stores ofs 0) ↔ _
        rw [padB_offsets ofs 0 (by omega) a]
        push_cast
        omega
    | false =>
        show a ∈ writtenOffsets (copyA_stores srcb ofs true 0 (BPF_MAXSTRINGLEN / 4)) ↔ _
        rw [show BPF_MAXSTRINGLEN / 4 = 16 from rfl,
          copyA_offsets_pad srcb ofs a 16 0 (by omega) (by omega)]
        push_cast
        omega
  · intro srcb ofs
    obtain ⟨ub, hmid, hstop⟩ := copyStop_char srcb 16 0 (by omega) (by omega)
    refine ⟨?_, ub, fun j hj => hmid j (by omega) hj, hstop⟩
    intro a
    show a ∈ writtenOffsets (copyA_stores srcb ofs false 0 (BPF_MAXSTRINGLEN / 4)) ↔ _
    rw [show BPF_MAXSTRINGLEN / 4 = 16 from rfl,
      copyA_offsets_nopad srcb ofs a 16 0 (by omega) (by omega)]
    push_cast
    omega
  · intro srcb ofs a
    show a ∈ writtenOffsets (simple_literal_str_stores ofs [] false) ↔ _
    rw [simple_literal_offsets_nopad ofs []]
    have hsw : str_words [] = 1 := rfl
    rw [hsw]
    push_cast
    omega

/-- Witness for C2's amended theorem: three concrete consequences for
the literal "a" at offset 0. -/
theorem string_copy_extent_spec_witness :
    ((5 : Int) ∈ writtenOffsets (simple_literal_str_stores 0 [97] true)) ∧
    (((0 : Int) + ((1 : Nat) : Int), 0) ∈
      bytesWritten (simple_literal_str_stores 0 [97] true)) ∧
    ¬ ((4 : Int) ∈ writtenOffsets (simple_literal_str_stores 0 [97] false)) := by
  refine ⟨?_, ?_, ?_⟩
  · exact (string_copy_extent_spec.1 0 [97] (by decide) 5).mpr (by decide)
  · exact (string_copy_extent_spec.2.1 0 [97] (by decide) (by decide) 1
      (by decide) 0).mpr (by decide)
  · intro hmem
    have h := ((string_copy_extent_spec.2.2.1 0 [97]).1 4).mp hmem
    revert h
    decide

/-- Witness for C10 at a concrete record containing the sort sentinel
values. -/
theorem foreach_info_roundtrip_witness :
    (intern_foreach_info ⟨-1, 1, 16, 8, -1⟩).length = n_foreach_info_fields ∧
    deintern_foreach_info (intern_foreach_info ⟨-1, 1, 16, 8, -1⟩) =
      Except.ok ⟨-1, 1, 16, 8, -1⟩ :=
  foreach_info_roundtrip ⟨-1, 1, 16, 8, -1⟩ (by norm_num) (by norm_num)
    (by norm_num) (by norm_num) (by norm_num) (by norm_num) (by norm_num)

/-! ## Translator-monad infrastructure (claims C3, C6, C7, C8) -/

theorem listModify_length (l : List α) (n : Nat) (f : α → α) :
    (listModify l n f).length = l.length := by
  induction l generalizing n with
  | nil => rfl
  | cons x xs ih =>
      cases n with
      | zero => rfl
      | succ m => simpa [listModify] using ih m

theorem listModify_getD_self (l : List α) (n : Nat) (f : α → α) (d : α)
    (h : n < l.length) : (listModify l n f).getD n d = f (l.getD n d) := by
  induction l generalizing n with
  | nil => simp at h
  | cons x xs ih =>
      cases n with
      | zero => rfl
      | succ m =>
          simp only [listModify, List.getD_cons_succ]
          exact ih m (by simpa using Nat.lt_of_succ_lt_succ h)

theorem listModify_getD_ne (l : List α) (n : Nat) (f : α → α) (d : α)
    (m : Nat) (h : m ≠ n) : (listModify l n f).getD m d = l.getD m d := by
  induction l generalizing n m with
  | nil => rfl
  | cons x xs ih =>
      cases n with
      | zero =>
          cases m with
          | zero => exact absurd rfl h
          | succ m0 => rfl
      | succ n0 =>
          cases m with
          | zero => rfl
          | succ m0 =>
              simp only [listModify, List.getD_cons_succ]
              exact ih n0 m0 (fun he => h (by rw [he]))

theorem listModify_append_left (l l2 : List α) (n : Nat) (f : α → α)
    (h : n < l.length) :
    listModify (l ++ l2) n f = listModify l n f ++ l2 := by
  induction l generalizing n with
  | nil => simp at h
  | cons x xs ih =>
      cases n with
      | zero => rfl
      | succ m =>
          simp only [List.cons_append, listModify, List.cons.injEq, true_and]
          exact ih m (by simpa using Nat.lt_of_succ_lt_succ h)

theorem listModify_append_skip (l l2 : List α) (n k : Nat) (f : α → α)
    (h : l.length = n) :
    listModify (l ++ l2) (n + k) f = l ++ listModify l2 k f := by
  induction l generalizing n with
  | nil =>
      subst h
      simp only [List.length_nil, List.nil_append, Nat.zero_add]
  | cons x xs ih =>
      subst h
      have harith : (x :: xs).length + k = (xs.length + k) + 1 := by
        simp only [List.length_cons]
        omega
      rw [harith]
      simp only [List.cons_append, listModify, List.cons.injEq, true_and]
      exact ih xs.length rfl

theorem listModify_append_skip0 (l l2 : List α) (n : Nat) (f : α → α)
    (h : l.length = n) :
    listModify (l ++ l2) n f = l ++ listModify l2 0 f := by
  have hk := listModify_append_skip l l2 n 0 f h
  rwa [Nat.add_zero] at hk

theorem getD_append_lt (l l2 : List α) (n : Nat) (d : α) (h : n < l.length) :
    (l ++ l2).getD n d = l.getD n d := by
  induction l generalizing n with
  | nil => simp at h
  | cons x xs ih =>
      cases n with
      | zero => rfl
      | succ m =>
          simp only [List.cons_append, List.getD_cons_succ]
          exact ih m (by simpa using Nat.lt_of_succ_lt_succ h)

theorem getD_append_skip (l l2 : List α) (n k : Nat) (d : α)
    (h : l.length = n) : (l ++ l2).getD (n + k) d = l2.getD k d := by
  induction l generalizing n with
  | nil =>
      subst h
      simp only [List.length_nil, List.nil_append, Nat.zero_add]
  | cons x xs ih =>
      subst h
      have harith : (x :: xs).length + k = (xs.length + k) + 1 := by
        simp only [List.length_cons]
        omega
      rw [harith]
      simp only [List.cons_append, List.getD_cons_succ]
      exact ih xs.length rfl

namespace tr

theorem EmitM_bind_eq {α β : Type} (m : EmitM α) (f : α → EmitM β) (st : UPState) :
    (m >>= f) st = match m st with
      | Except.ok (a, st1) => f a st1
      | Except.error e => Except.error e := rfl

theorem EmitM_pure_eq {α : Type} (a : α) (st : UPState) :
    (pure a : EmitM α) st = Except.ok (a, st) := rfl

theorem Good_pure {α : Type} (a : α) : Good (pure a : EmitM α) := by
  intro st
  constructor
  · intro b st1 h
    rw [EmitM_pure_eq] at h
    simp only [Except.ok.injEq, Prod.mk.injEq] at h
    rw [← h.2]
  · intro e st1 h
    rw [EmitM_pure_eq] at h
    exact absurd h (by simp)

theorem Good_bind {α β : Type} {m : EmitM α} {f : α → EmitM β}
    (hm : Good m) (hf : ∀ a, Good (f a)) : Good (m >>= f) := by
  intro st
  constructor
  · intro b st2 h
    rw [EmitM_bind_eq] at h
    cases hms : m st with
    | ok p =>
        obtain ⟨a, st1⟩ := p
        simp only [hms] at h
        rw [(hf a st1).1 b st2 h, (hm st).1 a st1 hms]
    | error p => simp only [hms] at h; exact absurd h (by simp)
  · intro e st2 h hg
    rw [EmitM_bind_eq] at h
    cases hms : m st with
    | ok p =>
        obtain ⟨a, st1⟩ := p
        simp only [hms] at h
        rw [← (hm st).1 a st1 hms]
        exact (hf a st1).2 e st2 h hg
    | error p =>
        obtain ⟨e0, st0⟩ := p
        simp only [hms, Except.error.injEq, Prod.mk.injEq] at h
        obtain ⟨rfl, -⟩ := h
        exact (hm st).2 e0 st0 hms hg

theorem Good_okShape {α : Type} (g : UPState → α) (u : UPState → UPState)
    (hu : ∀ st, (u st).target = st.target) :
    Good (fun st => Except.ok (g st, u st)) := by
  intro st
  constructor
  · intro a st1 h
    simp only [Except.ok.injEq, Prod.mk.injEq] at h
    rw [← h.2]
    exact hu st
  · intro e st1 h
    exact absurd h (by simp)

theorem Good_eThrow {α : Type} (e : Err) (he : ¬ isGuardErr e) :
    Good (eThrow e : EmitM α) := by
  intro st
  constructor
  · intro a st1 h
    exact absurd h (by simp [eThrow])
  · intro e1 st1 h hg
    simp only [eThrow, Except.error.injEq, Prod.mk.injEq] at h
    rw [← h.1] at hg
    exact absurd hg he

theorem not_guard_sem (msg : String) (tok : Nat) (h : msg ≠ loopGuardMsg) :
    ¬ isGuardErr (Err.semantic msg tok) := by
  rintro ⟨t, he⟩
  simp only [Err.semantic.injEq] at he
  exact h he.1

theorem not_guard_assert (msg : String) : ¬ isGuardErr (Err.assertFail msg) := by
  rintro ⟨t, he⟩
  cases he

theorem not_guard_fuel : ¬ isGuardErr Err.outOfFuel := by
  rintro ⟨t, he⟩
  cases he

theorem Good_eGet : Good eGet :=
  Good_okShape (fun st => st) (fun st => st) (fun _ => rfl)

theorem Good_set_block (b : Nat) : Good (set_block b) :=
  Good_okShape (fun _ => ()) _ (fun _ => rfl)

theorem Good_clear_block : Good clear_block :=
  Good_okShape (fun _ => ()) _ (fun _ => rfl)

theorem Good_new_block : Good new_block :=
  Good_okShape (fun st => st.blocks.length) _ (fun _ => rfl)

theorem Good_new_reg : Good new_reg :=
  Good_okShape (fun st => value.TMPREG st.nextReg) _ (fun _ => rfl)

theorem Good_new_imm (i : Int) : Good (new_imm i) := Good_pure _

theorem Good_lookup_reg (r : Nat) : Good (lookup_reg r) := Good_pure _

theorem Good_appendInsn (i : Insn) : Good (appendInsn i) := by
  intro st
  constructor
  · intro a st1 h
    unfold appendInsn at h
    cases hc : st.cur with
    | none => rw [hc] at h; exact absurd h (by simp)
    | some b =>
        simp only [hc, Except.ok.injEq, Prod.mk.injEq] at h
        rw [← h.2]
  · intro e st1 h hg
    unfold appendInsn at h
    cases hc : st.cur with
    | none =>
        simp only [hc, Except.error.injEq, Prod.mk.injEq] at h
        rw [← h.1] at hg
        exact absurd hg (not_guard_assert _)
    | some b => rw [hc] at h; exact absurd h (by simp)

theorem Good_setEdgesCur (t f : Option Nat) : Good (setEdgesCur t f) := by
  intro st
  constructor
  · intro a st1 h
    unfold setEdgesCur at h
    cases hc : st.cur with
    | none => rw [hc] at h; exact absurd h (by simp)
    | some b =>
        simp only [hc, Except.ok.injEq, Prod.mk.injEq] at h
        rw [← h.2]
  · intro e st1 h hg
    unfold setEdgesCur at h
    cases hc : st.cur with
    | none =>
        simp only [hc, Except.error.injEq, Prod.mk.injEq] at h
        rw [← h.1] at hg
        exact absurd hg (not_guard_assert _)
    | some b => rw [hc] at h; exact absurd h (by simp)

theorem Good_emit_jmp (b : Nat) : Good (emit_jmp b) := by
  intro st
  constructor
  · intro a st1 h
    unfold emit_jmp at h
    cases hc : st.cur with
    | none => rw [hc] at h; exact absurd h (by simp)
    | some cb =>
        simp only [hc, Except.ok.injEq, Prod.mk.injEq] at h
        rw [← h.2]
  · intro e st1 h hg
    unfold emit_jmp at h
    cases hc : st.cur with
    | none =>
        simp only [hc, Except.error.injEq, Prod.mk.injEq] at h
        rw [← h.1] at hg
        exact absurd hg (not_guard_assert _)
    | some cb => rw [hc] at h; exact absurd h (by simp)

theorem Good_use_tmp_space (n : Nat) : Good (use_tmp_space n) := by
  intro st
  constructor
  · intro a st1 h
    unfold use_tmp_space at h
    cases hc : bpf.use_tmp_space st.target st.max_tmp_space n with
    | ok m =>
        simp only [hc, Except.ok.injEq, Prod.mk.injEq] at h
        rw [← h.2]
    | error u => rw [hc] at h; exact absurd h (by simp)
  · intro e st1 h hg
    unfold use_tmp_space at h
    cases hc : bpf.use_tmp_space st.target st.max_tmp_space n with
    | ok m => rw [hc] at h; exact absurd h (by simp)
    | error u =>
        simp only [hc, Except.error.injEq, Prod.mk.injEq] at h
        rw [← h.1] at hg
        exact absurd hg (not_guard_assert _)

theorem Good_popCatchMsg : Good popCatchMsg := by
  intro st
  constructor
  · intro a st1 h
    unfold popCatchMsg at h
    cases hc : st.catch_msg with
    | nil => rw [hc] at h; exact absurd h (by simp)
    | cons m rest =>
        simp only [hc, Except.ok.injEq, Prod.mk.injEq] at h
        rw [← h.2]
  · intro e st1 h hg
    unfold popCatchMsg at h
    cases hc : st.catch_msg with
    | nil =>
        simp only [hc, Except.error.injEq, Prod.mk.injEq] at h
        rw [← h.1] at hg
        exact absurd hg (not_guard_assert _)
    | cons m rest => rw [hc] at h; exact absurd h (by simp)

theorem Good_mk_mov (d s : value) : Good (mk_mov d s) := Good_appendInsn _

theorem Good_emit_mov (d s : value) : Good (emit_mov d s) := Good_appendInsn _

theorem Good_mk_unary (op : AluOp) (d s : value) : Good (mk_unary op d s) :=
  Good_appendInsn _

theorem Good_mk_binary (op : AluOp) (d s0 s1 : value) :
    Good (mk_binary op d s0 s1) := Good_appendInsn _

theorem Good_mk_ld (sz : LdSz) (d b : value) (o : Int) :
    Good (mk_ld sz d b o) := Good_appendInsn _

theorem Good_mk_st (sz : LdSz) (b : value) (o : Int) (s : value) :
    Good (mk_st sz b o s) := Good_appendInsn _

theorem Good_mk_call (id : Int) (n : Nat) : Good (mk_call id n) := Good_appendInsn _

theorem Good_mk_exit : Good mk_exit := Good_appendInsn _

theorem Good_load_map (d : value) (s : Int) : Good (load_map d s) := Good_appendInsn _

theorem Good_mk_jcond (c : Cond) (s0 s1 : value) (t f : Nat) :
    Good (mk_jcond c s0 s1 t f) :=
  Good_bind (Good_appendInsn _) (fun _ => Good_setEdgesCur _ _)

theorem Good_pushBreak (b : Nat) : Good (pushBreak b) :=
  Good_okShape (fun _ => ()) _ (fun _ => rfl)

theorem Good_popBreak : Good popBreak :=
  Good_okShape (fun _ => ()) _ (fun _ => rfl)

theorem Good_pushCont (b : Nat) : Good (pushCont b) :=
  Good_okShape (fun _ => ()) _ (fun _ => rfl)

theorem Good_popCont : Good popCont :=
  Good_okShape (fun _ => ()) _ (fun _ => rfl)

theorem Good_pushCatch (b : Nat) : Good (pushCatch b) :=
  Good_okShape (fun _ => ()) _ (fun _ => rfl)

theorem Good_popCatch : Good popCatch :=
  Good_okShape (fun _ => ()) _ (fun _ => rfl)

theorem Good_pushCatchMsg (v : value) : Good (pushCatchMsg v) :=
  Good_okShape (fun _ => ()) _ (fun _ => rfl)

theorem Good_pushFuncCall (f : Nat) : Good (pushFuncCall f) :=
  Good_okShape (fun _ => ()) _ (fun _ => rfl)

theorem Good_popFuncCall : Good popFuncCall :=
  Good_okShape (fun _ => ()) _ (fun _ => rfl)

theorem Good_pushFuncReturn (b : Nat) : Good (pushFuncReturn b) :=
  Good_okShape (fun _ => ()) _ (fun _ => rfl)

theorem Good_popFuncReturn : Good popFuncReturn :=
  Good_okShape (fun _ => ()) _ (fun _ => rfl)

theorem Good_pushFuncReturnVal (v : value) : Good (pushFuncReturnVal v) :=
  Good_okShape (fun _ => ()) _ (fun _ => rfl)

theorem Good_popFuncReturnVal : Good popFuncReturnVal :=
  Good_okShape (fun _ => ()) _ (fun _ => rfl)

theorem Good_setLocals (l : List (Nat × value)) : Good (setLocals l) :=
  Good_okShape (fun _ => ()) _ (fun _ => rfl)

theorem Good_setExitBlock (b : Nat) : Good (setExitBlock b) :=
  Good_okShape (fun _ => ()) _ (fun _ => rfl)

theorem Good_pushForeachInfo (i : foreach_info) : Good (pushForeachInfo i) :=
  Good_okShape (fun _ => ()) _ (fun _ => rfl)

theorem Good_addLocal (id : Nat) (r : value) : Good (addLocal id r) :=
  Good_okShape (fun _ => ()) _ (fun _ => rfl)

theorem Good_ite {α : Type} (c : Prop) [Decidable c] (m1 m2 : EmitM α)
    (h1 : Good m1) (h2 : Good m2) : Good (if c then m1 else m2) := by
  split_ifs with h
  · exact h1
  · exact h2

theorem Good_ifInBlock (m : EmitM Unit) (hm : Good m) : Good (ifInBlock m) :=
  Good_bind Good_eGet (fun st => Good_ite _ m _ hm (Good_pure _))

theorem Good_guard {α : Type} (tok : Nat) (m : EmitM α) (hm : Good m) :
    Good ((eGet : EmitM UPState) >>= fun st =>
      if st.target = bpf_target.target_kernel_bpf then
        eThrow (Err.semantic loopGuardMsg tok)
      else m) := by
  intro st
  have heq : ∀ r, ((eGet : EmitM UPState) >>= fun s =>
      if s.target = bpf_target.target_kernel_bpf then
        eThrow (Err.semantic loopGuardMsg tok)
      else m) st = r ↔
      ((if st.target = bpf_target.target_kernel_bpf then
        (eThrow (Err.semantic loopGuardMsg tok) : EmitM α)
      else m) st = r) := fun r => Iff.rfl
  constructor
  · intro a st1 h
    rw [heq] at h
    split_ifs at h with ht
    · exact absurd h (by simp [eThrow])
    · exact (hm st).1 a st1 h
  · intro e st1 h hg
    rw [heq] at h
    split_ifs at h with ht
    · exact ht
    · exact (hm st).2 e st1 h hg

theorem Good_new_locals_aux :
    ∀ (vs : List VarDecl) (m : List (Nat × value)), Good (new_locals_aux m vs)
  | [], m => by unfold new_locals_aux; exact Good_pure m
  | v :: vs, m => by
      unfold new_locals_aux
      refine Good_bind Good_new_reg fun r => ?_
      cases assocFind v.id m with
      | some x => exact Good_eThrow _ (not_guard_assert _)
      | none => exact Good_new_locals_aux vs (m ++ [(v.id, r)])

theorem Good_new_locals (vars : List VarDecl) : Good (new_locals vars) :=
  Good_new_locals_aux vars []

theorem Good_install_formals :
    ∀ (vs : List VarDecl) (args : List value) (m : List (Nat × value)),
    Good (install_formals vs args m)
  | [], _, m => by unfold install_formals; exact Good_pure m
  | _ :: _, [], m => by unfold install_formals; exact Good_pure m
  | v :: vs, a :: rest, m => by
      unfold install_formals
      cases assocFind v.id m with
      | some x => exact Good_eThrow _ (not_guard_assert _)
      | none => exact Good_install_formals vs rest (m ++ [(v.id, a)])

theorem Good_foreach_keys : ∀ (vs : List VarDecl), Good (foreach_keys vs)
  | [] => by unfold foreach_keys; exact Good_pure []
  | v :: vs => by
      unfold foreach_keys
      refine Good_bind Good_eGet fun st => ?_
      cases assocFind v.id st.locals with
      | none => exact Good_eThrow _ (not_guard_sem _ _ (by decide))
      | some x =>
          exact Good_bind (Good_foreach_keys vs) fun others => Good_pure _

theorem Good_foreach_unpack (keyref : value) :
    ∀ (l : List (VarDecl × value × Nat)), Good (foreach_unpack keyref l)
  | [] => by unfold foreach_unpack; exact Good_pure ()
  | (keydecl, key, ofs) :: rest => by
      unfold foreach_unpack
      refine Good_bind ?_ fun _ => Good_foreach_unpack keyref rest
      cases keydecl.ty with
      | pe_long => exact Good_mk_ld _ _ _ _
      | pe_string =>
          exact Good_bind (Good_new_imm _) fun ov => Good_mk_binary _ _ _ _
      | pe_stats => exact Good_eThrow _ (not_guard_sem _ _ (by decide))
      | pe_unknown => exact Good_eThrow _ (not_guard_sem _ _ (by decide))

theorem foreach_info_scan_not_guard (sc tok : Nat) :
    ∀ (tys : List ExpType) (k : Nat) (info : foreach_info) (offs : List Nat)
    (e : Err),
    foreach_info_scan sc tok tys k info offs = Except.error e → ¬ isGuardErr e
  | [], _, _, _, e => by
      intro h
      simp [foreach_info_scan] at h
  | ty :: rest, k, info, offs, e => by
      intro h
      unfold foreach_info_scan at h
      cases ty with
      | pe_long =>
          simp only [Except.bind] at h
          exact foreach_info_scan_not_guard sc tok rest _ _ _ e h
      | pe_string =>
          simp only [Except.bind] at h
          exact foreach_info_scan_not_guard sc tok rest _ _ _ e h
      | pe_stats =>
          simp only [Except.bind, Except.error.injEq] at h
          rw [← h]
          exact not_guard_sem _ _ (by decide)
      | pe_unknown =>
          simp only [Except.bind, Except.error.injEq] at h
          rw [← h]
          exact not_guard_sem _ _ (by decide)

theorem Good_emit_transport_msg_noarg (msg : Int) :
    Good (emit_transport_msg_noarg msg) := by
  unfold emit_transport_msg_noarg
  refine Good_bind (Good_use_tmp_space 8) fun _ => ?_
  refine Good_bind (Good_lookup_reg 10) fun frame => ?_
  refine Good_bind (Good_new_imm msg) fun mv => ?_
  refine Good_bind (Good_mk_st _ _ _ _) fun _ => ?_
  refine Good_bind Good_eGet fun st => ?_
  refine Good_bind ?_ fun ctx => ?_
  · cases st.this_in_arg0 with
    | none => exact Good_new_imm 0
    | some a => exact Good_pure a
  · refine Good_bind (Good_lookup_reg 1) fun r1 => ?_
    refine Good_bind (Good_emit_mov _ _) fun _ => ?_
    refine Good_bind (Good_lookup_reg 2) fun r2 => ?_
    refine Good_bind (Good_load_map _ _) fun _ => ?_
    refine Good_bind (Good_lookup_reg 3) fun r3 => ?_
    refine Good_bind (Good_new_imm _) fun cpuv => ?_
    refine Good_bind (Good_emit_mov _ _) fun _ => ?_
    refine Good_bind (Good_lookup_reg 4) fun r4 => ?_
    refine Good_bind (Good_new_imm _) fun ofsv => ?_
    refine Good_bind (Good_mk_binary _ _ _ _) fun _ => ?_
    refine Good_bind (Good_lookup_reg 5) fun r5 => ?_
    refine Good_bind (Good_new_imm _) fun szv => ?_
    refine Good_bind (Good_emit_mov _ _) fun _ => ?_
    exact Good_mk_call _ _

theorem Good_add_epilogue : Good add_epilogue := by
  unfold add_epilogue
  refine Good_bind (Good_new_imm 0) fun i0 => ?_
  refine Good_bind (Good_lookup_reg 10) fun frame => ?_
  refine Good_bind Good_eGet fun st0 => ?_
  refine Good_bind (Good_new_imm st0.maxerrors) fun limit => ?_
  refine Good_bind Good_new_block fun error_block => ?_
  refine Good_bind Good_new_block fun exit_blk => ?_
  refine Good_bind ?_ fun _ => ?_
  · cases st0.error_status with
    | none => exact Good_eThrow _ (not_guard_assert _)
    | some es => exact Good_mk_jcond _ _ _ _ _
  · refine Good_bind (Good_set_block error_block) fun _ => ?_
    refine Good_bind (Good_emit_transport_msg_noarg _) fun _ => ?_
    refine Good_bind (Good_new_imm _) fun keyv => ?_
    refine Good_bind (Good_mk_st _ _ _ _) fun _ => ?_
    refine Good_bind (Good_use_tmp_space 4) fun _ => ?_
    refine Good_bind (Good_lookup_reg 1) fun r1 => ?_
    refine Good_bind (Good_load_map _ _) fun _ => ?_
    refine Good_bind (Good_lookup_reg 2) fun r2 => ?_
    refine Good_bind (Good_new_imm _) fun negkey => ?_
    refine Good_bind (Good_mk_binary _ _ _ _) fun _ => ?_
    refine Good_bind (Good_mk_call _ _) fun _ => ?_
    refine Good_bind Good_new_block fun increment_block => ?_
    refine Good_bind (Good_lookup_reg 0) fun r0 => ?_
    refine Good_bind (Good_mk_jcond _ _ _ _ _) fun _ => ?_
    refine Good_bind (Good_set_block _) fun _ => ?_
    refine Good_bind Good_new_reg fun error_count => ?_
    refine Good_bind (Good_mk_ld _ _ _ _) fun _ => ?_
    refine Good_bind (Good_new_imm 1) fun one => ?_
    refine Good_bind (Good_mk_binary _ _ _ _) fun _ => ?_
    refine Good_bind (Good_mk_st _ _ _ _) fun _ => ?_
    refine Good_bind (Good_use_tmp_space 8) fun _ => ?_
    refine Good_bind (Good_new_imm _) fun keyv2 => ?_
    refine Good_bind (Good_mk_st _ _ _ _) fun _ => ?_
    refine Good_bind (Good_use_tmp_space 4) fun _ => ?_
    refine Good_bind (Good_load_map _ _) fun _ => ?_
    refine Good_bind (Good_new_imm _) fun negkv => ?_
    refine Good_bind (Good_mk_binary _ _ _ _) fun _ => ?_
    refine Good_bind (Good_lookup_reg 3) fun r3 => ?_
    refine Good_bind (Good_new_imm _) fun negv => ?_
    refine Good_bind (Good_mk_binary _ _ _ _) fun _ => ?_
    refine Good_bind (Good_lookup_reg 4) fun r4 => ?_
    refine Good_bind (Good_new_imm 0) fun zero2 => ?_
    refine Good_bind (Good_mk_mov _ _) fun _ => ?_
    refine Good_bind (Good_mk_call _ _) fun _ => ?_
    refine Good_bind Good_new_block fun exceeded_block => ?_
    refine Good_bind (Good_mk_jcond _ _ _ _ _) fun _ => ?_
    refine Good_bind (Good_set_block _) fun _ => ?_
    refine Good_bind (Good_emit_transport_msg_noarg _) fun _ => ?_
    refine Good_bind (Good_emit_jmp _) fun _ => ?_
    exact Good_set_block _

theorem Good_get_exit_block : Good get_exit_block := by
  unfold get_exit_block
  refine Good_bind Good_eGet fun st => ?_
  cases st.exit_block with
  | some e => exact Good_pure e
  | none =>
      refine Good_bind Good_new_block fun e => ?_
      refine Good_bind (Good_set_block e) fun _ => ?_
      refine Good_bind Good_add_epilogue fun _ => ?_
      refine Good_bind Good_mk_exit fun _ => ?_
      refine Good_bind ?_ fun _ => ?_
      · cases st.cur with
        | some cont => exact Good_set_block cont
        | none => exact Good_eThrow _ (not_guard_assert _)
      · exact Good_bind (Good_setExitBlock e) fun _ => Good_pure e

theorem emit_all_good (fns : List FnDecl) : ∀ fuel : Nat,
    (∀ s, Good (emit_stmt fns fuel s)) ∧
    (∀ ss, Good (emit_stmts fns fuel ss)) ∧
    (∀ e, Good (emit_expr fns fuel e)) ∧
    (∀ as, Good (emit_args fns fuel as)) ∧
    (∀ e t f, Good (emit_cond fns fuel e t f)) ∧
    (∀ e, Good (emit_bool fns fuel e)) ∧
    (∀ f args, Good (emit_functioncall fns fuel f args)) := by
  intro fuel
  induction fuel with
  | zero =>
      refine ⟨fun s => ?_, fun ss => ?_, fun e => ?_, fun as => ?_,
        fun e t f => ?_, fun e => ?_, fun f args => ?_⟩
      · simp only [emit_stmt]; exact Good_eThrow _ not_guard_fuel
      · simp only [emit_stmts]; exact Good_eThrow _ not_guard_fuel
      · simp only [emit_expr]; exact Good_eThrow _ not_guard_fuel
      · simp only [emit_args]; exact Good_eThrow _ not_guard_fuel
      · simp only [emit_cond]; exact Good_eThrow _ not_guard_fuel
      · simp only [emit_bool]; exact Good_eThrow _ not_guard_fuel
      · simp only [emit_functioncall]; exact Good_eThrow _ not_guard_fuel
  | succ fuel ih =>
      obtain ⟨ihs, ihss, ihe, iha, ihc, ihb, ihf⟩ := ih
      refine ⟨fun s => ?_, fun ss => ?_, fun e => ?_, fun as => ?_,
        fun e t f => ?_, fun e => ?_, fun f args => ?_⟩
      · -- emit_stmt
        cases s with
        | block ss => simp only [emit_stmt]; exact ihss ss
        | null => simp only [emit_stmt]; exact Good_bind (Good_pure ()) fun _ => Good_pure ()
        | exprSt e =>
            simp only [emit_stmt]
            exact Good_bind (ihe e) fun _ => Good_pure ()
        | ifSt cond thenb elsb =>
            simp only [emit_stmt]
            refine Good_bind Good_new_block fun then_block => ?_
            refine Good_bind Good_new_block fun join_block => ?_
            cases elsb with
            | some elseb =>
                refine Good_bind Good_new_block fun else_block => ?_
                refine Good_bind (ihc cond then_block else_block) fun _ => ?_
                refine Good_bind (Good_set_block _) fun _ => ?_
                refine Good_bind (ihs thenb) fun _ => ?_
                refine Good_bind (Good_ifInBlock _ (Good_emit_jmp _)) fun _ => ?_
                refine Good_bind (Good_set_block _) fun _ => ?_
                refine Good_bind (ihs elseb) fun _ => ?_
                refine Good_bind (Good_ifInBlock _ (Good_emit_jmp _)) fun _ => ?_
                exact Good_set_block _
            | none =>
                refine Good_bind (ihc cond then_block join_block) fun _ => ?_
                refine Good_bind (Good_set_block _) fun _ => ?_
                refine Good_bind (ihs thenb) fun _ => ?_
                refine Good_bind (Good_ifInBlock _ (Good_emit_jmp _)) fun _ => ?_
                exact Good_set_block _
        | forLoop init cond incr body tok =>
            simp only [emit_stmt]
            refine Good_guard tok _ ?_
            refine Good_bind Good_new_block fun body_block => ?_
            refine Good_bind Good_new_block fun iter_block => ?_
            refine Good_bind Good_new_block fun test_block => ?_
            refine Good_bind Good_new_block fun join_block => ?_
            refine Good_bind (ihs init) fun _ => ?_
            refine Good_bind Good_eGet fun st2 => ?_
            refine Good_ite _ _ _ ?_ (Good_pure ())
            refine Good_bind (Good_emit_jmp _) fun _ => ?_
            refine Good_bind (Good_pushBreak _) fun _ => ?_
            refine Good_bind (Good_pushCont _) fun _ => ?_
            refine Good_bind (Good_set_block _) fun _ => ?_
            refine Good_bind (ihs body) fun _ => ?_
            refine Good_bind (Good_ifInBlock _ (Good_emit_jmp _)) fun _ => ?_
            refine Good_bind Good_popCont fun _ => ?_
            refine Good_bind Good_popBreak fun _ => ?_
            refine Good_bind (Good_set_block _) fun _ => ?_
            refine Good_bind (ihs incr) fun _ => ?_
            refine Good_bind (Good_ifInBlock _ (Good_emit_jmp _)) fun _ => ?_
            refine Good_bind (Good_set_block _) fun _ => ?_
            exact ihc cond body_block join_block
        | foreachLoop indexes base val sd sc limit slice body tok =>
            simp only [emit_stmt]
            refine Good_guard tok _ ?_
            refine Good_ite _ _ _ (Good_eThrow _ (not_guard_sem _ _ (by decide))) ?_
            refine Good_bind (Good_foreach_keys indexes) fun keys => ?_
            cases base with
            | num i tk => exact Good_eThrow _ (not_guard_sem _ _ (by decide))
            | strlit s0 tk => exact Good_eThrow _ (not_guard_sem _ _ (by decide))
            | binary op l r tk => exact Good_eThrow _ (not_guard_sem _ _ (by decide))
            | unary op o tk => exact Good_eThrow _ (not_guard_sem _ _ (by decide))
            | comparison op l r tk => exact Good_eThrow _ (not_guard_sem _ _ (by decide))
            | logical_and l r tk => exact Good_eThrow _ (not_guard_sem _ _ (by decide))
            | logical_or l r tk => exact Good_eThrow _ (not_guard_sem _ _ (by decide))
            | call refs cargs tk => exact Good_eThrow _ (not_guard_sem _ _ (by decide))
            | sym a atok =>
                dsimp only
                rcases hscan : foreach_info_scan sc tok a.index_types 0
                    ⟨sd, sc, 0, 0, 0⟩ [] with e0 | ⟨info1, key_offsets⟩
                · exact Good_eThrow e0
                    (foreach_info_scan_not_guard sc tok _ _ _ _ e0 hscan)
                · refine Good_bind Good_eGet fun st1 => ?_
                  refine Good_bind (Good_pushForeachInfo _) fun _ => ?_
                  refine Good_bind Good_eGet fun st2 => ?_
                  cases vkFind (VKey.user a.id) st2.globalsAssoc with
                  | none => exact Good_eThrow _ (not_guard_sem _ _ (by decide))
                  | some g =>
                      refine Good_ite _ _ _ (Good_eThrow _ (not_guard_assert _)) ?_
                      refine Good_bind ?_ fun map_id => ?_
                      · refine Good_ite _ _ _ ?_ (Good_pure _)
                        refine Good_bind Good_eGet fun st3 => ?_
                        cases assocFind a.id st3.array_stats with
                        | none => dsimp only; exact Good_eThrow _ (not_guard_sem _ _ (by decide))
                        | some all_fields =>
                            dsimp only
                            cases assocFind stat_iter_field all_fields with
                            | none => exact Good_eThrow _ (not_guard_assert _)
                            | some mid =>
                                exact Good_ite _ _ _
                                  (Good_eThrow _ (not_guard_sem _ _ (by decide)))
                                  (Good_pure _)
                      · refine Good_bind ?_ fun limitVal => ?_
                        · cases limit with
                          | none => exact Good_new_imm _
                          | some l => exact Good_new_reg
                        · refine Good_bind ?_ fun keyref => ?_
                          · refine Good_ite _ _ _ Good_new_reg ?_
                            cases keys with
                            | nil => exact Good_eThrow _ (not_guard_assert _)
                            | cons k0 krest => exact Good_pure _
                          · refine Good_bind (Good_new_imm 0) fun i0 => ?_
                            refine Good_bind (Good_new_imm _) fun idv => ?_
                            refine Good_bind (Good_lookup_reg 10) fun frame => ?_
                            refine Good_bind Good_new_block fun body_block => ?_
                            refine Good_bind Good_new_block fun load_block_1 => ?_
                            refine Good_bind Good_new_block fun iter_block => ?_
                            refine Good_bind Good_new_block fun join_block => ?_
                            refine Good_bind (Good_new_imm _) fun key_ofs => ?_
                            refine Good_bind (Good_new_imm _) fun newkey_ofs => ?_
                            refine Good_bind (Good_use_tmp_space 16) fun _ => ?_
                            refine Good_bind ?_ fun _ => ?_
                            · cases limit with
                              | none => exact Good_pure ()
                              | some l =>
                                  exact Good_bind (ihe l) fun lv => Good_mk_mov _ _
                            · refine Good_bind (Good_lookup_reg 1) fun r1 => ?_
                              refine Good_bind (Good_load_map _ _) fun _ => ?_
                              refine Good_bind (Good_lookup_reg 2) fun r2 => ?_
                              refine Good_bind (Good_mk_mov _ _) fun _ => ?_
                              refine Good_bind (Good_lookup_reg 3) fun r3 => ?_
                              refine Good_bind (Good_mk_binary _ _ _ _) fun _ => ?_
                              refine Good_bind (Good_lookup_reg 4) fun r4 => ?_
                              refine Good_bind (Good_mk_mov _ _) fun _ => ?_
                              refine Good_bind (Good_lookup_reg 5) fun r5 => ?_
                              refine Good_bind (Good_mk_mov _ _) fun _ => ?_
                              refine Good_bind (Good_mk_call _ _) fun _ => ?_
                              refine Good_bind (Good_lookup_reg 0) fun r0 => ?_
                              refine Good_bind (Good_mk_jcond _ _ _ _ _) fun _ => ?_
                              refine Good_bind (Good_set_block _) fun _ => ?_
                              refine Good_bind (Good_pushBreak _) fun _ => ?_
                              refine Good_bind (Good_pushCont _) fun _ => ?_
                              refine Good_bind (ihs body) fun _ => ?_
                              refine Good_bind Good_popCont fun _ => ?_
                              refine Good_bind Good_popBreak fun _ => ?_
                              refine Good_bind (Good_ifInBlock _ (Good_emit_jmp _)) fun _ => ?_
                              refine Good_bind (Good_set_block _) fun _ => ?_
                              refine Good_bind (Good_mk_st _ _ _ _) fun _ => ?_
                              refine Good_bind (Good_load_map _ _) fun _ => ?_
                              refine Good_bind (Good_mk_binary _ _ _ _) fun _ => ?_
                              refine Good_bind (Good_mk_binary _ _ _ _) fun _ => ?_
                              refine Good_bind (Good_mk_mov _ _) fun _ => ?_
                              refine Good_bind (Good_mk_mov _ _) fun _ => ?_
                              refine Good_bind (Good_mk_call _ _) fun _ => ?_
                              refine Good_bind (Good_mk_jcond _ _ _ _ _) fun _ => ?_
                              refine Good_bind (Good_set_block _) fun _ => ?_
                              refine Good_bind (Good_mk_ld _ _ _ _) fun _ => ?_
                              refine Good_bind
                                (Good_ite _ _ _ (Good_foreach_unpack _ _) (Good_pure ()))
                                fun _ => ?_
                              refine Good_bind ?_ fun _ => ?_
                              · cases val with
                                | none => exact Good_pure ()
                                | some valdecl =>
                                    refine Good_ite _ _ _
                                      (Good_eThrow _ (not_guard_sem _ _ (by decide))) ?_
                                    refine Good_bind Good_eGet fun st4 => ?_
                                    cases assocFind valdecl.id st4.locals with
                                    | none =>
                                        exact Good_eThrow _ (not_guard_sem _ _ (by decide))
                                    | some vv =>
                                        refine Good_bind Good_new_block fun load_block_2 => ?_
                                        refine Good_bind (Good_load_map _ _) fun _ => ?_
                                        refine Good_bind
                                          (Good_ite _ _ _ (Good_mk_binary _ _ _ _)
                                            (Good_mk_mov _ _)) fun _ => ?_
                                        refine Good_bind (Good_mk_call _ _) fun _ => ?_
                                        refine Good_bind (Good_mk_jcond _ _ _ _ _) fun _ => ?_
                                        refine Good_bind (Good_set_block _) fun _ => ?_
                                        cases valdecl.ty with
                                        | pe_long => exact Good_mk_ld _ _ _ _
                                        | pe_string => exact Good_mk_mov _ _
                                        | pe_stats =>
                                            exact Good_eThrow _ (not_guard_sem _ _ (by decide))
                                        | pe_unknown =>
                                            exact Good_eThrow _ (not_guard_sem _ _ (by decide))
                              · refine Good_bind ?_ fun _ => ?_
                                · cases limit with
                                  | none => exact Good_pure ()
                                  | some l =>
                                      exact Good_bind (Good_new_imm _) fun negone =>
                                        Good_mk_binary _ _ _ _
                                · exact Good_bind (Good_emit_jmp _) fun _ =>
                                    Good_set_block _
        | tryBlock tryB catchVar catchB =>
            simp only [emit_stmt]
            refine Good_bind Good_new_block fun catch_block => ?_
            refine Good_bind Good_new_block fun join_block => ?_
            refine Good_bind (Good_pushCatch _) fun _ => ?_
            refine Good_bind (ihs tryB) fun _ => ?_
            refine Good_bind Good_popCatch fun _ => ?_
            refine Good_bind (Good_ifInBlock _ (Good_emit_jmp _)) fun _ => ?_
            refine Good_bind (Good_set_block _) fun _ => ?_
            refine Good_bind ?_ fun _ => ?_
            · cases catchVar with
              | some cv =>
                  refine Good_bind Good_eGet fun st => ?_
                  cases assocFind cv.id st.locals with
                  | none => exact Good_eThrow _ (not_guard_sem _ _ (by decide))
                  | some catch_var =>
                      exact Good_bind Good_popCatchMsg fun error_var => Good_mk_mov _ _
              | none => exact Good_pure ()
            · refine Good_bind (ihs catchB) fun _ => ?_
              refine Good_bind (Good_ifInBlock _ (Good_emit_jmp _)) fun _ => ?_
              exact Good_set_block _
        | breakSt tok =>
            simp only [emit_stmt]
            refine Good_bind Good_eGet fun st => ?_
            cases st.loop_break with
            | nil => exact Good_eThrow _ (not_guard_sem _ _ (by decide))
            | cons b rest => exact Good_emit_jmp b
        | continueSt tok =>
            simp only [emit_stmt]
            refine Good_bind Good_eGet fun st => ?_
            cases st.loop_cont with
            | nil => exact Good_eThrow _ (not_guard_sem _ _ (by decide))
            | cons b rest => exact Good_emit_jmp b
        | returnSt val tok =>
            simp only [emit_stmt]
            refine Good_bind Good_eGet fun st => ?_
            cases st.func_return with
            | nil => exact Good_eThrow _ (not_guard_sem _ _ (by decide))
            | cons b rest =>
                cases st.func_return_val with
                | nil => exact Good_eThrow _ (not_guard_assert _)
                | cons rv rrest =>
                    refine Good_bind ?_ fun _ => Good_emit_jmp b
                    cases val with
                    | none => exact Good_pure ()
                    | some e => exact Good_bind (ihe e) fun v => Good_emit_mov _ _
        | raise msgVar =>
            simp only [emit_stmt]
            refine Good_bind Good_eGet fun st => ?_
            refine Good_bind ?_ fun msg => ?_
            · cases assocFind msgVar.id st.locals with
              | some m => exact Good_pure m
              | none =>
                  exact Good_bind Good_new_reg fun reg =>
                    Good_bind (Good_addLocal _ _) fun _ => Good_pure reg
            · refine Good_bind (Good_pushCatchMsg _) fun _ => ?_
              refine Good_bind Good_new_block fun error_block => ?_
              refine Good_bind Good_eGet fun st2 => ?_
              refine Good_bind ?_ fun _ => Good_set_block _
              cases st2.catch_jump with
              | nil => exact Good_emit_jmp _
              | cons c crest => exact Good_emit_jmp c
      · -- emit_stmts
        cases ss with
        | nil => simp only [emit_stmts]; exact Good_pure ()
        | cons s rest =>
            simp only [emit_stmts]
            exact Good_bind (ihs s) fun _ => ihss rest
      · -- emit_expr
        cases e with
        | num i tk => simp only [emit_expr]; exact Good_pure _
        | strlit s0 tk =>
            simp only [emit_expr]
            exact Good_ite _ _ _ (Good_eThrow _ (not_guard_sem _ _ (by decide)))
              (Good_pure _)
        | sym v tk =>
            simp only [emit_expr]
            refine Good_ite _ _ _ (Good_eThrow _ (not_guard_assert _)) ?_
            refine Good_bind Good_eGet fun st => ?_
            cases vkFind (VKey.user v.id) st.globalsAssoc with
            | some g =>
                refine Good_ite _ _ _ (Good_eThrow _ (not_guard_sem _ _ (by decide))) ?_
                refine Good_bind (Good_lookup_reg 10) fun frame => ?_
                refine Good_bind (Good_new_imm _) fun idxv => ?_
                refine Good_bind (Good_mk_st _ _ _ _) fun _ => ?_
                refine Good_bind (Good_use_tmp_space 4) fun _ => ?_
                refine Good_bind (Good_lookup_reg 1) fun r1 => ?_
                refine Good_bind (Good_load_map _ _) fun _ => ?_
                refine Good_bind (Good_lookup_reg 2) fun r2 => ?_
                refine Good_bind (Good_new_imm _) fun neg4 => ?_
                refine Good_bind (Good_mk_binary _ _ _ _) fun _ => ?_
                refine Good_bind (Good_mk_call _ _) fun _ => ?_
                refine Good_bind (Good_lookup_reg 0) fun r0 => ?_
                refine Good_bind (Good_new_imm 0) fun i0 => ?_
                refine Good_bind Good_new_block fun cont_block => ?_
                refine Good_bind Good_get_exit_block fun exit_blk => ?_
                refine Good_bind (Good_mk_jcond _ _ _ _ _) fun _ => ?_
                refine Good_bind (Good_set_block _) fun _ => ?_
                refine Good_bind Good_new_reg fun res => ?_
                cases v.ty with
                | pe_long => exact Good_bind (Good_mk_ld _ _ _ _) fun _ => Good_pure _
                | pe_string => exact Good_bind (Good_emit_mov _ _) fun _ => Good_pure _
                | pe_stats => exact Good_eThrow _ (not_guard_sem _ _ (by decide))
                | pe_unknown => exact Good_eThrow _ (not_guard_sem _ _ (by decide))
            | none =>
                cases assocFind v.id st.locals with
                | some res => exact Good_pure res
                | none => exact Good_eThrow _ (not_guard_sem _ _ (by decide))
        | binary op l r tk =>
            simp only [emit_expr]
            cases binop_code op with
            | none => exact Good_eThrow _ (not_guard_sem _ _ (by decide))
            | some code =>
                refine Good_bind Good_new_reg fun s0 => ?_
                refine Good_bind (ihe l) fun vl => ?_
                refine Good_bind (Good_mk_mov _ _) fun _ => ?_
                refine Good_bind (ihe r) fun s1 => ?_
                refine Good_bind Good_new_reg fun d => ?_
                exact Good_bind (Good_mk_binary _ _ _ _) fun _ => Good_pure d
        | unary op operand tk =>
            simp only [emit_expr]
            refine Good_ite _ _ _ ?_ ?_
            · refine Good_bind (ihe operand) fun s => ?_
              refine Good_bind Good_new_reg fun d => ?_
              exact Good_bind (Good_mk_unary _ _ _) fun _ => Good_pure d
            · refine Good_ite _ _ _ ?_ ?_
              · refine Good_bind (Good_new_imm _) fun s1 => ?_
                refine Good_bind (ihe operand) fun s0 => ?_
                refine Good_bind Good_new_reg fun d => ?_
                exact Good_bind (Good_mk_binary _ _ _ _) fun _ => Good_pure d
              · refine Good_ite _ _ _ (ihb _) ?_
                refine Good_ite _ _ _ (ihe operand)
                  (Good_eThrow _ (not_guard_sem _ _ (by decide)))
        | comparison op l r tk => simp only [emit_expr]; exact ihb _
        | logical_and l r tk => simp only [emit_expr]; exact ihb _
        | logical_or l r tk => simp only [emit_expr]; exact ihb _
        | call referents cargs tk =>
            simp only [emit_expr]
            cases referents with
            | nil => exact Good_eThrow _ (not_guard_sem _ _ (by decide))
            | cons fid rest =>
                cases rest with
                | cons f2 r2 => exact Good_eThrow _ (not_guard_sem _ _ (by decide))
                | nil =>
                    refine Good_bind Good_eGet fun st => ?_
                    refine Good_ite _ _ _ (Good_eThrow _ (not_guard_sem _ _ (by decide))) ?_
                    cases fns.find? (fun f => f.id = fid) with
                    | none => exact Good_eThrow _ (not_guard_assert _)
                    | some f =>
                        refine Good_ite _ _ _ (Good_eThrow _ (not_guard_assert _)) ?_
                        exact Good_bind (iha cargs) fun argvals => ihf f argvals
      · -- emit_args
        cases as with
        | nil => simp only [emit_args]; exact Good_pure []
        | cons a rest =>
            simp only [emit_args]
            refine Good_bind Good_new_reg fun r => ?_
            refine Good_bind (ihe a) fun v => ?_
            refine Good_bind (Good_emit_mov _ _) fun _ => ?_
            exact Good_bind (iha rest) fun others => Good_pure _
      · -- emit_cond
        cases e with
        | logical_or l r tk =>
            simp only [emit_cond]
            refine Good_bind Good_new_block fun cont_block => ?_
            refine Good_bind (ihc l t cont_block) fun _ => ?_
            exact Good_bind (Good_set_block _) fun _ => ihc r t f
        | logical_and l r tk =>
            simp only [emit_cond]
            refine Good_bind Good_new_block fun cont_block => ?_
            refine Good_bind (ihc l cont_block f) fun _ => ?_
            exact Good_bind (Good_set_block _) fun _ => ihc r t f
        | unary op operand tk =>
            simp only [emit_cond]
            refine Good_ite _ _ _ (ihc operand f t) ?_
            refine Good_bind (ihe _) fun s0 => ?_
            refine Good_bind (Good_new_imm 0) fun s1 => ?_
            exact Good_bind (Good_mk_jcond _ _ _ _ _) fun _ => Good_clear_block
        | comparison op l r tk =>
            simp only [emit_cond]
            refine Good_bind (ihe l) fun s0 => ?_
            refine Good_bind (ihe r) fun s1 => ?_
            cases cmp_cond op with
            | some c =>
                exact Good_bind (Good_mk_jcond _ _ _ _ _) fun _ => Good_clear_block
            | none => exact Good_eThrow _ (not_guard_sem _ _ (by decide))
        | binary op l r tk =>
            simp only [emit_cond]
            refine Good_ite _ _ _ ?_ ?_
            · refine Good_bind (ihe l) fun s0 => ?_
              refine Good_bind (ihe r) fun s1 => ?_
              exact Good_bind (Good_mk_jcond _ _ _ _ _) fun _ => Good_clear_block
            · refine Good_bind (ihe _) fun s0 => ?_
              refine Good_bind (Good_new_imm 0) fun s1 => ?_
              exact Good_bind (Good_mk_jcond _ _ _ _ _) fun _ => Good_clear_block
        | num i tk =>
            simp only [emit_cond]
            refine Good_bind (ihe _) fun s0 => ?_
            refine Good_bind (Good_new_imm 0) fun s1 => ?_
            exact Good_bind (Good_mk_jcond _ _ _ _ _) fun _ => Good_clear_block
        | strlit s0 tk =>
            simp only [emit_cond]
            refine Good_bind (ihe _) fun v0 => ?_
            refine Good_bind (Good_new_imm 0) fun s1 => ?_
            exact Good_bind (Good_mk_jcond _ _ _ _ _) fun _ => Good_clear_block
        | sym v tk =>
            simp only [emit_cond]
            refine Good_bind (ihe _) fun s0 => ?_
            refine Good_bind (Good_new_imm 0) fun s1 => ?_
            exact Good_bind (Good_mk_jcond _ _ _ _ _) fun _ => Good_clear_block
        | call referents cargs tk =>
            simp only [emit_cond]
            refine Good_bind (ihe _) fun s0 => ?_
            refine Good_bind (Good_new_imm 0) fun s1 => ?_
            exact Good_bind (Good_mk_jcond _ _ _ _ _) fun _ => Good_clear_block
      · -- emit_bool
        simp only [emit_bool]
        refine Good_bind Good_new_block fun else_block => ?_
        refine Good_bind Good_new_block fun join_block => ?_
        refine Good_bind Good_new_reg fun r => ?_
        refine Good_bind (Good_new_imm 1) fun one => ?_
        refine Good_bind (Good_emit_mov _ _) fun _ => ?_
        refine Good_bind (ihc e join_block else_block) fun _ => ?_
        refine Good_bind (Good_set_block _) fun _ => ?_
        refine Good_bind (Good_new_imm 0) fun zero => ?_
        refine Good_bind (Good_emit_mov _ _) fun _ => ?_
        refine Good_bind (Good_emit_jmp _) fun _ => ?_
        exact Good_bind (Good_set_block _) fun _ => Good_pure r
      · -- emit_functioncall
        simp only [emit_functioncall]
        refine Good_bind (Good_new_locals f.locals) fun locals0 => ?_
        refine Good_bind (Good_install_formals f.formal_args args locals0) fun locals1 => ?_
        refine Good_bind Good_eGet fun st => ?_
        refine Good_bind (Good_setLocals _) fun _ => ?_
        refine Good_bind Good_new_block fun join_block => ?_
        refine Good_bind Good_new_reg fun retval => ?_
        refine Good_bind (Good_pushFuncCall _) fun _ => ?_
        refine Good_bind (Good_pushFuncReturn _) fun _ => ?_
        refine Good_bind (Good_pushFuncReturnVal _) fun _ => ?_
        refine Good_bind (ihs f.body) fun _ => ?_
        refine Good_bind Good_popFuncReturnVal fun _ => ?_
        refine Good_bind Good_popFuncReturn fun _ => ?_
        refine Good_bind Good_popFuncCall fun _ => ?_
        refine Good_bind (Good_ifInBlock _ (Good_emit_jmp _)) fun _ => ?_
        refine Good_bind (Good_set_block _) fun _ => ?_
        exact Good_bind (Good_setLocals _) fun _ => Good_pure retval

/-- C3: translating a `for` loop or a `foreach` loop when the program
target is `target_kernel_bpf` raises the location-tagged semantic error
"unsupported loop in bpf kernel probe" with the translator state exactly
as it was (no instruction or block of the loop has been emitted), and on
`target_user_bpfinterp` no translation of any statement can produce that
error. -/
theorem loop_kernel_guard :
    (∀ (fns : List FnDecl) (fuel : Nat) (init : Stmt) (cond : Expr)
      (incr body : Stmt) (tok : Nat) (st : UPState),
      st.target = bpf_target.target_kernel_bpf →
      emit_stmt fns (fuel + 1) (Stmt.forLoop init cond incr body tok) st =
        Except.error (Err.semantic loopGuardMsg tok, st)) ∧
    (∀ (fns : List FnDecl) (fuel : Nat) (indexes : List VarDecl)
      (base : Expr) (val : Option VarDecl) (sd : Int) (sc : Nat)
      (limit : Option Expr) (slice : List Expr) (body : Stmt) (tok : Nat)
      (st : UPState),
      st.target = bpf_target.target_kernel_bpf →
      emit_stmt fns (fuel + 1)
        (Stmt.foreachLoop indexes base val sd sc limit slice body tok) st =
        Except.error (Err.semantic loopGuardMsg tok, st)) ∧
    (∀ (fns : List FnDecl) (fuel : Nat) (s : Stmt) (st : UPState)
      (tokk : Nat) (st1 : UPState),
      st.target = bpf_target.target_user_bpfinterp →
      emit_stmt fns fuel s st ≠
        Except.error (Err.semantic loopGuardMsg tokk, st1)) := by
  refine ⟨?_, ?_, ?_⟩
  · intro fns fuel init cond incr body tok st ht
    simp only [emit_stmt, EmitM_bind_eq, eGet, ht, if_true, eThrow, loopGuardMsg]
  · intro fns fuel indexes base val sd sc limit slice body tok st ht
    simp only [emit_stmt, EmitM_bind_eq, eGet, ht, if_true, eThrow, loopGuardMsg]
  · intro fns fuel s st tokk st1 ht h
    have hg := ((emit_all_good fns fuel).1 s st).2 _ _ h ⟨tokk, rfl⟩
    rw [ht] at hg
    cases hg

/-- Witness for C3 at the initial translator state: a trivial `for` loop
and a trivial `foreach` loop on the kernel target each produce exactly
the loop-guard error with the state preserved, and the same `for` loop
on the userspace target does not produce it. -/
theorem loop_kernel_guard_witness :
    emit_stmt [] 1 (Stmt.forLoop Stmt.null (Expr.num 0 0) Stmt.null Stmt.null 7)
        (initState bpf_target.target_kernel_bpf) =
      Except.error (Err.semantic loopGuardMsg 7,
        initState bpf_target.target_kernel_bpf) ∧
    emit_stmt [] 1
        (Stmt.foreachLoop [] (Expr.num 0 0) none 0 0 none [] Stmt.null 7)
        (initState bpf_target.target_kernel_bpf) =
      Except.error (Err.semantic loopGuardMsg 7,
        initState bpf_target.target_kernel_bpf) ∧
    emit_stmt [] 1 (Stmt.forLoop Stmt.null (Expr.num 0 0) Stmt.null Stmt.null 7)
        (initState bpf_target.target_user_bpfinterp) ≠
      Except.error (Err.semantic loopGuardMsg 7,
        initState bpf_target.target_user_bpfinterp) :=
  ⟨loop_kernel_guard.1 [] 0 Stmt.null (Expr.num 0 0) Stmt.null Stmt.null 7
      (initState bpf_target.target_kernel_bpf) rfl,
   loop_kernel_guard.2.1 [] 0 [] (Expr.num 0 0) none 0 0 none [] Stmt.null 7
      (initState bpf_target.target_kernel_bpf) rfl,
   loop_kernel_guard.2.2 [] 1
      (Stmt.forLoop Stmt.null (Expr.num 0 0) Stmt.null Stmt.null 7)
      (initState bpf_target.target_user_bpfinterp) 7
      (initState bpf_target.target_user_bpfinterp) rfl⟩

theorem insnSum_listModify (blocks : List BBlock) (n : Nat)
    (f : BBlock → BBlock) (k : Nat)
    (hf : ∀ b, (f b).insns.length = b.insns.length + k)
    (h : n < blocks.length) :
    ((listModify blocks n f).map (fun b => b.insns.length)).sum =
      (blocks.map (fun b => b.insns.length)).sum + k := by
  induction blocks generalizing n with
  | nil => simp at h
  | cons x xs ih =>
      cases n with
      | zero =>
          simp only [listModify, List.map_cons, List.sum_cons, hf x]
          omega
      | succ m =>
          simp only [listModify, List.map_cons, List.sum_cons,
            ih m (by simpa using Nat.lt_of_succ_lt_succ h)]
          omega

/-- C7: when the condition of a conditional branch is a bitwise-AND
binary expression, `emit_cond` emits exactly one conditional-jump
instruction of the bit-test kind `TEST` applied directly to the two
operand values — one instruction beyond the operand evaluations — while
the AND-then-compare lowering described by the specification as the
contrast (materialize `l & r` in a register, then test it against zero)
costs two. -/
theorem test_cond_lowering (fns : List FnDecl) (fuel : Nat) (l r : Expr)
    (tok t_dest f_dest : Nat) (st stA stB : UPState) (s0 s1 : value) (cb : Nat)
    (hl : emit_expr fns fuel l st = Except.ok (s0, stA))
    (hr : emit_expr fns fuel r stA = Except.ok (s1, stB))
    (hcur : stB.cur = some cb) (hcb : cb < stB.blocks.length) :
    ∃ stT stC : UPState,
      emit_cond fns (fuel + 1) (Expr.binary "&" l r tok) t_dest f_dest st =
        Except.ok ((), stT) ∧
      (stT.blocks.getD cb default).insns =
        (stB.blocks.getD cb default).insns ++ [Insn.jcond Cond.TEST s0 s1] ∧
      insnCount stT = insnCount stB + 1 ∧
      and_then_compare_lowering fns fuel l r t_dest f_dest st =
        Except.ok ((), stC) ∧
      insnCount stC = insnCount stB + 2 := by
  refine ⟨{ stB with
      blocks := listModify (listModify stB.blocks cb
        (fun blk => { blk with
          insns := blk.insns ++ [Insn.jcond Cond.TEST s0 s1] })) cb
        (fun blk => { blk with taken := some t_dest, fallthru := some f_dest }),
      cur := none },
    { stB with
      nextReg := stB.nextReg + 1,
      blocks := listModify (listModify (listModify stB.blocks cb
        (fun blk => { blk with
          insns := blk.insns ++
            [Insn.alu AluOp.AND (value.TMPREG stB.nextReg) s0 s1] })) cb
        (fun blk => { blk with
          insns := blk.insns ++
            [Insn.jcond Cond.NE (value.TMPREG stB.nextReg) (value.IMM 0)] })) cb
        (fun blk => { blk with taken := some t_dest, fallthru := some f_dest }),
      cur := none },
    ?_, ?_, ?_, ?_, ?_⟩
  · -- the TEST lowering runs and its result state
    simp only [emit_cond, if_true, EmitM_bind_eq, hl, hr, mk_jcond, appendInsn,
      hcur, setEdgesCur, clear_block, eGet, EmitM_pure_eq]
  · rw [listModify_getD_self _ _ _ _ (by rw [listModify_length]; exact hcb),
      listModify_getD_self _ _ _ _ hcb]
  · show insnCount _ = _
    unfold insnCount
    rw [insnSum_listModify _ _ _ 0 (fun b => by simp)
        (by rw [listModify_length]; exact hcb),
      insnSum_listModify _ _ _ 1 (fun b => by simp) hcb]
  · simp only [and_then_compare_lowering, EmitM_bind_eq, hl, hr, new_reg,
      new_imm, mk_binary, mk_jcond, appendInsn, hcur, setEdgesCur, clear_block,
      EmitM_pure_eq]
  · show insnCount _ = _
    unfold insnCount
    rw [insnSum_listModify _ _ _ 0 (fun b => by simp)
        (by rw [listModify_length, listModify_length]; exact hcb),
      insnSum_listModify _ _ _ 1 (fun b => by simp)
        (by rw [listModify_length]; exact hcb),
      insnSum_listModify _ _ _ 1 (fun b => by simp) hcb]

/-- Witness for C7: two literal operands at the initial userspace state;
the TEST lowering appends one instruction, the AND-then-compare lowering
two. -/
theorem test_cond_lowering_witness :
    ∃ stT stC : UPState,
      emit_cond [] 2 (Expr.binary "&" (Expr.num 3 0) (Expr.num 5 0) 0) 9 8
          (initState bpf_target.target_user_bpfinterp) =
        Except.ok ((), stT) ∧
      (stT.blocks.getD 0 default).insns =
        ((initState bpf_target.target_user_bpfinterp).blocks.getD 0
            default).insns ++
          [Insn.jcond Cond.TEST (value.IMM 3) (value.IMM 5)] ∧
      insnCount stT =
        insnCount (initState bpf_target.target_user_bpfinterp) + 1 ∧
      and_then_compare_lowering [] 1 (Expr.num 3 0) (Expr.num 5 0) 9 8
          (initState bpf_target.target_user_bpfinterp) =
        Except.ok ((), stC) ∧
      insnCount stC =
        insnCount (initState bpf_target.target_user_bpfinterp) + 2 :=
  test_cond_lowering [] 1 (Expr.num 3 0) (Expr.num 5 0) 0 9 8
    (initState bpf_target.target_user_bpfinterp)
    (initState bpf_target.target_user_bpfinterp)
    (initState bpf_target.target_user_bpfinterp)
    (value.IMM 3) (value.IMM 5) 0 (by rfl) (by rfl) (by rfl) (by decide)

theorem bind_ok {α β : Type} (m : EmitM α) (f : α → EmitM β)
    (st st1 : UPState) (b : β) (h : (m >>= f) st = Except.ok (b, st1)) :
    ∃ a st0, m st = Except.ok (a, st0) ∧ f a st0 = Except.ok (b, st1) := by
  rw [EmitM_bind_eq] at h
  cases hm : m st with
  | ok p =>
      obtain ⟨a, st0⟩ := p
      simp only [hm] at h
      exact ⟨a, st0, rfl, h⟩
  | error p => simp only [hm] at h; exact absurd h (by simp)

theorem new_locals_aux_state :
    ∀ (vs : List VarDecl) (m : List (Nat × value)) (st : UPState)
    (res : List (Nat × value)) (st1 : UPState),
    new_locals_aux m vs st = Except.ok (res, st1) →
    ∃ k, st1 = { st with nextReg := k }
  | [], m, st, res, st1 => by
      intro h
      simp only [new_locals_aux, EmitM_pure_eq, Except.ok.injEq,
        Prod.mk.injEq] at h
      exact ⟨st.nextReg, by rw [← h.2]⟩
  | v :: vs, m, st, res, st1 => by
      intro h
      simp only [new_locals_aux, EmitM_bind_eq, new_reg] at h
      cases hf : assocFind v.id m with
      | some x => rw [hf] at h; simp [eThrow] at h
      | none =>
          rw [hf] at h
          obtain ⟨k, hk⟩ := new_locals_aux_state vs
            (m ++ [(v.id, value.TMPREG st.nextReg)])
            { st with nextReg := st.nextReg + 1 } res st1 h
          exact ⟨k, by rw [hk]⟩

theorem install_formals_state :
    ∀ (vs : List VarDecl) (as0 : List value) (m : List (Nat × value))
    (st : UPState) (res : List (Nat × value)) (st1 : UPState),
    install_formals vs as0 m st = Except.ok (res, st1) → st1 = st
  | [], as0, m, st, res, st1 => by
      intro h
      simp only [install_formals, EmitM_pure_eq, Except.ok.injEq,
        Prod.mk.injEq] at h
      rw [← h.2]
  | v :: vs, [], m, st, res, st1 => by
      intro h
      simp only [install_formals, EmitM_pure_eq, Except.ok.injEq,
        Prod.mk.injEq] at h
      rw [← h.2]
  | v :: vs, a :: rest, m, st, res, st1 => by
      intro h
      simp only [install_formals] at h
      cases hf : assocFind v.id m with
      | some x => rw [hf] at h; simp [eThrow] at h
      | none =>
          rw [hf] at h
          exact install_formals_state vs rest (m ++ [(v.id, a)]) st res st1 h

/-- C8: a function call whose single resolved callee is already on the
active inlining stack fails with the "unhandled function recursion"
error (state preserved); a call whose referent set does not have exactly
one candidate fails with the "unhandled function overloading" error
(state preserved); and a successful inlining run returns a fresh
return-value register and leaves the insertion point on the join block
allocated at the call site, with the caller's local scope restored. -/
theorem functioncall_spec :
    (∀ (fns : List FnDecl) (fuel : Nat) (fid : Nat) (args : List Expr)
      (tok : Nat) (st : UPState), fid ∈ st.func_calls →
      emit_expr fns (fuel + 1) (Expr.call [fid] args tok) st =
        Except.error (Err.semantic "unhandled function recursion" tok, st)) ∧
    (∀ (fns : List FnDecl) (fuel : Nat) (referents : List Nat)
      (args : List Expr) (tok : Nat) (st : UPState), referents.length ≠ 1 →
      emit_expr fns (fuel + 1) (Expr.call referents args tok) st =
        Except.error (Err.semantic "unhandled function overloading" tok, st)) ∧
    (∀ (fns : List FnDecl) (fuel : Nat) (f : FnDecl) (argvals : List value)
      (st : UPState) (r : value) (st1 : UPState),
      emit_functioncall fns (fuel + 1) f argvals st = Except.ok (r, st1) →
      (∃ n, r = value.TMPREG n) ∧ st1.cur = some st.blocks.length ∧
        st1.locals = st.locals) := by
  refine ⟨?_, ?_, ?_⟩
  · intro fns fuel fid args tok st hmem
    simp only [emit_expr, EmitM_bind_eq, eGet, hmem, if_true, eThrow]
  · intro fns fuel referents args tok st hne
    cases referents with
    | nil => simp only [emit_expr, eThrow]
    | cons a t =>
        cases t with
        | nil => simp at hne
        | cons b t2 => simp only [emit_expr, eThrow]
  · intro fns fuel f argvals st r st1 h
    simp only [emit_functioncall] at h
    obtain ⟨locals0, stA, h1, h⟩ := bind_ok _ _ _ _ _ h
    obtain ⟨k, hkA⟩ := new_locals_aux_state f.locals [] st locals0 stA h1
    subst hkA
    obtain ⟨locals1, stB, h2, h⟩ := bind_ok _ _ _ _ _ h
    have hBA := install_formals_state _ _ _ _ _ _ h2
    subst hBA
    simp only [EmitM_bind_eq, eGet, setLocals, new_block, new_reg,
      pushFuncCall, pushFuncReturn, pushFuncReturnVal] at h
    obtain ⟨u, stD, h3, h⟩ := bind_ok _ _ _ _ _ h
    simp only [EmitM_bind_eq, popFuncReturnVal, popFuncReturn,
      popFuncCall] at h
    obtain ⟨u2, stE, h4, h⟩ := bind_ok _ _ _ _ _ h
    simp only [EmitM_bind_eq, set_block, setLocals, EmitM_pure_eq,
      Except.ok.injEq, Prod.mk.injEq] at h
    obtain ⟨hr, hst⟩ := h
    refine ⟨⟨_, hr.symm⟩, ?_, ?_⟩
    · rw [← hst]
    · rw [← hst]

set_option maxHeartbeats 1000000 in
/-- Witness for C8: a recursive call and an empty referent set fail with
the named errors at concrete states, and inlining a trivial
argument-free callee returns a fresh register with the cursor on the
join block and the (empty) caller scope restored. -/
theorem functioncall_spec_witness :
    emit_expr [] 1 (Expr.call [5] [] 3)
        { initState bpf_target.target_user_bpfinterp with func_calls := [5] } =
      Except.error (Err.semantic "unhandled function recursion" 3,
        { initState bpf_target.target_user_bpfinterp with func_calls := [5] }) ∧
    emit_expr [] 1 (Expr.call [] [] 3)
        (initState bpf_target.target_user_bpfinterp) =
      Except.error (Err.semantic "unhandled function overloading" 3,
        initState bpf_target.target_user_bpfinterp) ∧
    ((∃ n, (value.TMPREG 0 : value) = value.TMPREG n) ∧
      ({ initState bpf_target.target_user_bpfinterp with
          blocks := [⟨[], none, some 1⟩, ⟨[], none, none⟩],
          nextReg := 1, cur := some 1 } : UPState).cur =
        some (initState bpf_target.target_user_bpfinterp).blocks.length ∧
      ({ initState bpf_target.target_user_bpfinterp with
          blocks := [⟨[], none, some 1⟩, ⟨[], none, none⟩],
          nextReg := 1, cur := some 1 } : UPState).locals =
        (initState bpf_target.target_user_bpfinterp).locals) :=
  ⟨functioncall_spec.1 [] 0 5 [] 3
      { initState bpf_target.target_user_bpfinterp with func_calls := [5] }
      (by decide),
   functioncall_spec.2.1 [] 0 [] [] 3
      (initState bpf_target.target_user_bpfinterp) (by decide),
   functioncall_spec.2.2 [] 1 ⟨7, [], [], Stmt.null⟩ []
      (initState bpf_target.target_user_bpfinterp) (value.TMPREG 0)
      { initState bpf_target.target_user_bpfinterp with
          blocks := [⟨[], none, some 1⟩, ⟨[], none, none⟩],
          nextReg := 1, cur := some 1 } (by rfl)⟩

theorem boundedBy_spec (blocks : List BBlock) (n : Nat)
    (h : boundedBy blocks n = true) (i : Nat) (hi : i < blocks.length)
    (j : Nat) (hj : j ∈ succsOf blocks i) : j < n := by
  unfold boundedBy at h
  rw [List.all_eq_true] at h
  have hget : blocks.getD i default ∈ blocks := by
    have he := List.getD_eq_getElem blocks default hi
    rw [he]
    exact List.getElem_mem hi
  have hb := h _ hget
  rw [Bool.and_eq_true] at hb
  obtain ⟨ht, hf⟩ := hb
  unfold succsOf at hj
  rw [List.mem_append] at hj
  cases hj with
  | inl hjt =>
      cases hcase : (blocks.getD i default).taken with
      | none => simp only [hcase, Option.toList] at hjt; cases hjt
      | some t =>
          simp only [hcase, Option.toList, List.mem_singleton] at hjt
          simp only [hcase] at ht
          subst hjt
          exact of_decide_eq_true ht
  | inr hjf =>
      cases hcase : (blocks.getD i default).fallthru with
      | none => simp only [hcase, Option.toList] at hjf; cases hjf
      | some t =>
          simp only [hcase, Option.toList, List.mem_singleton] at hjf
          simp only [hcase] at hf
          subst hjf
          exact of_decide_eq_true hf

/-- C6: lowering `try { raise(msg) } catch (w) { }` from a state whose
edges all stay inside the existing blocks produces a CFG in which the
only edge into the catch block (block `N = |blocks|`) is the protected
body's jump-to-catch transfer out of the current block `cb` — installed
as `cb`'s fall-through edge to the innermost pushed catch target — and
no path from the body's normal-completion continuation (block `N + 2`,
whose jump goes to the join block `N + 1`) ever reaches the catch
block. -/
theorem try_catch_cfg (fns : List FnDecl) (f0 : Nat) (v w : VarDecl)
    (st : UPState) (cb : Nat) (m cw : value)
    (hcur : st.cur = some cb) (hcb : cb < st.blocks.length)
    (hm : assocFind v.id st.locals = some m)
    (hw : assocFind w.id st.locals = some cw)
    (hbound : boundedBy st.blocks st.blocks.length = true) :
    ∃ st1 : UPState,
      emit_stmt fns (f0 + 2) (Stmt.tryBlock (Stmt.raise v) (some w) Stmt.null)
          st = Except.ok ((), st1) ∧
      st1.blocks = listModify st.blocks cb
          (fun blk => { blk with fallthru := some st.blocks.length }) ++
        [⟨[Insn.mov cw m], none, some (st.blocks.length + 1)⟩,
         ⟨[], none, none⟩, ⟨[], none, some (st.blocks.length + 1)⟩] ∧
      (∀ i, edgeRel st1.blocks i st.blocks.length → i = cb) ∧
      (st1.blocks.getD cb default).fallthru = some st.blocks.length ∧
      ¬ Relation.ReflTransGen (edgeRel st1.blocks) (st.blocks.length + 2)
          st.blocks.length := by
  refine ⟨{ st with
      blocks := listModify st.blocks cb
          (fun blk => { blk with fallthru := some st.blocks.length }) ++
        [⟨[Insn.mov cw m], none, some (st.blocks.length + 1)⟩,
         ⟨[], none, none⟩, ⟨[], none, some (st.blocks.length + 1)⟩],
      cur := some (st.blocks.length + 1) }, ?_, rfl, ?_, ?_, ?_⟩
  · -- the translation runs to completion and produces exactly this CFG
    simp only [emit_stmt, EmitM_bind_eq, EmitM_pure_eq, new_block, pushCatch,
      popCatch, pushCatchMsg, popCatchMsg, eGet, set_block, ifInBlock,
      emit_jmp, mk_mov, appendInsn, hcur, hm, hw, Option.isSome, if_true]
    simp only [List.append_assoc, List.cons_append, List.nil_append,
      List.length_append, List.length_cons, List.length_nil, Nat.zero_add,
      List.tail_cons]
    rw [listModify_append_left _ _ _ _ hcb]
    rw [show st.blocks.length + 1 + 1 = st.blocks.length + 2 from rfl]
    rw [listModify_append_skip _ _ _ 2 _ (listModify_length st.blocks cb _)]
    rw [listModify_append_skip0 _ _ _ _ (listModify_length st.blocks cb _)]
    rw [listModify_append_skip0 _ _ _ _ (listModify_length st.blocks cb _)]
    simp only [listModify, BBlock.empty, List.nil_append]
  · -- only the jump-to-catch edge enters the catch block
    intro i hedge
    rcases Nat.lt_or_ge i st.blocks.length with hi | hi
    · by_cases hic : i = cb
      · exact hic
      · exfalso
        unfold edgeRel succsOf at hedge
        rw [getD_append_lt _ _ _ _ (by rw [listModify_length]; exact hi),
          listModify_getD_ne _ _ _ _ _ hic] at hedge
        have hlt := boundedBy_spec st.blocks st.blocks.length hbound i hi
          st.blocks.length hedge
        omega
    · exfalso
      obtain ⟨k, rfl⟩ := Nat.exists_eq_add_of_le hi
      unfold edgeRel succsOf at hedge
      rw [getD_append_skip _ _ _ _ _ (listModify_length st.blocks cb _)]
        at hedge
      rcases k with _ | _ | _ | k
      · simp only [List.getD_cons_zero, Option.toList, List.nil_append,
          List.mem_singleton] at hedge
        omega
      · simp only [List.getD_cons_succ, List.getD_cons_zero, Option.toList,
          List.append_nil] at hedge
        cases hedge
      · simp only [List.getD_cons_succ, List.getD_cons_zero, Option.toList,
          List.nil_append, List.mem_singleton] at hedge
        omega
      · simp only [List.getD_cons_succ, List.getD_nil, Option.toList] at hedge
        simp at hedge
  · -- the jump-to-catch is installed as the current block's fallthru
    rw [getD_append_lt _ _ _ _ (by rw [listModify_length]; exact hcb),
      listModify_getD_self _ _ _ _ hcb]
  · -- no path from the normal-completion continuation reaches the catch
    intro hpath
    rcases hpath.cases_head with heq | ⟨c, hc, hrest⟩
    · omega
    · have hc1 : c = st.blocks.length + 1 := by
        unfold edgeRel succsOf at hc
        rw [getD_append_skip _ _ _ _ _ (listModify_length st.blocks cb _)]
          at hc
        simp only [List.getD_cons_succ, List.getD_cons_zero, Option.toList,
          List.nil_append, List.mem_singleton] at hc
        exact hc
      subst hc1
      rcases hrest.cases_head with heq2 | ⟨d, hd, hrest2⟩
      · omega
      · unfold edgeRel succsOf at hd
        rw [getD_append_skip _ _ _ _ _ (listModify_length st.blocks cb _)]
          at hd
        simp only [List.getD_cons_succ, List.getD_cons_zero, Option.toList,
          List.append_nil] at hd
        cases hd

/-- Witness for C6 at a concrete one-block state with the raise message
and the catch variable bound in the local scope: the catch block is
block 1, its only incoming edge comes from block 0 (the protected
body), and block 3 (the body's normal continuation) cannot reach it. -/
theorem try_catch_cfg_witness :
    ∃ st1 : UPState,
      emit_stmt [] 2
          (Stmt.tryBlock (Stmt.raise ⟨1, ExpType.pe_string, 0, [], 0, 0⟩)
            (some ⟨2, ExpType.pe_string, 0, [], 0, 0⟩) Stmt.null)
          { initState bpf_target.target_user_bpfinterp with
            nextReg := 2,
            locals := [(1, value.TMPREG 0), (2, value.TMPREG 1)] } =
        Except.ok ((), st1) ∧
      st1.blocks =
        [⟨[], none, some 1⟩,
         ⟨[Insn.mov (value.TMPREG 1) (value.TMPREG 0)], none, some 2⟩,
         ⟨[], none, none⟩, ⟨[], none, some 2⟩] ∧
      (∀ i, edgeRel st1.blocks i 1 → i = 0) ∧
      (st1.blocks.getD 0 default).fallthru = some 1 ∧
      ¬ Relation.ReflTransGen (edgeRel st1.blocks) 3 1 :=
  try_catch_cfg [] 0 ⟨1, ExpType.pe_string, 0, [], 0, 0⟩
    ⟨2, ExpType.pe_string, 0, [], 0, 0⟩
    { initState bpf_target.target_user_bpfinterp with
      nextReg := 2,
      locals := [(1, value.TMPREG 0), (2, value.TMPREG 1)] }
    0 (value.TMPREG 0) (value.TMPREG 1) rfl (by decide) (by rfl) (by rfl)
    (by decide)

end tr

/-! ## Claim C9: storage-layout planner determinism and first-seen
map-id order -/

theorem assocFind_append [DecidableEq κ] (k : κ) (l1 l2 : List (κ × β)) :
    assocFind k (l1 ++ l2) =
      match assocFind k l1 with
      | some x => some x
      | none => assocFind k l2 := by
  induction l1 with
  | nil => simp [assocFind]
  | cons p rest ih =>
      obtain ⟨k0, v0⟩ := p
      by_cases h : k0 = k
      · simp [assocFind, h]
      · simpa [assocFind, h] using ih

theorem scalar_stats_add_element_shape (fields : List String) :
    ∀ (glob : GlobSt) (ti : Int) (g2 : GlobSt) (ti2 : Int),
    scalar_stats_add_element glob fields ti = Except.ok (g2, ti2) →
    g2.globalsAssoc = glob.globalsAssoc ∧ g2.maps.length = glob.maps.length := by
  induction fields with
  | nil =>
      intro glob ti g2 ti2 h
      simp only [scalar_stats_add_element, Except.ok.injEq, Prod.mk.injEq] at h
      obtain ⟨rfl, rfl⟩ := h
      exact ⟨rfl, rfl⟩
  | cons f rest ih =>
      intro glob ti g2 ti2 h
      cases hf : assocFind f glob.scalar_stats with
      | none => simp [scalar_stats_add_element, hf] at h
      | some map_id =>
          simp only [scalar_stats_add_element, hf] at h
          split_ifs at h with h1 h2
          · obtain ⟨ha, hm⟩ := ih _ _ _ _ h
            exact ⟨ha, by simpa [listModify_length] using hm⟩
          · obtain ⟨ha, hm⟩ := ih _ _ _ _ h
            exact ⟨ha, by simpa [listModify_length] using hm⟩

theorem stat_boot_shape (fields : List String) : ∀ g : GlobSt,
    (fields.foldl scalar_stats_boot g).globalsAssoc = g.globalsAssoc ∧
    g.maps.length ≤ (fields.foldl scalar_stats_boot g).maps.length := by
  induction fields with
  | nil => exact fun g => ⟨rfl, le_refl _⟩
  | cons f rest ih =>
      intro g
      obtain ⟨h1, h2⟩ := ih (scalar_stats_boot g f)
      refine ⟨?_, ?_⟩
      · simpa [scalar_stats_boot] using h1
      · refine le_trans ?_ h2
        simp [scalar_stats_boot]

theorem array_stats_fields_shape (v : VarDecl) (ks me : Nat)
    (fields : List String) : ∀ glob : GlobSt,
    (array_stats_fields v ks me glob fields).globalsAssoc = glob.globalsAssoc ∧
    glob.maps.length ≤ (array_stats_fields v ks me glob fields).maps.length := by
  induction fields with
  | nil => exact fun glob => ⟨rfl, le_refl _⟩
  | cons f rest ih =>
      intro glob
      simp only [array_stats_fields]
      obtain ⟨h1, h2⟩ := ih { glob with
        maps := glob.maps ++ [⟨BPF_MAP_TYPE_PERCPU_HASH, ks, 8, me, 0⟩],
        array_stats := assocSet v.id
          (((assocFind v.id glob.array_stats).getD []) ++
            [(f, (glob.maps.length : Int))]) glob.array_stats,
        aggregates := assocSet v.id (1 + (glob.aggregates.length : Int))
          glob.aggregates }
      refine ⟨h1, le_trans ?_ h2⟩
      simp

theorem translate_global_core_shape (acc : TGAcc) (v : VarDecl)
    (acc1 : TGAcc) (tm ti : Int)
    (h : translate_global_core acc v = Except.ok (acc1, tm, ti)) :
    acc1.glob.globalsAssoc = acc.glob.globalsAssoc ∧
    acc.glob.maps.length ≤ acc1.glob.maps.length ∧
    (isUserArray v → tm = (acc.glob.maps.length : Int) ∧
      acc.glob.maps.length < acc1.glob.maps.length) := by
  cases hv : v.arity with
  | zero =>
      have hnua : ¬ isUserArray v := by
        intro hu
        have := hu.1
        omega
      cases hty : v.ty with
      | pe_long =>
          simp only [translate_global_core, hv, hty] at h
          split_ifs at h with hlm <;>
          · simp only [Except.ok.injEq, Prod.mk.injEq] at h
            obtain ⟨rfl, -, -⟩ := h
            refine ⟨rfl, ?_, fun hu => absurd hu hnua⟩
            simp [listModify_length]
      | pe_string =>
          simp only [translate_global_core, hv, hty] at h
          split_ifs at h with hsm <;>
          · simp only [Except.ok.injEq, Prod.mk.injEq] at h
            obtain ⟨rfl, -, -⟩ := h
            refine ⟨rfl, ?_, fun hu => absurd hu hnua⟩
            simp [listModify_length]
      | pe_stats =>
          simp only [translate_global_core, hv, hty] at h
          cases hs : scalar_stats_add_element
              (if acc.glob.scalar_stats = [] then
                stat_fields.foldl scalar_stats_boot acc.glob
              else acc.glob) stat_fields (-1) with
          | error e => rw [hs] at h; simp [Except.bind] at h
          | ok r =>
              rw [hs] at h
              simp only [Except.bind] at h
              split_ifs at h with hge
              simp only [Except.ok.injEq, Prod.mk.injEq] at h
              obtain ⟨rfl, -, -⟩ := h
              obtain ⟨ha, hm⟩ := scalar_stats_add_element_shape _ _ _ _ _ hs
              have hboot := stat_boot_shape stat_fields acc.glob
              refine ⟨?_, ?_, fun hu => absurd hu hnua⟩
              · rw [ha]
                split_ifs with hempty
                · exact hboot.1
                · rfl
              · rw [hm]
                split_ifs with hempty
                · exact hboot.2
                · exact le_refl _
      | pe_unknown => simp [translate_global_core, hv, hty] at h
  | succ n =>
      simp only [translate_global_core, hv] at h
      cases hks : array_key_size v (n + 1) with
      | error e => rw [hks] at h; simp [Except.bind] at h
      | ok ks =>
          rw [hks] at h
          simp only [Except.bind] at h
          by_cases hstats : v.ty = ExpType.pe_stats
          · -- statistics array: this_map = -1
            rw [if_pos hstats] at h
            simp only [Except.ok.injEq, Prod.mk.injEq] at h
            obtain ⟨rfl, htm, -⟩ := h
            have hasf := array_stats_fields_shape v ks
              (if v.maxsize > 0 then v.maxsize else BPF_MAXMAPENTRIES)
              stat_fields
              { acc.glob with array_stats := assocSet v.id [] acc.glob.array_stats }
            exact ⟨hasf.1, hasf.2, fun hu => absurd hstats hu.2⟩
          · rw [if_neg hstats] at h
            cases hty : v.ty with
            | pe_long =>
                rw [hty] at h
                simp only [Except.bind, Except.ok.injEq, Prod.mk.injEq] at h
                obtain ⟨rfl, htm, -⟩ := h
                exact ⟨rfl, by simp, fun hu => ⟨htm.symm, by simp⟩⟩
            | pe_string =>
                rw [hty] at h
                simp only [Except.bind, Except.ok.injEq, Prod.mk.injEq] at h
                obtain ⟨rfl, htm, -⟩ := h
                exact ⟨rfl, by simp, fun hu => ⟨htm.symm, by simp⟩⟩
            | pe_stats => exact absurd hty hstats
            | pe_unknown => rw [hty] at h; simp [Except.bind] at h

theorem translate_global_var_step (acc : TGAcc) (v : VarDecl) (acc2 : TGAcc)
    (h : translate_global_var acc v = Except.ok acc2) :
    ∃ slot : map_slot,
      acc2.glob.globalsAssoc =
        acc.glob.globalsAssoc ++ [(VKey.user v.id, slot)] ∧
      assocFind (VKey.user v.id) acc.glob.globalsAssoc = none ∧
      acc.glob.maps.length ≤ acc2.glob.maps.length ∧
      (isUserArray v → slot.map_id = (acc.glob.maps.length : Int) ∧
        acc.glob.maps.length < acc2.glob.maps.length) := by
  unfold translate_global_var at h
  cases hc : translate_global_core acc v with
  | error e => rw [hc] at h; simp [Except.bind] at h
  | ok r =>
      obtain ⟨acc1, tm, ti⟩ := r
      obtain ⟨ha, hm, hu⟩ := translate_global_core_shape acc v acc1 tm ti hc
      rw [hc] at h
      simp only [Except.bind] at h
      split_ifs at h with him
      cases hf : assocFind (VKey.user v.id) acc1.glob.globalsAssoc with
      | some s => rw [hf] at h; simp at h
      | none =>
          rw [hf] at h
          simp only [Except.ok.injEq] at h
          refine ⟨⟨tm, ti⟩, ?_, ?_, ?_, ?_⟩
          · rw [← h]
            simp [ha]
          · rw [← ha]; exact hf
          · rw [← h]
            simpa using hm
          · intro hua
            obtain ⟨h1, h2⟩ := hu hua
            refine ⟨h1, ?_⟩
            rw [← h]
            simpa using h2

theorem translate_globals_loop_ext (vs : List VarDecl) :
    ∀ (acc acc2 : TGAcc),
    translate_globals_loop acc vs = Except.ok acc2 →
    acc.glob.maps.length ≤ acc2.glob.maps.length ∧
    ∃ ext, acc2.glob.globalsAssoc = acc.glob.globalsAssoc ++ ext := by
  induction vs with
  | nil =>
      intro acc acc2 h
      simp only [translate_globals_loop, Except.ok.injEq] at h
      subst h
      exact ⟨le_refl _, [], by simp⟩
  | cons v rest ih =>
      intro acc acc2 h
      simp only [translate_globals_loop] at h
      cases hstep : translate_global_var acc v with
      | error e => rw [hstep] at h; simp [Except.bind] at h
      | ok acc1 =>
          rw [hstep] at h
          simp only [Except.bind] at h
          obtain ⟨slot, hassoc, -, hlen, -⟩ := translate_global_var_step acc v acc1 hstep
          obtain ⟨hlen2, ext, hassoc2⟩ := ih acc1 acc2 h
          refine ⟨le_trans hlen hlen2, (VKey.user v.id, slot) :: ext, ?_⟩
          rw [hassoc2, hassoc]
          simp

theorem translate_globals_loop_lb (vs : List VarDecl) :
    ∀ (acc acc2 : TGAcc),
    translate_globals_loop acc vs = Except.ok acc2 →
    ∀ i (hi : i < vs.length), isUserArray (vs.get ⟨i, hi⟩) →
    ∀ s, assocFind (VKey.user (vs.get ⟨i, hi⟩).id) acc2.glob.globalsAssoc = some s →
    (acc.glob.maps.length : Int) ≤ s.map_id := by
  induction vs with
  | nil => intro acc acc2 h i hi; exact absurd hi (by simp)
  | cons v rest ih =>
      intro acc acc2 h i hi hua s hfind
      simp only [translate_globals_loop] at h
      cases hstep : translate_global_var acc v with
      | error e => rw [hstep] at h; simp [Except.bind] at h
      | ok acc1 =>
          rw [hstep] at h
          simp only [Except.bind] at h
          obtain ⟨slot, hassoc, hnew, hlen, hslot⟩ :=
            translate_global_var_step acc v acc1 hstep
          cases i with
          | zero =>
              obtain ⟨-, ext, hassoc2⟩ := translate_globals_loop_ext rest acc1 acc2 h
              rw [hassoc2, hassoc] at hfind
              rw [List.append_assoc, assocFind_append] at hfind
              simp only [List.get] at hua hfind
              rw [hnew] at hfind
              simp only [List.cons_append, List.nil_append,
                assocFind, if_true, Option.some.injEq] at hfind
              obtain ⟨h1, -⟩ := hslot hua
              rw [← hfind, h1]
          | succ i0 =>
              have hi0 : i0 < rest.length := by
                simpa using Nat.lt_of_succ_lt_succ hi
              have := ih acc1 acc2 h i0 hi0 (by simpa [List.get] using hua) s
                (by simpa [List.get] using hfind)
              have hle : (acc.glob.maps.length : Int) ≤
                  (acc1.glob.maps.length : Int) := by exact_mod_cast hlen
              omega

theorem translate_globals_loop_order (vs : List VarDecl) :
    ∀ (acc acc2 : TGAcc),
    translate_globals_loop acc vs = Except.ok acc2 →
    ∀ i j (hi : i < vs.length) (hj : j < vs.length), i < j →
    isUserArray (vs.get ⟨i, hi⟩) → isUserArray (vs.get ⟨j, hj⟩) →
    ∀ si sj,
      assocFind (VKey.user (vs.get ⟨i, hi⟩).id) acc2.glob.globalsAssoc = some si →
      assocFind (VKey.user (vs.get ⟨j, hj⟩).id) acc2.glob.globalsAssoc = some sj →
      si.map_id < sj.map_id := by
  induction vs with
  | nil => intro acc acc2 h i j hi; exact absurd hi (by simp)
  | cons v rest ih =>
      intro acc acc2 h i j hi hj hij huai huaj si sj hfi hfj
      simp only [translate_globals_loop] at h
      cases hstep : translate_global_var acc v with
      | error e => rw [hstep] at h; simp [Except.bind] at h
      | ok acc1 =>
          rw [hstep] at h
          simp only [Except.bind] at h
          obtain ⟨slot, hassoc, hnew, hlen, hslot⟩ :=
            translate_global_var_step acc v acc1 hstep
          cases j with
          | zero => exact absurd hij (by omega)
          | succ j0 =>
              have hj0 : j0 < rest.length := by
                simpa using Nat.lt_of_succ_lt_succ hj
              cases i with
              | zero =>
                  -- si is v's slot: map_id = maps.length at v's step
                  obtain ⟨-, ext, hassoc2⟩ :=
                    translate_globals_loop_ext rest acc1 acc2 h
                  rw [hassoc2, hassoc] at hfi
                  rw [List.append_assoc, assocFind_append] at hfi
                  simp only [List.get] at huai hfi
                  rw [hnew] at hfi
                  simp only [List.cons_append, List.nil_append,
                    assocFind, if_true, Option.some.injEq] at hfi
                  obtain ⟨h1, h2⟩ := hslot huai
                  have hlb := translate_globals_loop_lb rest acc1 acc2 h j0 hj0
                    (by simpa [List.get] using huaj) sj
                    (by simpa [List.get] using hfj)
                  rw [← hfi, h1]
                  have : (acc.glob.maps.length : Int) <
                      (acc1.glob.maps.length : Int) := by exact_mod_cast h2
                  omega
              | succ i0 =>
                  have hi0 : i0 < rest.length := by
                    simpa using Nat.lt_of_succ_lt_succ hi
                  exact ih acc1 acc2 h i0 j0 hi0 hj0 (by omega)
                    (by simpa [List.get] using huai)
                    (by simpa [List.get] using huaj) si sj
                    (by simpa [List.get] using hfi)
                    (by simpa [List.get] using hfj)

/-- C9: the storage-layout planner is deterministic — re-running
`translate_globals` on an equal, order-stable variable list from the
fresh internal-globals state produces the identical result (same
map-definition list, same per-variable `(map_id, idx)` slots) — and the
dedicated maps of user arrays are allocated in first-seen order: if two
non-statistics array variables occur at positions `i < j` of the list,
the slot recorded for the earlier one carries the strictly smaller map
identifier. -/
theorem translate_globals_spec :
    (∀ vs1 vs2 : List VarDecl, vs1 = vs2 →
      translate_globals vs1 = translate_globals vs2) ∧
    (∀ (vs : List VarDecl) (g : GlobSt), translate_globals vs = Except.ok g →
      ∀ i j (hi : i < vs.length) (hj : j < vs.length), i < j →
      isUserArray (vs.get ⟨i, hi⟩) → isUserArray (vs.get ⟨j, hj⟩) →
      ∀ si sj,
        assocFind (VKey.user (vs.get ⟨i, hi⟩).id) g.globalsAssoc = some si →
        assocFind (VKey.user (vs.get ⟨j, hj⟩).id) g.globalsAssoc = some sj →
        si.map_id < sj.map_id) := by
  constructor
  · intro vs1 vs2 h
    rw [h]
  · intro vs g hg i j hi hj hij huai huaj si sj hfi hfj
    unfold translate_globals at hg
    cases hloop : translate_globals_loop ⟨build_internal_globals, -1, -1⟩ vs with
    | error e => rw [hloop] at hg; simp [Except.map] at hg
    | ok acc2 =>
        rw [hloop] at hg
        simp only [Except.map, Except.ok.injEq] at hg
        subst hg
        exact translate_globals_loop_order vs _ acc2 hloop i j hi hj hij
          huai huaj si sj hfi hfj

/-- Witness for C9: two one-dimensional integer arrays declared in order
receive map ids 2 and 3 (after the two internal maps), and the recorded
slot of the first is strictly smaller. -/
theorem translate_globals_spec_witness :
    translate_globals
        [⟨10, ExpType.pe_long, 1, [ExpType.pe_long], 0, 0⟩] =
      translate_globals
        [⟨10, ExpType.pe_long, 1, [ExpType.pe_long], 0, 0⟩] ∧
    (map_slot.mk 2 (-1)).map_id < (map_slot.mk 3 (-1)).map_id := by
  constructor
  · exact translate_globals_spec.1 _ _ rfl
  · exact translate_globals_spec.2
      [⟨10, ExpType.pe_long, 1, [ExpType.pe_long], 0, 0⟩,
       ⟨11, ExpType.pe_long, 1, [ExpType.pe_long], 0, 0⟩]
      { maps :=
          [ ⟨BPF_MAP_TYPE_HASH, 4, 8, NUM_INTERNALS, 0⟩,
            ⟨BPF_MAP_TYPE_PERF_EVENT_ARRAY, 4, 4, NUM_CPUS_PLACEHOLDER, 0⟩,
            ⟨BPF_MAP_TYPE_HASH, 8, 8, BPF_MAXMAPENTRIES, 0⟩,
            ⟨BPF_MAP_TYPE_HASH, 8, 8, BPF_MAXMAPENTRIES, 0⟩ ]
        globalsAssoc :=
          [ (VKey.internal_exit, ⟨0, (idx_EXIT : Int)⟩),
            (VKey.internal_errors, ⟨0, (idx_ERRORS : Int)⟩),
            (VKey.user 10, ⟨2, -1⟩),
            (VKey.user 11, ⟨3, -1⟩) ]
        scalar_stats := []
        array_stats := []
        aggregates := [] }
      (by rfl) 0 1 (by decide) (by decide) (by decide)
      ⟨by decide, by decide⟩ ⟨by decide, by decide⟩
      ⟨2, -1⟩ ⟨3, -1⟩ (by decide) (by decide)

end bpf
